import Mathlib

/-!
# Redis-Sentinel operator: the reconciliation pass and the status it records

A shallow embedding of `controllers/handle/checker.go` (`CheckAndHeal`),
`controllers/handle.go` (`Do`, `updateStatus`), `api/v1/status.go` (the condition list)
and `api/v1/validate.go` (`Validate`).

* The live cluster is a value `w : W` (the *world*): everything the checker can
  observe, including the reading of the monotonic clock.
* The methods of `RsChecker` are read-only probes of the world (the observer is a
  read-only capability).  The methods of `RsHealer` and `time.Sleep` are the only
  operations that change it.  The interfaces themselves live outside the files
  under study, so a handler is any implementation of them.
* A Go `error` is observed by the code only through nil-ness and `Error()`, so
  it is modelled by its message; `Option GoError` is a Go `error` result and
  `none` is `nil`.
* `time.NewTimer(d)` started in world `w` fires once the clock reads
  `Now w + d`; the non-blocking `select` of the wait loop takes the timer branch
  exactly when it has fired.  `time.Sleep d` wakes up at least `d` later, which
  is what makes the wait loop terminate.
* Every pass returns an `Outcome`: the returned error, the world it leaves
  behind, and the chronological trace of the calls it made on its
  collaborators (checker, healer, event client, timer and sleep).  Logger
  calls are not recorded.
* The methods of `status.go` read the clock; they take its reading as an argument.
  A time is a number of nanoseconds, and an RFC3339 text is the whole second it names.
* A Go `map[string]string` is the list of its entries; only lookups and assignments
  are made on it.
* `Do` changes the object it is given in place, so it returns the object along with the
  error, the world and the trace.
-/

namespace RedisOperator

/-! ## Data model -/

/-- A Go `error` value, identified by the text `Error()` returns. -/
structure GoError where
  msg : String
deriving DecidableEq, Repr

/-- The `time.Second` constant, in nanoseconds (the unit of `time.Duration`). -/
def Second : Nat := 1000000000

/-- The `checkInterval` constant of `checker.go`. -/
def checkInterval : Nat := 5 * Second

/-- The `timeOut` constant of `checker.go`. -/
def timeOut : Nat := 30 * Second

/-- The `NeedRequeueMsg` constant of `checker.go`. -/
def NeedRequeueMsg : String := "need requeue"

/-- The package variable `needRequeueErr = errors.New(NeedRequeueMsg)`. -/
def needRequeueErr : GoError := ⟨NeedRequeueMsg⟩

/-- The error built by `errors.New` in the `default` branch of the master switch. -/
def moreThanOneMasterErr : GoError := ⟨"more than one master, fix manually"⟩

/-- The error built by `fmt.Errorf` when the restore timer fires. -/
def restoreTimeoutErr : GoError := ⟨"wait for resetore sentinel slave timeout"⟩

/-! ## `api/v1/status.go` -/

/-- The type `ConditionType`, a Go string. -/
abbrev ConditionType := String

/-- The constant `ClusterConditionAvailable`. -/
def ClusterConditionAvailable : ConditionType := "Available"

/-- The constant `ClusterConditionHealthy`. -/
def ClusterConditionHealthy : ConditionType := "Healthy"

/-- The constant `ClusterConditionRunning`. -/
def ClusterConditionRunning : ConditionType := "Running"

/-- The constant `ClusterConditionCreating`. -/
def ClusterConditionCreating : ConditionType := "Creating"

/-- The constant `ClusterConditionRecovering`. -/
def ClusterConditionRecovering : ConditionType := "Recovering"

/-- The constant `ClusterConditionScaling`. -/
def ClusterConditionScaling : ConditionType := "Scaling"

/-- The constant `ClusterConditionScalingDown`. -/
def ClusterConditionScalingDown : ConditionType := "ScalingDown"

/-- The constant `ClusterConditionUpgrading`. -/
def ClusterConditionUpgrading : ConditionType := "Upgrading"

/-- The constant `ClusterConditionUpdating`. -/
def ClusterConditionUpdating : ConditionType := "Updating"

/-- The constant `ClusterConditionFailed`. -/
def ClusterConditionFailed : ConditionType := "Failed"

/-- The constant `corev1.ConditionTrue`. -/
def ConditionTrue : String := "True"

/-- The text `t.Format(time.RFC3339)` of the instant `t`, given in nanoseconds.  The
layout shows whole seconds, so the text is identified with the second it shows. -/
def formatRFC3339 (t : Nat) : Nat := t / Second

/-- The struct `Condition`.  `type` is the Go field `Type`; `LastUpdateAt` is a
`time.Time`, in nanoseconds; `LastUpdateTime` and `LastTransitionTime` are RFC3339 texts,
see `formatRFC3339`. -/
structure Condition where
  type : ConditionType
  Status : String
  LastUpdateTime : Nat
  LastUpdateAt : Nat
  LastTransitionTime : Nat
  Reason : String
  Message : String
deriving DecidableEq, Repr

/-- The struct `RedisSentinelStatus`. -/
structure RedisSentinelStatus where
  Conditions : List Condition
  MasterIP : String
  SentinelIP : String
deriving DecidableEq, Repr

/-- The library function `sort.Slice` for the comparison `less`.  Go leaves the order of
elements that compare equal open; it is modelled by an insertion sort, and nothing proved
below depends on how ties are ordered. -/
def sortSlice {α : Type} (less : α → α → Bool) (l : List α) : List α :=
  l.insertionSort fun a b => less b a = false

/-- The method `DescConditionsByTime` (lines 56-60); `After` compares the instants. -/
def RedisSentinelStatus.DescConditionsByTime (rss : RedisSentinelStatus) :
    RedisSentinelStatus :=
  { rss with
    Conditions := sortSlice (fun a b => decide (a.LastUpdateAt > b.LastUpdateAt))
      rss.Conditions }

/-- The function `newClusterCondition` (lines 135-147), called when the clock reads `now`. -/
def newClusterCondition (now : Nat) (condType : ConditionType) (status reason message : String) :
    Condition :=
  { type := condType
    Status := status
    LastUpdateTime := formatRFC3339 now
    LastUpdateAt := now
    LastTransitionTime := formatRFC3339 now
    Reason := reason
    Message := message }

/-- The loop of `getClusterCondition` over the conditions from index `i` on. -/
def getClusterConditionFrom (t : ConditionType) : Nat → List Condition → Option (Nat × Condition)
  | _, [] => none
  | i, c :: rest => if t = c.type then some (i, c) else getClusterConditionFrom t (i + 1) rest

/-- The function `getClusterCondition` (lines 126-133).  The Go result `(-1, nil)` is
`none`; `(i, &c)` is `some (i, c)`, `c` being a copy of the condition at index `i`. -/
def getClusterCondition (rss : RedisSentinelStatus) (t : ConditionType) :
    Option (Nat × Condition) :=
  getClusterConditionFrom t 0 rss.Conditions

/-- The method `setClusterCondition` (lines 108-124), called when the clock reads `now`.
In the first branch the two assignments to `rss.Conditions[pos]` leave its other fields as
they are, which are those of its copy `cp`. -/
def RedisSentinelStatus.setClusterCondition (rss : RedisSentinelStatus) (now : Nat)
    (c : Condition) : RedisSentinelStatus :=
  match getClusterCondition rss c.type with
  | some (pos, cp) =>
    if cp.Status = c.Status ∧ cp.Reason = c.Reason ∧ cp.Message = c.Message then
      { rss with
        Conditions := rss.Conditions.set pos
          { cp with LastUpdateAt := now, LastUpdateTime := formatRFC3339 now } }
    else
      { rss with Conditions := rss.Conditions.set pos c }
  | none => { rss with Conditions := rss.Conditions ++ [c] }

/-- The method `SetScalingUpCondition` (lines 62-65). -/
def RedisSentinelStatus.SetScalingUpCondition (rss : RedisSentinelStatus) (now : Nat)
    (message : String) : RedisSentinelStatus :=
  rss.setClusterCondition now
    (newClusterCondition now ClusterConditionScaling ConditionTrue "Scaling up" message)

/-- The method `SetCreateCondition` (lines 67-70). -/
def RedisSentinelStatus.SetCreateCondition (rss : RedisSentinelStatus) (now : Nat)
    (message : String) : RedisSentinelStatus :=
  rss.setClusterCondition now
    (newClusterCondition now ClusterConditionCreating ConditionTrue "Creating" message)

/-- The method `SetScalingDownCondition` (lines 72-75). -/
def RedisSentinelStatus.SetScalingDownCondition (rss : RedisSentinelStatus) (now : Nat)
    (message : String) : RedisSentinelStatus :=
  rss.setClusterCondition now
    (newClusterCondition now ClusterConditionScaling ConditionTrue "Scaling down" message)

/-- The method `SetUpgradingCondition` (lines 77-81). -/
def RedisSentinelStatus.SetUpgradingCondition (rss : RedisSentinelStatus) (now : Nat)
    (message : String) : RedisSentinelStatus :=
  rss.setClusterCondition now
    (newClusterCondition now ClusterConditionUpgrading ConditionTrue "Cluster upgrading" message)

/-- The method `SetUpdatingCondition` (lines 83-87). -/
def RedisSentinelStatus.SetUpdatingCondition (rss : RedisSentinelStatus) (now : Nat)
    (message : String) : RedisSentinelStatus :=
  rss.setClusterCondition now
    (newClusterCondition now ClusterConditionUpdating ConditionTrue "Cluster updating" message)

/-- The method `SetReadyCondition` (lines 89-92). -/
def RedisSentinelStatus.SetReadyCondition (rss : RedisSentinelStatus) (now : Nat)
    (message : String) : RedisSentinelStatus :=
  rss.setClusterCondition now
    (newClusterCondition now ClusterConditionHealthy ConditionTrue "Cluster available" message)

/-- The method `SetFailedCondition` (lines 94-98). -/
def RedisSentinelStatus.SetFailedCondition (rss : RedisSentinelStatus) (now : Nat)
    (message : String) : RedisSentinelStatus :=
  rss.setClusterCondition now
    (newClusterCondition now ClusterConditionFailed ConditionTrue "Cluster failed" message)

/-- The method `ClearCondition` (lines 100-106). -/
def RedisSentinelStatus.ClearCondition (rss : RedisSentinelStatus) (t : ConditionType) :
    RedisSentinelStatus :=
  match getClusterCondition rss t with
  | none => rss
  | some (pos, _) =>
    { rss with Conditions := rss.Conditions.take pos ++ rss.Conditions.drop (pos + 1) }

/-- The types of the conditions of a status, in list order. -/
def RedisSentinelStatus.types (rss : RedisSentinelStatus) : List ConditionType :=
  rss.Conditions.map fun c => c.type

/-- One call of a method of `status.go` that changes the condition list, with the reading
of the clock at the call. -/
inductive StatusCall where
  | SetScalingUpCondition (now : Nat) (message : String)
  | SetCreateCondition (now : Nat) (message : String)
  | SetScalingDownCondition (now : Nat) (message : String)
  | SetUpgradingCondition (now : Nat) (message : String)
  | SetUpdatingCondition (now : Nat) (message : String)
  | SetReadyCondition (now : Nat) (message : String)
  | SetFailedCondition (now : Nat) (message : String)
  | ClearCondition (t : ConditionType)
deriving DecidableEq, Repr

/-- The status after the call `op`. -/
def StatusCall.run (op : StatusCall) (rss : RedisSentinelStatus) : RedisSentinelStatus :=
  match op with
  | .SetScalingUpCondition now message => rss.SetScalingUpCondition now message
  | .SetCreateCondition now message => rss.SetCreateCondition now message
  | .SetScalingDownCondition now message => rss.SetScalingDownCondition now message
  | .SetUpgradingCondition now message => rss.SetUpgradingCondition now message
  | .SetUpdatingCondition now message => rss.SetUpdatingCondition now message
  | .SetReadyCondition now message => rss.SetReadyCondition now message
  | .SetFailedCondition now message => rss.SetFailedCondition now message
  | .ClearCondition t => rss.ClearCondition t

/-- The status with no condition. -/
def emptyStatus : RedisSentinelStatus := ⟨[], "", ""⟩

/-! ## `api/v1/redissentinel_types.go` and `api/v1/validate.go` -/

/-- A Go `map[string]string`, as the list of its entries with distinct keys.  A nil map
and an empty map are both the empty list: the code only tells them apart in order to
replace the nil one by an empty one. -/
abbrev GoMap := List (String × String)

/-- The lookup `m[key]` with its `ok` flag. -/
def GoMap.get? (m : GoMap) (key : String) : Option String :=
  m.lookup key

/-- The assignment `m[key] = value`. -/
def GoMap.set : GoMap → String → String → GoMap
  | [], key, value => [(key, value)]
  | (k, v) :: rest, key, value =>
    if k = key then (key, value) :: rest else (k, v) :: GoMap.set rest key value

/-- The struct `corev1.ResourceRequirements`: two maps from resource name to quantity. -/
structure ResourceRequirements where
  Limits : GoMap
  Requests : GoMap
deriving DecidableEq, Repr

/-- The generated method `Size` of `corev1.ResourceRequirements`, the length of the wire
encoding.  The code only compares it with 0, and it is 0 exactly when both maps are empty;
the model counts the entries. -/
def ResourceRequirements.Size (r : ResourceRequirements) : Nat :=
  r.Limits.length + r.Requests.length

/-- The fields of the struct `SentinelSettings` that `validate.go` reads or writes. -/
structure SentinelSettings where
  Image : String
  Replicas : Int
  Resources : ResourceRequirements
deriving DecidableEq, Repr

/-- The fields of the struct `RedisSentinelSpec` that `validate.go` reads or writes. -/
structure RedisSentinelSpec where
  Size : Int
  Image : String
  Config : GoMap
  DisablePersistence : Bool
  Sentinel : SentinelSettings
deriving DecidableEq, Repr

/-- The struct `RedisSentinel`: namespace and name from `metav1.ObjectMeta`, the spec and
the status. -/
structure RedisSentinel where
  Namespace : String
  Name : String
  Spec : RedisSentinelSpec
  Status : RedisSentinelStatus
deriving DecidableEq, Repr

/-- The constant `maxNameLength`. -/
def maxNameLength : Nat := 48

/-- The constant `defaultRedisNumber`. -/
def defaultRedisNumber : Int := 3

/-- The constant `defaultSentinelNumber`. -/
def defaultSentinelNumber : Int := 3

/-- The constant `defaultRedisImage`. -/
def defaultRedisImage : String := "redis:5.0.4-alpine"

/-- The constant `defaultSlavePriority`. -/
def defaultSlavePriority : String := "1"

/-- The function `setConfigMapIfNotExist` (lines 82-86). -/
def setConfigMapIfNotExist (key value : String) (config : GoMap) : GoMap :=
  match config.get? key with
  | some _ => config
  | none => config.set key value

/-- The function `enablePersistence` (lines 71-80). -/
def enablePersistence (config : GoMap) : GoMap :=
  setConfigMapIfNotExist "save" "900 1 300 10" <|
  setConfigMapIfNotExist "stop-writes-on-bgsave-error" "no" <|
  setConfigMapIfNotExist "aof-load-truncated" "yes" <|
  setConfigMapIfNotExist "repl-diskless-sync" "yes" <|
  setConfigMapIfNotExist "repl-backlog-size" "62914560" <|
  setConfigMapIfNotExist "auto-aof-rewrite-percentage" "100" <|
  setConfigMapIfNotExist "auto-aof-rewrite-min-size" "536870912" <|
  setConfigMapIfNotExist "appendonly" "yes" config

/-- The function `disablePersistence` (lines 88-91). -/
def disablePersistence (config : GoMap) : GoMap :=
  (config.set "appendonly" "no").set "save" ""

/-- The function `defaultSentinelResource` (lines 93-104); quantities are kept as the texts
given to `resource.MustParse`. -/
def defaultSentinelResource : ResourceRequirements :=
  { Requests := [("cpu", "20m"), ("memory", "16Mi")]
    Limits := [("cpu", "100m"), ("memory", "60Mi")] }

/-- The method `Validate` (lines 26-69).  It changes the object in place, so the object is
returned along with the error, also when the error is not nil.  `len(rc.Name)` counts
bytes. -/
def RedisSentinel.Validate (rc : RedisSentinel) : Option GoError × RedisSentinel :=
  if rc.Name.utf8ByteSize > maxNameLength then
    (some ⟨"name length can\x27t be higher than 48"⟩, rc)
  else if rc.Spec.Size ≠ 0 ∧ rc.Spec.Size < defaultRedisNumber then
    (some ⟨"number of redis in spec is less than the minimum"⟩, rc)
  else
    let size := if rc.Spec.Size = 0 then defaultRedisNumber else rc.Spec.Size
    let rc1 : RedisSentinel := { rc with Spec := { rc.Spec with Size := size } }
    if rc1.Spec.Sentinel.Replicas ≠ 0 ∧ rc1.Spec.Sentinel.Replicas < defaultSentinelNumber then
      (some ⟨"number of sentinels in spec is less than the minimum"⟩, rc1)
    else
      let replicas :=
        if rc1.Spec.Sentinel.Replicas = 0 then defaultSentinelNumber
        else rc1.Spec.Sentinel.Replicas
      let image := if rc1.Spec.Image = "" then defaultRedisImage else rc1.Spec.Image
      let sentinelImage :=
        if rc1.Spec.Sentinel.Image = "" then defaultRedisImage else rc1.Spec.Sentinel.Image
      let resources :=
        if rc1.Spec.Sentinel.Resources.Size = 0 then defaultSentinelResource
        else rc1.Spec.Sentinel.Resources
      let config := rc1.Spec.Config.set "slave-priority" defaultSlavePriority
      let config :=
        if rc1.Spec.DisablePersistence = false then enablePersistence config
        else disablePersistence config
      (none,
        { rc1 with
          Spec :=
            { rc1.Spec with
              Image := image
              Config := config
              Sentinel :=
                { Image := sentinelImage, Replicas := replicas, Resources := resources } } })

/-- Modelled from the spec: `util.AuthConfig`, the optional shared secret used for
every protocol call to the Redis and Sentinel processes of one cluster. -/
structure AuthConfig where
  Password : String
deriving DecidableEq, Repr

/-- Modelled from the spec: `clustercache.StateType`, the transition phase inferred
for the current pass (Create / Scale-up / Scale-down / Upgrade / Update / Check).
The code under study only compares it with `Check`. -/
inductive StateType where
  | Create
  | ScaleUp
  | ScaleDown
  | Upgrade
  | Update
  | Check
deriving DecidableEq, Repr

/-- The fields of `clustercache.Meta` read by `CheckAndHeal` (`Obj`, `Auth`, `State`) and
by `updateStatus` (`Status`, `Message`). -/
structure Meta where
  Obj : RedisSentinel
  Auth : AuthConfig
  State : StateType
  Status : ConditionType
  Message : String
deriving DecidableEq, Repr

/-! ## Collaborators -/

/-- The calls a pass makes on its collaborators.  The cluster object and the
credentials are the same for every call of one pass and are not repeated here.  The
constructors up to `TimerC` are the calls of `checker.go`.  Those after it are made by
`handle.go` only: methods of the event client, `K8sUpdateCluster` for
`k8sServices.UpdateCluster`, `Ensure`, and the two methods of `metrics.ClusterMetrics`. -/
inductive Call where
  | CheckRedisNumber
  | CheckSentinelNumber
  | GetNumberMasters
  | GetRedisesIPs
  | GetMinimumRedisPodTime
  | GetMasterIP
  | CheckAllSlavesFromMaster (master : String)
  | CheckRedisConfig (ip : String)
  | GetSentinelsIPs
  | CheckSentinelMonitor (sip master : String)
  | CheckSentinelSlavesNumberInMemory (sip : String)
  | CheckSentinelNumberInMemory (sip : String)
  | MakeMaster (ip : String)
  | SetOldestAsMaster
  | SetMasterOnAll (master : String)
  | SetRedisCustomConfig (ip : String)
  | NewSentinelMonitor (sip master : String)
  | RestoreSentinel (sip : String)
  | SetSentinelCustomConfig (sip : String)
  | UpdateCluster (message : String)
  | FailedCluster (message : String)
  | Sleep (d : Nat)
  | TimerC
  | CreateCluster
  | NewSlaveAdd (message : String)
  | SlaveRemove (message : String)
  | EnsureCluster
  | CheckCluster
  | HealthCluster
  | K8sUpdateCluster
  | Ensure
  | SetClusterError
  | SetClusterOK
deriving DecidableEq, Repr

/-- The methods of the `RsHealer` interface. -/
def Call.isHealer : Call → Bool
  | .MakeMaster _ => true
  | .SetOldestAsMaster => true
  | .SetMasterOnAll _ => true
  | .SetRedisCustomConfig _ => true
  | .NewSentinelMonitor _ _ => true
  | .RestoreSentinel _ => true
  | .SetSentinelCustomConfig _ => true
  | _ => false

/-- The methods of the `RsChecker` interface. -/
def Call.isChecker : Call → Bool
  | .CheckRedisNumber => true
  | .CheckSentinelNumber => true
  | .GetNumberMasters => true
  | .GetRedisesIPs => true
  | .GetMinimumRedisPodTime => true
  | .GetMasterIP => true
  | .CheckAllSlavesFromMaster _ => true
  | .CheckRedisConfig _ => true
  | .GetSentinelsIPs => true
  | .CheckSentinelMonitor _ _ => true
  | .CheckSentinelSlavesNumberInMemory _ => true
  | .CheckSentinelNumberInMemory _ => true
  | _ => false

/-- One line of the trace: the call and the error it returned (`none` for `nil`,
and for the calls that return nothing). -/
structure Entry where
  call : Call
  err : Option GoError
deriving DecidableEq, Repr

/-- The `RsChecker` interface (`service.RedisClusterCheck`), as used by `checker.go`. -/
structure RedisClusterCheck (W : Type) where
  CheckRedisNumber : RedisSentinel → W → Option GoError
  CheckSentinelNumber : RedisSentinel → W → Option GoError
  GetNumberMasters : RedisSentinel → AuthConfig → W → Except GoError Int
  GetRedisesIPs : RedisSentinel → AuthConfig → W → Except GoError (List String)
  GetMinimumRedisPodTime : RedisSentinel → W → Except GoError Int
  GetMasterIP : RedisSentinel → AuthConfig → W → Except GoError String
  CheckAllSlavesFromMaster : String → RedisSentinel → AuthConfig → W → Option GoError
  CheckRedisConfig : RedisSentinel → String → AuthConfig → W → Option GoError
  GetSentinelsIPs : RedisSentinel → W → Except GoError (List String)
  CheckSentinelMonitor : String → String → AuthConfig → W → Option GoError
  CheckSentinelSlavesNumberInMemory : String → RedisSentinel → AuthConfig → W → Option GoError
  CheckSentinelNumberInMemory : String → RedisSentinel → AuthConfig → W → Option GoError

/-- The `RsHealer` interface (`service.RedisClusterHeal`), as used by `checker.go`:
each action returns its error and the world it leaves behind. -/
structure RedisClusterHeal (W : Type) where
  MakeMaster : String → AuthConfig → W → Option GoError × W
  SetOldestAsMaster : RedisSentinel → AuthConfig → W → Option GoError × W
  SetMasterOnAll : String → RedisSentinel → AuthConfig → W → Option GoError × W
  SetRedisCustomConfig : String → RedisSentinel → AuthConfig → W → Option GoError × W
  NewSentinelMonitor : String → String → RedisSentinel → AuthConfig → W → Option GoError × W
  RestoreSentinel : String → AuthConfig → W → Option GoError × W
  SetSentinelCustomConfig : String → RedisSentinel → AuthConfig → W → Option GoError × W

/-- The Go runtime clock: `Now` reads the monotonic clock of a world and `Sleep d`
is the world in which the goroutine wakes up; `time.Sleep` pauses for at least `d`. -/
structure Clock (W : Type) where
  Now : W → Nat
  Sleep : Nat → W → W
  Sleep_elapses : ∀ d w, Now w + d ≤ Now (Sleep d w)

/-- The collaborators of `RedisSentinelHandler` that `checker.go` uses. -/
structure RedisSentinelHandler (W : Type) where
  RsChecker : RedisClusterCheck W
  RsHealer : RedisClusterHeal W
  Time : Clock W

/-- What a pass, or a step of it, leaves behind. -/
structure Outcome (W : Type) where
  err : Option GoError
  world : W
  trace : List Entry

/-- The outcome `o` of a step that ran after the calls `pre`. -/
def Outcome.after {W : Type} (pre : List Entry) (o : Outcome W) : Outcome W :=
  ⟨o.err, o.world, pre ++ o.trace⟩

/-- Sequencing with `if err != nil { return err }`. -/
def Outcome.andThen {W : Type} (o : Outcome W) (k : W → Outcome W) : Outcome W :=
  match o.err with
  | some _ => o
  | none => (k o.world).after o.trace

/-! ## `checker.go` -/

/-- The body of the `for` loop of `setRedisConfig` (lines 138-146). -/
def setRedisConfigLoop {W : Type} (rsh : RedisSentinelHandler W) (meta : Meta) :
    List String → W → Outcome W
  | [], w => ⟨none, w, []⟩
  | rip :: rest, w =>
    match rsh.RsChecker.CheckRedisConfig meta.Obj rip meta.Auth w with
    | none => (setRedisConfigLoop rsh meta rest w).after [⟨.CheckRedisConfig rip, none⟩]
    | some e =>
      let r := rsh.RsHealer.SetRedisCustomConfig rip meta.Obj meta.Auth w
      let pre : List Entry :=
        [⟨.CheckRedisConfig rip, some e⟩,
         ⟨.UpdateCluster "set custom config for redis server", none⟩,
         ⟨.SetRedisCustomConfig rip, r.1⟩]
      match r.1 with
      | some e1 => ⟨some e1, r.2, pre⟩
      | none => (setRedisConfigLoop rsh meta rest r.2).after pre

/-- The method `setRedisConfig` (lines 133-148). -/
def setRedisConfig {W : Type} (rsh : RedisSentinelHandler W) (meta : Meta) (w : W) :
    Outcome W :=
  match rsh.RsChecker.GetRedisesIPs meta.Obj meta.Auth w with
  | .error e => ⟨some e, w, [⟨.GetRedisesIPs, some e⟩]⟩
  | .ok redises => (setRedisConfigLoop rsh meta redises w).after [⟨.GetRedisesIPs, none⟩]

/-- The body of the `for` loop of `setSentinelConfig` (lines 156-160). -/
def setSentinelConfigLoop {W : Type} (rsh : RedisSentinelHandler W) (meta : Meta) :
    List String → W → Outcome W
  | [], w => ⟨none, w, []⟩
  | sip :: rest, w =>
    let r := rsh.RsHealer.SetSentinelCustomConfig sip meta.Obj meta.Auth w
    match r.1 with
    | some e => ⟨some e, r.2, [⟨.SetSentinelCustomConfig sip, some e⟩]⟩
    | none => (setSentinelConfigLoop rsh meta rest r.2).after [⟨.SetSentinelCustomConfig sip, none⟩]

/-- The method `setSentinelConfig` (lines 151-162). -/
def setSentinelConfig {W : Type} (rsh : RedisSentinelHandler W) (meta : Meta)
    (sentinels : List String) (w : W) : Outcome W :=
  if meta.State = StateType.Check then ⟨none, w, []⟩
  else setSentinelConfigLoop rsh meta sentinels w

/-- The `for`/`select` loop of `waitRestoreSentinelSlavesOK` (lines 167-179), for a
timer that fires at clock reading `deadline`. -/
def waitRestoreLoop {W : Type} (rsh : RedisSentinelHandler W) (sentinel : String)
    (rs : RedisSentinel) (auth : AuthConfig) (deadline : Nat) (w : W) : Outcome W :=
  if _fired : deadline ≤ rsh.Time.Now w then
    ⟨some restoreTimeoutErr, w, [⟨.TimerC, none⟩]⟩
  else
    match rsh.RsChecker.CheckSentinelSlavesNumberInMemory sentinel rs auth w with
    | some e =>
      (waitRestoreLoop rsh sentinel rs auth deadline (rsh.Time.Sleep checkInterval w)).after
        [⟨.CheckSentinelSlavesNumberInMemory sentinel, some e⟩, ⟨.Sleep checkInterval, none⟩]
    | none => ⟨none, w, [⟨.CheckSentinelSlavesNumberInMemory sentinel, none⟩]⟩
termination_by deadline - rsh.Time.Now w
decreasing_by
  have h := rsh.Time.Sleep_elapses checkInterval w
  simp only [checkInterval, Second] at h ⊢
  omega

/-- The method `waitRestoreSentinelSlavesOK` (lines 164-180). -/
def waitRestoreSentinelSlavesOK {W : Type} (rsh : RedisSentinelHandler W) (sentinel : String)
    (rs : RedisSentinel) (auth : AuthConfig) (w : W) : Outcome W :=
  waitRestoreLoop rsh sentinel rs auth (rsh.Time.Now w + timeOut) w

/-- The master-count switch of `CheckAndHeal` (lines 48-74). -/
def electMaster {W : Type} (rsh : RedisSentinelHandler W) (meta : Meta) (nMasters : Int)
    (w : W) : Outcome W :=
  if nMasters = 0 then
    match rsh.RsChecker.GetRedisesIPs meta.Obj meta.Auth w with
    | .error e => ⟨some e, w, [⟨.UpdateCluster "set master", none⟩, ⟨.GetRedisesIPs, some e⟩]⟩
    | .ok redisesIP =>
      match redisesIP with
      | [ip] =>
        let r := rsh.RsHealer.MakeMaster ip meta.Auth w
        ⟨r.1, r.2, [⟨.UpdateCluster "set master", none⟩, ⟨.GetRedisesIPs, none⟩,
          ⟨.MakeMaster ip, r.1⟩]⟩
      | _ =>
        match rsh.RsChecker.GetMinimumRedisPodTime meta.Obj w with
        | .error e =>
          ⟨some e, w, [⟨.UpdateCluster "set master", none⟩, ⟨.GetRedisesIPs, none⟩,
            ⟨.GetMinimumRedisPodTime, some e⟩]⟩
        | .ok _ =>
          let r := rsh.RsHealer.SetOldestAsMaster meta.Obj meta.Auth w
          ⟨r.1, r.2, [⟨.UpdateCluster "set master", none⟩, ⟨.GetRedisesIPs, none⟩,
            ⟨.GetMinimumRedisPodTime, none⟩, ⟨.SetOldestAsMaster, r.1⟩]⟩
  else if nMasters = 1 then ⟨none, w, []⟩
  else ⟨some moreThanOneMasterErr, w, []⟩

/-- The slave check of `CheckAndHeal` (lines 80-85). -/
def rewireSlaves {W : Type} (rsh : RedisSentinelHandler W) (meta : Meta) (master : String)
    (w : W) : Outcome W :=
  match rsh.RsChecker.CheckAllSlavesFromMaster master meta.Obj meta.Auth w with
  | none => ⟨none, w, [⟨.CheckAllSlavesFromMaster master, none⟩]⟩
  | some e =>
    let r := rsh.RsHealer.SetMasterOnAll master meta.Obj meta.Auth w
    ⟨r.1, r.2, [⟨.CheckAllSlavesFromMaster master, some e⟩, ⟨.SetMasterOnAll master, r.1⟩]⟩

/-- The sentinel monitor loop of `CheckAndHeal` (lines 95-102). -/
def checkMonitors {W : Type} (rsh : RedisSentinelHandler W) (meta : Meta) (master : String) :
    List String → W → Outcome W
  | [], w => ⟨none, w, []⟩
  | sip :: rest, w =>
    match rsh.RsChecker.CheckSentinelMonitor sip master meta.Auth w with
    | none => (checkMonitors rsh meta master rest w).after [⟨.CheckSentinelMonitor sip master, none⟩]
    | some e =>
      let r := rsh.RsHealer.NewSentinelMonitor sip master meta.Obj meta.Auth w
      let pre : List Entry :=
        [⟨.CheckSentinelMonitor sip master, some e⟩, ⟨.NewSentinelMonitor sip master, r.1⟩]
      match r.1 with
      | some e1 => ⟨some e1, r.2, pre⟩
      | none => (checkMonitors rsh meta master rest r.2).after pre

/-- The sentinel slave-count loop of `CheckAndHeal` (lines 103-115). -/
def restoreSlaves {W : Type} (rsh : RedisSentinelHandler W) (meta : Meta) :
    List String → W → Outcome W
  | [], w => ⟨none, w, []⟩
  | sip :: rest, w =>
    match rsh.RsChecker.CheckSentinelSlavesNumberInMemory sip meta.Obj meta.Auth w with
    | none =>
      (restoreSlaves rsh meta rest w).after [⟨.CheckSentinelSlavesNumberInMemory sip, none⟩]
    | some e =>
      let r := rsh.RsHealer.RestoreSentinel sip meta.Auth w
      let pre : List Entry :=
        [⟨.CheckSentinelSlavesNumberInMemory sip, some e⟩, ⟨.RestoreSentinel sip, r.1⟩]
      match r.1 with
      | some e1 => ⟨some e1, r.2, pre⟩
      | none =>
        ((waitRestoreSentinelSlavesOK rsh sip meta.Obj meta.Auth r.2).andThen
          (restoreSlaves rsh meta rest)).after pre

/-- The sentinel peer-count loop of `CheckAndHeal` (lines 116-124). -/
def restorePeers {W : Type} (rsh : RedisSentinelHandler W) (meta : Meta) :
    List String → W → Outcome W
  | [], w => ⟨none, w, []⟩
  | sip :: rest, w =>
    match rsh.RsChecker.CheckSentinelNumberInMemory sip meta.Obj meta.Auth w with
    | none => (restorePeers rsh meta rest w).after [⟨.CheckSentinelNumberInMemory sip, none⟩]
    | some e =>
      let r := rsh.RsHealer.RestoreSentinel sip meta.Auth w
      let pre : List Entry :=
        [⟨.CheckSentinelNumberInMemory sip, some e⟩, ⟨.RestoreSentinel sip, r.1⟩]
      match r.1 with
      | some e1 => ⟨some e1, r.2, pre⟩
      | none => (restorePeers rsh meta rest r.2).after pre

/-- The sentinel part of `CheckAndHeal` (lines 95-130), for the resolved `master` and
the sentinel addresses `sentinels`. -/
def healSentinels {W : Type} (rsh : RedisSentinelHandler W) (meta : Meta) (master : String)
    (sentinels : List String) (w : W) : Outcome W :=
  (checkMonitors rsh meta master sentinels w).andThen fun w1 =>
  (restoreSlaves rsh meta sentinels w1).andThen fun w2 =>
  (restorePeers rsh meta sentinels w2).andThen fun w3 =>
  setSentinelConfig rsh meta sentinels w3

/-- The part of `CheckAndHeal` that follows the master-count switch (lines 76-130). -/
def healTopology {W : Type} (rsh : RedisSentinelHandler W) (meta : Meta) (w : W) :
    Outcome W :=
  match rsh.RsChecker.GetMasterIP meta.Obj meta.Auth w with
  | .error e => ⟨some e, w, [⟨.GetMasterIP, some e⟩]⟩
  | .ok master =>
    Outcome.after [⟨.GetMasterIP, none⟩] <|
    (rewireSlaves rsh meta master w).andThen fun w1 =>
    (setRedisConfig rsh meta w1).andThen fun w2 =>
    match rsh.RsChecker.GetSentinelsIPs meta.Obj w2 with
    | .error e => ⟨some e, w2, [⟨.GetSentinelsIPs, some e⟩]⟩
    | .ok sentinels =>
      (healSentinels rsh meta master sentinels w2).after [⟨.GetSentinelsIPs, none⟩]

/-- The method `CheckAndHeal` (lines 33-131). -/
def CheckAndHeal {W : Type} (rsh : RedisSentinelHandler W) (meta : Meta) (w : W) :
    Outcome W :=
  match rsh.RsChecker.CheckRedisNumber meta.Obj w with
  | some e =>
    ⟨some needRequeueErr, w,
      [⟨.CheckRedisNumber, some e⟩, ⟨.UpdateCluster "wait for all redis server start", none⟩]⟩
  | none =>
    match rsh.RsChecker.CheckSentinelNumber meta.Obj w with
    | some e =>
      ⟨none, w, [⟨.CheckRedisNumber, none⟩, ⟨.CheckSentinelNumber, some e⟩,
        ⟨.FailedCluster e.msg, none⟩]⟩
    | none =>
      Outcome.after [⟨.CheckRedisNumber, none⟩, ⟨.CheckSentinelNumber, none⟩] <|
      match rsh.RsChecker.GetNumberMasters meta.Obj meta.Auth w with
      | .error e => ⟨some e, w, [⟨.GetNumberMasters, some e⟩]⟩
      | .ok nMasters =>
        Outcome.after [⟨.GetNumberMasters, none⟩] <|
        (electMaster rsh meta nMasters w).andThen (healTopology rsh meta)



/-! ## Which calls each step can make -/

/-- The calls of the master-count switch. -/
def Call.ofElectMaster : Call → Bool
  | .UpdateCluster _ => true
  | .GetRedisesIPs => true
  | .MakeMaster _ => true
  | .GetMinimumRedisPodTime => true
  | .SetOldestAsMaster => true
  | _ => false

/-- The calls of the slave check. -/
def Call.ofRewireSlaves : Call → Bool
  | .CheckAllSlavesFromMaster _ => true
  | .SetMasterOnAll _ => true
  | _ => false

/-- The calls of `setRedisConfig`. -/
def Call.ofSetRedisConfig : Call → Bool
  | .GetRedisesIPs => true
  | .CheckRedisConfig _ => true
  | .UpdateCluster _ => true
  | .SetRedisCustomConfig _ => true
  | _ => false

/-- The calls of the sentinel monitor loop. -/
def Call.ofCheckMonitors : Call → Bool
  | .CheckSentinelMonitor _ _ => true
  | .NewSentinelMonitor _ _ => true
  | _ => false

/-- The calls of `waitRestoreSentinelSlavesOK`. -/
def Call.ofWaitRestore : Call → Bool
  | .CheckSentinelSlavesNumberInMemory _ => true
  | .Sleep _ => true
  | .TimerC => true
  | _ => false

/-- The calls of the sentinel slave-count loop. -/
def Call.ofRestoreSlaves : Call → Bool
  | .CheckSentinelSlavesNumberInMemory _ => true
  | .RestoreSentinel _ => true
  | .Sleep _ => true
  | .TimerC => true
  | _ => false

/-- The calls of the sentinel peer-count loop. -/
def Call.ofRestorePeers : Call → Bool
  | .CheckSentinelNumberInMemory _ => true
  | .RestoreSentinel _ => true
  | _ => false

/-- The calls of `setSentinelConfig`. -/
def Call.ofSetSentinelConfig : Call → Bool
  | .SetSentinelCustomConfig _ => true
  | _ => false

/-- The calls of lines 76-130 that come before `setSentinelConfig`. -/
def Call.beforeSentinelConfig (c : Call) : Bool :=
  c = .GetMasterIP || c.ofRewireSlaves || c.ofSetRedisConfig || c = .GetSentinelsIPs ||
    c.ofCheckMonitors || c.ofRestoreSlaves || c.ofRestorePeers

/-- The calls of lines 76-130, the part of the pass after the master-count switch. -/
def Call.ofHealTopology (c : Call) : Bool :=
  c.beforeSentinelConfig || c.ofSetSentinelConfig

/-- The step `o` made no healer call and left the world `w` as it was. -/
def Outcome.Quiet {W : Type} (w : W) (o : Outcome W) : Prop :=
  (∀ x ∈ o.trace, x.call.isHealer = false) ∧ o.world = w

/-- The calls of a pass, in order. -/
def Outcome.calls {W : Type} (o : Outcome W) : List Call :=
  o.trace.map (fun x => x.call)

/-- The trace of `o` splits into calls that are not `SetSentinelCustomConfig`, followed
by `SetSentinelCustomConfig` calls only. -/
def Outcome.ConfigLast {W : Type} (o : Outcome W) : Prop :=
  ∃ before config : List Entry, o.trace = before ++ config ∧
    (∀ y ∈ before, y.call.ofSetSentinelConfig = false) ∧
    (∀ y ∈ config, y.call.ofSetSentinelConfig = true)

/-- The world after `SetSentinelCustomConfig` has been applied to the sentinels `l` in
turn, starting from `w`. -/
def sentinelConfigWorld {W : Type} (rsh : RedisSentinelHandler W) (meta : Meta)
    (l : List String) (w : W) : W :=
  l.foldl (fun v sip => (rsh.RsHealer.SetSentinelCustomConfig sip meta.Obj meta.Auth v).2) w

/-- The error with which a trace entry ends the pass: the timeout error for the expiry of
the restore timer, its own error for a healer call, and none for every other call. -/
def Entry.fatal (x : Entry) : Option GoError :=
  if x.call = Call.TimerC then some restoreTimeoutErr
  else if x.call.isHealer = true then x.err
  else none

/-- In the trace `t` of a step that returned `err`, an entry that ends the pass is the
last one, and its error is `err`. -/
def FatalLast (err : Option GoError) : List Entry → Prop
  | [] => True
  | x :: rest => (∀ e, x.fatal = some e → err = some e ∧ rest = []) ∧ FatalLast err rest

/-- No entry of the trace `t` ends the pass. -/
def CleanTrace (t : List Entry) : Prop :=
  ∀ x ∈ t, x.fatal = none

/-- The step `o` stopped at the first entry that ends the pass and returned its error. -/
def Outcome.Propagates {W : Type} (o : Outcome W) : Prop :=
  FatalLast o.err o.trace

/-- The world in which the `k`-th poll of `waitRestoreSentinelSlavesOK` is made, `k`
sleeps of `checkInterval` after `w`. -/
def pollWorld {W : Type} (rsh : RedisSentinelHandler W) : Nat → W → W
  | 0, w => w
  | k + 1, w => pollWorld rsh k (rsh.Time.Sleep checkInterval w)

/-- The trace of the first `k` polls from `w` on, each followed by a sleep of
`checkInterval`. -/
def failedPolls {W : Type} (rsh : RedisSentinelHandler W) (sentinel : String)
    (rs : RedisSentinel) (auth : AuthConfig) : Nat → W → List Entry
  | 0, _ => []
  | k + 1, w =>
    [⟨.CheckSentinelSlavesNumberInMemory sentinel,
        rsh.RsChecker.CheckSentinelSlavesNumberInMemory sentinel rs auth w⟩,
      ⟨.Sleep checkInterval, none⟩] ++
      failedPolls rsh sentinel rs auth k (rsh.Time.Sleep checkInterval w)

/-- Every call but `CheckSentinelNumberInMemory`. -/
def Call.notPeerCheck : Call → Bool
  | .CheckSentinelNumberInMemory _ => false
  | _ => true

/-- Every call but the expiry of the restore timer. -/
def Call.notTimer : Call → Bool
  | .TimerC => false
  | _ => true

/-- The trace of `o` splits into calls that satisfy `P` followed by calls that satisfy `Q`. -/
def Outcome.Split {W : Type} (P Q : Call → Bool) (o : Outcome W) : Prop :=
  ∃ a b : List Entry, o.trace = a ++ b ∧
    (∀ y ∈ a, P y.call = true) ∧ (∀ y ∈ b, Q y.call = true)

/-- Every call of the trace of `o` satisfies `P`. -/
def Outcome.Calls {W : Type} (o : Outcome W) (P : Call → Bool) : Prop :=
  ∀ x ∈ o.trace, P x.call = true

/-! ## Check-then-heal loops -/

/-- The world a check-then-heal loop reaches after it has handled the addresses `l` in
turn from `w` on: an address is healed when its check fails in the world of its turn. -/
def worldInTurn {W : Type} (check : String → W → Option GoError)
    (heal : String → W → Option GoError × W) : List String → W → W
  | [], w => w
  | a :: rest, w =>
    match check a w with
    | none => worldInTurn check heal rest w
    | some _ => worldInTurn check heal rest (heal a w).2

/-- The addresses of `l`, in list order, whose check fails in the world of their turn. -/
def failingInTurn {W : Type} (check : String → W → Option GoError)
    (heal : String → W → Option GoError × W) : List String → W → List String
  | [], _ => []
  | a :: rest, w =>
    match check a w with
    | none => failingInTurn check heal rest w
    | some _ => a :: failingInTurn check heal rest (heal a w).2

/-- The sentinel a `RestoreSentinel` call resets. -/
def Call.restoredSentinel : Call → Option String
  | .RestoreSentinel sip => some sip
  | _ => none

/-- The sentinel a `CheckSentinelNumberInMemory` call probes. -/
def Call.peerChecked : Call → Option String
  | .CheckSentinelNumberInMemory sip => some sip
  | _ => none

/-- The Redis node a `SetRedisCustomConfig` call configures. -/
def Call.configuredRedis : Call → Option String
  | .SetRedisCustomConfig ip => some ip
  | _ => none

/-- The Redis node a `CheckRedisConfig` call probes. -/
def Call.configChecked : Call → Option String
  | .CheckRedisConfig ip => some ip
  | _ => none

/-- The sentinel a `NewSentinelMonitor` call configures. -/
def Call.monitorSet : Call → Option String
  | .NewSentinelMonitor sip _ => some sip
  | _ => none

/-- The sentinel a `CheckSentinelMonitor` call probes. -/
def Call.monitorChecked : Call → Option String
  | .CheckSentinelMonitor sip _ => some sip
  | _ => none

/-- The master address a call is given, for the calls that take one. -/
def Call.masterArg : Call → Option String
  | .CheckAllSlavesFromMaster master => some master
  | .SetMasterOnAll master => some master
  | .CheckSentinelMonitor _ master => some master
  | .NewSentinelMonitor _ master => some master
  | _ => none

/-- The call is given no master address, or the address `m`. -/
def Call.usesMaster (m : String) (c : Call) : Bool :=
  match c.masterArg with
  | none => true
  | some master => master = m

/-- The number of entries of `t` that are a call `c` that returned an error. -/
def failedCount (c : Call) (t : List Entry) : Nat :=
  (t.filter fun x => x.call = c ∧ x.err ≠ none).length

/-- The check of the peer-count loop, as a function of the sentinel and the world. -/
def peerCheck {W : Type} (rsh : RedisSentinelHandler W) (meta : Meta) (sip : String) (w : W) :
    Option GoError :=
  rsh.RsChecker.CheckSentinelNumberInMemory sip meta.Obj meta.Auth w

/-- The healer action of the peer-count loop. -/
def peerHeal {W : Type} (rsh : RedisSentinelHandler W) (meta : Meta) (sip : String) (w : W) :
    Option GoError × W :=
  rsh.RsHealer.RestoreSentinel sip meta.Auth w

/-- The check of `setRedisConfig`, as a function of the Redis node and the world. -/
def redisConfigCheck {W : Type} (rsh : RedisSentinelHandler W) (meta : Meta) (ip : String)
    (w : W) : Option GoError :=
  rsh.RsChecker.CheckRedisConfig meta.Obj ip meta.Auth w

/-- The healer action of `setRedisConfig`. -/
def redisConfigHeal {W : Type} (rsh : RedisSentinelHandler W) (meta : Meta) (ip : String)
    (w : W) : Option GoError × W :=
  rsh.RsHealer.SetRedisCustomConfig ip meta.Obj meta.Auth w

/-- The check of the sentinel monitor loop for the master `master`. -/
def monitorCheck {W : Type} (rsh : RedisSentinelHandler W) (meta : Meta) (master : String)
    (sip : String) (w : W) : Option GoError :=
  rsh.RsChecker.CheckSentinelMonitor sip master meta.Auth w

/-- The healer action of the sentinel monitor loop for the master `master`. -/
def monitorHeal {W : Type} (rsh : RedisSentinelHandler W) (meta : Meta) (master : String)
    (sip : String) (w : W) : Option GoError × W :=
  rsh.RsHealer.NewSentinelMonitor sip master meta.Obj meta.Auth w

/-- In the trace of `o` the call `h` occurs as many times as the call `c` failed. -/
def Outcome.Paired {W : Type} (c h : Call) (o : Outcome W) : Prop :=
  o.calls.count h = failedCount c o.trace

/-- The calls that can follow the slave check of a pass that resolved the master `m`: of
the calls that take a master address only the sentinel monitor check and heal are among
them, and they are given `m`. -/
def Call.afterRewire (m : String) : Call → Bool
  | .CheckAllSlavesFromMaster _ => false
  | .SetMasterOnAll _ => false
  | .CheckSentinelMonitor _ master => master = m
  | .NewSentinelMonitor _ master => master = m
  | _ => true

/-! ## `controllers/handle.go` -/

/-- Modelled from the spec: what `clustercache.MetaMap.Cache` hands back besides the object
it was given: the credentials, the transition phase inferred by comparing the object with
the cached one, and the condition type and message that describe the phase. -/
structure CachedMeta where
  Auth : AuthConfig
  State : StateType
  Status : ConditionType
  Message : String
deriving DecidableEq, Repr

/-- The struct `RedisSentinelHandler` of package `controllers`: the checker, healer and
clock of `handler`, whose method `CheckAndHeal` is the one of `checker.go`, and the other
collaborators of `Do`, which are modelled from the spec.  `MetaCache` is the cache lookup
for one object.  `Ensure` creates the workload resources and `UpdateCluster`, the method
of `k8sServices`, stores the object: both act on the world and leave the object as it
is. -/
structure ControllerHandler (W : Type) where
  handler : RedisSentinelHandler W
  MetaCache : RedisSentinel → CachedMeta
  Ensure : RedisSentinel → W → Option GoError × W
  UpdateCluster : RedisSentinel → W → W

/-- The constant `needRequeueMsg` of package `controllers`, the text of the retry error of
`CheckAndHeal`. -/
def needRequeueMsg : String := NeedRequeueMsg

/-- What `Do`, or a part of it, leaves behind: the returned error, the object `rc` as
changed in place, the world, and the trace of the calls made. -/
structure DoOutcome (W : Type) where
  err : Option GoError
  rc : RedisSentinel
  world : W
  trace : List Entry

/-- The state in which `Do` enters `CheckAndHeal`: the cached entry, whose `Obj` is the
object `rc` of `Do`, the world, and the trace so far. -/
structure Ensured (W : Type) where
  meta : Meta
  world : W
  trace : List Entry

/-- The method `updateStatus` (lines 93-117).  `meta.Obj` is changed in place; the
conditions are stamped with the reading of the clock. -/
def ControllerHandler.updateStatus {W : Type} (rsh : ControllerHandler W) (meta : Meta)
    (w : W) : DoOutcome W :=
  let rc := meta.Obj
  if meta.State ≠ StateType.Check then
    let now := rsh.handler.Time.Now w
    let r : Call × RedisSentinelStatus :=
      if meta.Status = ClusterConditionCreating then
        (.CreateCluster, rc.Status.SetCreateCondition now meta.Message)
      else if meta.Status = ClusterConditionScaling then
        (.NewSlaveAdd meta.Message, rc.Status.SetScalingUpCondition now meta.Message)
      else if meta.Status = ClusterConditionScalingDown then
        (.SlaveRemove meta.Message, rc.Status.SetScalingDownCondition now meta.Message)
      else if meta.Status = ClusterConditionUpgrading then
        (.UpdateCluster meta.Message, rc.Status.SetUpgradingCondition now meta.Message)
      else
        (.UpdateCluster meta.Message, rc.Status.SetUpdatingCondition now meta.Message)
    let rc1 : RedisSentinel := { rc with Status := r.2 }
    ⟨none, rc1, rsh.UpdateCluster rc1 w, [⟨r.1, none⟩, ⟨.K8sUpdateCluster, none⟩]⟩
  else ⟨none, rc, w, []⟩

/-- The first part of `Do` (lines 35-62): validation, the cache, the status update and
`Ensure`.  Either `Do` returns here, or it goes on to `CheckAndHeal`. -/
def ControllerHandler.ensure {W : Type} (rsh : ControllerHandler W) (rc : RedisSentinel)
    (w : W) : Except (DoOutcome W) (Ensured W) :=
  match rc.Validate with
  | (some e, rc1) => .error ⟨some e, rc1, w, [⟨.SetClusterError, none⟩]⟩
  | (none, rc1) =>
    let cached := rsh.MetaCache rc1
    let meta0 : Meta := ⟨rc1, cached.Auth, cached.State, cached.Status, cached.Message⟩
    let u := rsh.updateStatus meta0 w
    let meta : Meta := { meta0 with Obj := u.rc }
    let r := rsh.Ensure u.rc u.world
    match r.1 with
    | some e =>
      let rc3 : RedisSentinel :=
        { u.rc with Status := u.rc.Status.SetFailedCondition (rsh.handler.Time.Now r.2) e.msg }
      .error ⟨some e, rc3, rsh.UpdateCluster rc3 r.2,
        u.trace ++ [⟨.EnsureCluster, none⟩, ⟨.Ensure, some e⟩, ⟨.FailedCluster e.msg, none⟩,
          ⟨.K8sUpdateCluster, none⟩, ⟨.SetClusterError, none⟩]⟩
    | none => .ok ⟨meta, r.2, u.trace ++ [⟨.EnsureCluster, none⟩, ⟨.Ensure, none⟩]⟩

/-- The second part of `Do` (lines 64-90): `CheckAndHeal` and what follows from its
result. -/
def ControllerHandler.checkAndHeal {W : Type} (rsh : ControllerHandler W) (p : Ensured W) :
    DoOutcome W :=
  let rc := p.meta.Obj
  let o := CheckAndHeal rsh.handler p.meta p.world
  let pre : List Entry := p.trace ++ [⟨.CheckCluster, none⟩] ++ o.trace
  match o.err with
  | some e =>
    if e.msg ≠ needRequeueMsg then
      let rc1 : RedisSentinel :=
        { rc with Status := rc.Status.SetFailedCondition (rsh.handler.Time.Now o.world) e.msg }
      ⟨some e, rc1, rsh.UpdateCluster rc1 o.world,
        pre ++ [⟨.SetClusterError, none⟩, ⟨.FailedCluster e.msg, none⟩,
          ⟨.K8sUpdateCluster, none⟩]⟩
    else
      match rc.Status.Conditions with
      | c :: _ =>
        if c.type = ClusterConditionHealthy then
          let rc1 : RedisSentinel :=
            { rc with
              Status := rc.Status.SetCreateCondition (rsh.handler.Time.Now o.world)
                "redis server or sentinel server be removed by user, restart" }
          ⟨some e, rc1, rsh.UpdateCluster rc1 o.world,
            pre ++ [⟨.SetClusterError, none⟩, ⟨.CreateCluster, none⟩,
              ⟨.K8sUpdateCluster, none⟩]⟩
        else ⟨some e, rc, o.world, pre ++ [⟨.SetClusterError, none⟩]⟩
      | [] => ⟨some e, rc, o.world, pre ++ [⟨.SetClusterError, none⟩]⟩
  | none =>
    let rc1 : RedisSentinel :=
      { rc with
        Status := rc.Status.SetReadyCondition (rsh.handler.Time.Now o.world) "Cluster ok" }
    ⟨none, rc1, rsh.UpdateCluster rc1 o.world,
      pre ++ [⟨.HealthCluster, none⟩, ⟨.K8sUpdateCluster, none⟩, ⟨.SetClusterOK, none⟩]⟩

/-- The method `Do` (lines 34-91). -/
def ControllerHandler.Do {W : Type} (rsh : ControllerHandler W) (rc : RedisSentinel) (w : W) :
    DoOutcome W :=
  match rsh.ensure rc w with
  | .error out => out
  | .ok p => rsh.checkAndHeal p

/-- The conditions of type `Failed` of a status, in list order. -/
def RedisSentinelStatus.failed (rss : RedisSentinelStatus) : List Condition :=
  rss.Conditions.filter fun c => c.type = ClusterConditionFailed

/-- The test `len(status) > 0 && status[0].Type == v1.ClusterConditionHealthy` of `Do`
(line 76). -/
def RedisSentinelStatus.firstIsHealthy (rss : RedisSentinelStatus) : Bool :=
  match rss.Conditions with
  | c :: _ => c.type = ClusterConditionHealthy
  | [] => false

/-- The message of the `Creating` condition that `Do` sets on a retry (line 78). -/
def removedByUserMsg : String := "redis server or sentinel server be removed by user, restart"

/-- The status holds a condition of type `t` with the given status, reason and message,
and it is the one `getClusterCondition` finds for `t`: the first of that type in the
list. -/
def RedisSentinelStatus.Holds (rss : RedisSentinelStatus) (t : ConditionType)
    (status reason message : String) : Prop :=
  ∃ pos c, getClusterCondition rss t = some (pos, c) ∧ rss.Conditions[pos]? = some c ∧
    c.type = t ∧ c.Status = status ∧ c.Reason = reason ∧ c.Message = message

/-- The number of conditions of type `t` in a status. -/
def RedisSentinelStatus.countOf (rss : RedisSentinelStatus) (t : ConditionType) : Nat :=
  rss.Conditions.countP fun c => c.type = t

/-- The calls of the metrics client, `metrics.ClusterMetrics`. -/
def Call.isMetric : Call → Bool
  | .SetClusterError => true
  | .SetClusterOK => true
  | _ => false

/-- The calls of `Do`, in order. -/
def DoOutcome.calls {W : Type} (o : DoOutcome W) : List Call :=
  o.trace.map Entry.call

/-- The cache entry that `Do` gets for the validated object `rc1` (line 42). -/
def ControllerHandler.cache {W : Type} (rsh : ControllerHandler W) (rc1 : RedisSentinel) :
    Meta :=
  ⟨rc1, (rsh.MetaCache rc1).Auth, (rsh.MetaCache rc1).State, (rsh.MetaCache rc1).Status,
    (rsh.MetaCache rc1).Message⟩

/-- The keys and values that `enablePersistence` fills in (lines 72-79), in the order of
its calls. -/
def persistenceDefaults : GoMap :=
  [("appendonly", "yes"), ("auto-aof-rewrite-min-size", "536870912"),
    ("auto-aof-rewrite-percentage", "100"), ("repl-backlog-size", "62914560"),
    ("repl-diskless-sync", "yes"), ("aof-load-truncated", "yes"),
    ("stop-writes-on-bgsave-error", "no"), ("save", "900 1 300 10")]

/-- The configuration that lines 55-66 of `Validate` leave for the configuration `config`
and the flag `DisablePersistence`. -/
def validatedConfig (config : GoMap) (disable : Bool) : GoMap :=
  if disable = false then enablePersistence (config.set "slave-priority" defaultSlavePriority)
  else disablePersistence (config.set "slave-priority" defaultSlavePriority)

/-! ## Example clusters

Worlds that are just the clock reading, in nanoseconds. -/

/-- A clock that sleeps exactly as long as asked. -/
def tickClock : Clock Nat where
  Now := fun w => w
  Sleep := fun d w => w + d
  Sleep_elapses := fun _ _ => Nat.le_refl _

/-- A checker that finds three Redis nodes, one master, one sentinel and nothing wrong. -/
def healthyChecker : RedisClusterCheck Nat where
  CheckRedisNumber := fun _ _ => none
  CheckSentinelNumber := fun _ _ => none
  GetNumberMasters := fun _ _ _ => .ok 1
  GetRedisesIPs := fun _ _ _ => .ok ["10.0.0.1", "10.0.0.2", "10.0.0.3"]
  GetMinimumRedisPodTime := fun _ w => .ok w
  GetMasterIP := fun _ _ _ => .ok "10.0.0.1"
  CheckAllSlavesFromMaster := fun _ _ _ _ => none
  CheckRedisConfig := fun _ _ _ _ => none
  GetSentinelsIPs := fun _ _ => .ok ["10.0.1.1"]
  CheckSentinelMonitor := fun _ _ _ _ => none
  CheckSentinelSlavesNumberInMemory := fun _ _ _ _ => none
  CheckSentinelNumberInMemory := fun _ _ _ _ => none

/-- A healer whose actions all succeed and take no time. -/
def obedientHealer : RedisClusterHeal Nat where
  MakeMaster := fun _ _ w => (none, w)
  SetOldestAsMaster := fun _ _ w => (none, w)
  SetMasterOnAll := fun _ _ _ w => (none, w)
  SetRedisCustomConfig := fun _ _ _ w => (none, w)
  NewSentinelMonitor := fun _ _ _ _ w => (none, w)
  RestoreSentinel := fun _ _ w => (none, w)
  SetSentinelCustomConfig := fun _ _ _ w => (none, w)

/-- A cluster in which nothing needs healing. -/
def healthyHandler : RedisSentinelHandler Nat := ⟨healthyChecker, obedientHealer, tickClock⟩

/-- The example cluster object, three Redis nodes and three sentinels, with the status
`status`. -/
def demoCluster (status : RedisSentinelStatus) : RedisSentinel :=
  { Namespace := "default"
    Name := "demo"
    Spec :=
      { Size := 3
        Image := "redis:5.0.4-alpine"
        Config := []
        DisablePersistence := false
        Sentinel := { Image := "redis:5.0.4-alpine", Replicas := 3, Resources := ⟨[], []⟩ } }
    Status := status }

/-- The cached entry of the example cluster, in transition phase `st`. -/
def demoMeta (st : StateType) : Meta :=
  { Obj := demoCluster emptyStatus
    Auth := ⟨"secret"⟩
    State := st
    Status := ClusterConditionUpdating
    Message := "" }

/-- Two Redis nodes both report the master role. -/
def splitBrainHandler : RedisSentinelHandler Nat :=
  { healthyHandler with
    RsChecker := { healthyChecker with GetNumberMasters := fun _ _ _ => .ok 2 } }

/-- A fresh cluster with a single Redis node and no master yet. -/
def loneRedisChecker : RedisClusterCheck Nat :=
  { healthyChecker with
    GetNumberMasters := fun _ _ _ => .ok 0
    GetRedisesIPs := fun _ _ _ => .ok ["10.0.0.1"] }

/-- The cluster of `loneRedisChecker`. -/
def loneRedisHandler : RedisSentinelHandler Nat :=
  { healthyHandler with RsChecker := loneRedisChecker }

/-- The cluster of `loneRedisChecker`, except that the sentinel deployment is short of replicas. -/
def sentinelShortHandler : RedisSentinelHandler Nat :=
  { healthyHandler with
    RsChecker := { loneRedisChecker with
      CheckSentinelNumber := fun _ _ => some ⟨"number of sentinel pods differ from specification"⟩ } }

/-- The Redis statefulset is short of replicas. -/
def redisShortHandler : RedisSentinelHandler Nat :=
  { healthyHandler with
    RsChecker := { healthyChecker with
      CheckRedisNumber := fun _ _ => some ⟨"number of redis pods differ from specification"⟩ } }

/-- A Redis node whose configuration has drifted from the desired overlay. -/
def driftedConfigHandler : RedisSentinelHandler Nat :=
  { healthyHandler with
    RsChecker := { healthyChecker with
      CheckRedisConfig := fun _ ip _ _ =>
        if ip = "10.0.0.2" then some ⟨"save: expected 900 1 300 10"⟩ else none } }

/-- A fresh cluster of three Redis nodes, none of them a master yet. -/
def noMasterHandler : RedisSentinelHandler Nat :=
  { healthyHandler with
    RsChecker := { healthyChecker with GetNumberMasters := fun _ _ _ => .ok 0 } }

/-- The cluster of `noMasterHandler`, except that the age of the oldest pod cannot be read. -/
def noPodTimeHandler : RedisSentinelHandler Nat :=
  { healthyHandler with
    RsChecker := { healthyChecker with
      GetNumberMasters := fun _ _ _ => .ok 0
      GetMinimumRedisPodTime := fun _ _ => .error ⟨"statefulset pods not found"⟩ } }

/-- A sentinel whose in-memory count of peer sentinels is wrong. -/
def forgetfulSentinelHandler : RedisSentinelHandler Nat :=
  { healthyHandler with
    RsChecker := { healthyChecker with
      CheckSentinelNumberInMemory := fun _ _ _ _ => some ⟨"sentinels in memory mismatch"⟩ } }

/-- A healer that cannot push the sentinel configuration to the second sentinel. -/
def stubbornSentinelHealer : RedisClusterHeal Nat :=
  { obedientHealer with
    SetSentinelCustomConfig := fun sip _ _ w =>
      if sip = "10.0.1.2" then (some ⟨"sentinel unreachable"⟩, w + 1) else (none, w + 1) }

/-- The healthy cluster served by `stubbornSentinelHealer`. -/
def stubbornSentinelHandler : RedisSentinelHandler Nat :=
  ⟨healthyChecker, stubbornSentinelHealer, tickClock⟩

/-- The cluster with a wrong peer count, served by a healer that cannot reset a sentinel. -/
def brokenRestoreHandler : RedisSentinelHandler Nat :=
  { forgetfulSentinelHandler with
    RsHealer := { obedientHealer with
      RestoreSentinel := fun _ _ w => (some ⟨"sentinel reset refused"⟩, w) } }

/-- The checker calls that a pass over `brokenRestoreHandler` makes before it tries to
reset the sentinel. -/
def brokenRestoreChecks : List Entry :=
  [⟨.CheckRedisNumber, none⟩, ⟨.CheckSentinelNumber, none⟩, ⟨.GetNumberMasters, none⟩,
    ⟨.GetMasterIP, none⟩, ⟨.CheckAllSlavesFromMaster "10.0.0.1", none⟩,
    ⟨.GetRedisesIPs, none⟩, ⟨.CheckRedisConfig "10.0.0.1", none⟩,
    ⟨.CheckRedisConfig "10.0.0.2", none⟩, ⟨.CheckRedisConfig "10.0.0.3", none⟩,
    ⟨.GetSentinelsIPs, none⟩, ⟨.CheckSentinelMonitor "10.0.1.1" "10.0.0.1", none⟩,
    ⟨.CheckSentinelSlavesNumberInMemory "10.0.1.1", none⟩,
    ⟨.CheckSentinelNumberInMemory "10.0.1.1", some ⟨"sentinels in memory mismatch"⟩⟩]

/-- A sentinel whose replica count is wrong until the clock reads ten seconds. -/
def slowSentinelHandler : RedisSentinelHandler Nat :=
  { healthyHandler with
    RsChecker := { healthyChecker with
      CheckSentinelSlavesNumberInMemory := fun _ _ _ w =>
        if w < 10 * Second then some ⟨"slaves in memory mismatch"⟩ else none } }

/-- A sentinel whose replica count never becomes right. -/
def stuckSentinelHandler : RedisSentinelHandler Nat :=
  { healthyHandler with
    RsChecker := { healthyChecker with
      CheckSentinelSlavesNumberInMemory := fun _ _ _ _ => some ⟨"slaves in memory mismatch"⟩ } }

/-- Three sentinels, the second of which has a wrong count of peer sentinels. -/
def oneForgetfulHandler : RedisSentinelHandler Nat :=
  { healthyHandler with
    RsHealer := { obedientHealer with RestoreSentinel := fun _ _ w => (none, w + 1) }
    RsChecker := { healthyChecker with
      GetSentinelsIPs := fun _ _ => .ok ["10.0.1.1", "10.0.1.2", "10.0.1.3"]
      CheckSentinelNumberInMemory := fun sip _ _ _ =>
        if sip = "10.0.1.2" then some ⟨"sentinels in memory mismatch"⟩ else none } }

/-- Three sentinels, the third of which monitors another address than the master. -/
def strayMonitorHandler : RedisSentinelHandler Nat :=
  { healthyHandler with
    RsHealer := { obedientHealer with NewSentinelMonitor := fun _ _ _ _ w => (none, w + 1) }
    RsChecker := { healthyChecker with
      GetSentinelsIPs := fun _ _ => .ok ["10.0.1.1", "10.0.1.2", "10.0.1.3"]
      CheckSentinelMonitor := fun sip _ _ _ =>
        if sip = "10.0.1.3" then some ⟨"the monitor on the sentinel config does not match"⟩
        else none } }

/-- A slave that replicates from another address than the master. -/
def strayedSlaveHandler : RedisSentinelHandler Nat :=
  { healthyHandler with
    RsChecker := { healthyChecker with
      CheckAllSlavesFromMaster := fun _ _ _ _ => some ⟨"slave 10.0.0.3 is not attached to the master"⟩ } }

/-- A status whose only condition is a failure stamped at second 10. -/
def failedStatus : RedisSentinelStatus :=
  ⟨[newClusterCondition (10 * Second) ClusterConditionFailed ConditionTrue "Cluster failed"
      "redis unreachable"], "10.0.0.1", "10.0.1.1"⟩

/-- A status with three conditions that are not in the order of their update times. -/
def shuffledStatus : RedisSentinelStatus :=
  ⟨[newClusterCondition (3 * Second) ClusterConditionCreating ConditionTrue "Creating" "a",
    newClusterCondition (9 * Second) ClusterConditionHealthy ConditionTrue "Cluster available"
      "Cluster ok",
    newClusterCondition (6 * Second) ClusterConditionScaling ConditionTrue "Scaling up" "b"],
    "10.0.0.1", "10.0.1.1"⟩

/-- The collaborators of `Do` around the cluster `h`: the cache infers the phase `st`,
`Ensure` succeeds and storing the object takes no time. -/
def demoController (h : RedisSentinelHandler Nat) (st : StateType) : ControllerHandler Nat :=
  { handler := h
    MetaCache := fun _ => ⟨⟨"secret"⟩, st, ClusterConditionUpdating, "spec changed"⟩
    Ensure := fun _ w => (none, w)
    UpdateCluster := fun _ w => w }

/-- A status whose first condition is `Healthy` and older than its failure. -/
def healthyFirstStatus : RedisSentinelStatus :=
  ⟨[newClusterCondition (3 * Second) ClusterConditionHealthy ConditionTrue "Cluster available"
      "Cluster ok",
    newClusterCondition (9 * Second) ClusterConditionFailed ConditionTrue "Cluster failed"
      "redis unreachable"], "10.0.0.1", "10.0.1.1"⟩

/-- The state in which `Do` enters `CheckAndHeal` for the example object with the status
`status` when the cache infers the `Check` phase. -/
def demoEnsured (status : RedisSentinelStatus) : Ensured Nat :=
  { meta :=
      { Obj := (demoCluster status).Validate.2
        Auth := ⟨"secret"⟩
        State := .Check
        Status := ClusterConditionUpdating
        Message := "spec changed" }
    world := 0
    trace := [⟨.EnsureCluster, none⟩, ⟨.Ensure, none⟩] }

/-- Collaborators of `Do` whose `Ensure` fails. -/
def ensureFailsController : ControllerHandler Nat :=
  { demoController healthyHandler .Check with
    Ensure := fun _ w => (some ⟨"statefulset quota exceeded"⟩, w) }

/-- The cache entry of the example cluster after its size was lowered: the phase is
`ScaleDown` and the condition type that marks it is `ScalingDown`. -/
def scaleDownMeta : Meta :=
  { Obj := demoCluster emptyStatus
    Auth := ⟨"secret"⟩
    State := .ScaleDown
    Status := ClusterConditionScalingDown
    Message := "scale down to 3" }

/-- A cluster object as a user may write it: sizes and images left out, two configuration
keys of their own, persistence as the flag `disable` says. -/
def bareCluster (disable : Bool) : RedisSentinel :=
  { Namespace := "default"
    Name := "demo"
    Spec :=
      { Size := 0
        Image := ""
        Config := [("maxmemory", "100mb"), ("save", "60 1")]
        DisablePersistence := disable
        Sentinel := { Image := "", Replicas := 0, Resources := ⟨[], []⟩ } }
    Status := emptyStatus }

/-- The example cluster with only two Redis nodes asked for. -/
def undersizedCluster : RedisSentinel :=
  { demoCluster emptyStatus with
    Spec := { (demoCluster emptyStatus).Spec with Size := 2 } }

/-- The collaborators of `Do` around the cluster `h` when the object is new: the cache
infers the phase `Create` with the condition type `Creating`, `Ensure` succeeds and
storing the object takes no time. -/
def createController (h : RedisSentinelHandler Nat) : ControllerHandler Nat :=
  { handler := h
    MetaCache := fun _ => ⟨⟨"secret"⟩, .Create, ClusterConditionCreating,
      "Bootstrap redis cluster"⟩
    Ensure := fun _ w => (none, w)
    UpdateCluster := fun _ w => w }

/-- The example object after its first pass, run in the `Create` phase at second 3 on the
cluster in which nothing needs healing. -/
def createdCluster : RedisSentinel :=
  ((createController healthyHandler).Do (demoCluster emptyStatus) (3 * Second)).rc

/-- The example object after a second pass, run in the `Check` phase at second 9 on the
same cluster. -/
def settledCluster : RedisSentinel :=
  ((demoController healthyHandler .Check).Do createdCluster (9 * Second)).rc

/-! ## Sequencing lemmas -/

section Sequencing
variable {W : Type}

@[simp] theorem Outcome.after_err (pre : List Entry) (o : Outcome W) :
    (o.after pre).err = o.err := rfl

@[simp] theorem Outcome.after_world (pre : List Entry) (o : Outcome W) :
    (o.after pre).world = o.world := rfl

@[simp] theorem Outcome.after_trace (pre : List Entry) (o : Outcome W) :
    (o.after pre).trace = pre ++ o.trace := rfl

theorem Outcome.andThen_of_err {o : Outcome W} {e : GoError} (k : W → Outcome W)
    (h : o.err = some e) : o.andThen k = o := by
  simp [Outcome.andThen, h]

theorem Outcome.andThen_of_ok {o : Outcome W} (k : W → Outcome W)
    (h : o.err = none) : o.andThen k = (k o.world).after o.trace := by
  simp [Outcome.andThen, h]

theorem Outcome.Calls.mono {o : Outcome W} {P Q : Call → Bool} (h : o.Calls P)
    (hPQ : ∀ c, P c = true → Q c = true) : o.Calls Q :=
  fun x hx => hPQ _ (h x hx)

theorem Outcome.Calls.after_calls {o : Outcome W} {P : Call → Bool} {pre : List Entry}
    (hpre : ∀ x ∈ pre, P x.call = true) (h : o.Calls P) : (o.after pre).Calls P := by
  intro x hx
  rcases List.mem_append.mp hx with hx | hx
  · exact hpre x hx
  · exact h x hx

theorem Outcome.Calls.andThen_calls {o : Outcome W} {P : Call → Bool} {k : W → Outcome W}
    (h : o.Calls P) (hk : ∀ w, (k w).Calls P) : (o.andThen k).Calls P := by
  cases ho : o.err with
  | some e => rw [Outcome.andThen_of_err k ho]; exact h
  | none => rw [Outcome.andThen_of_ok k ho]; exact Outcome.Calls.after_calls h (hk _)

end Sequencing

/-! ## Call sets of the steps -/

section CallSets
variable {W : Type} (rsh : RedisSentinelHandler W) (meta : Meta)

theorem electMaster_calls (n : Int) (w : W) :
    (electMaster rsh meta n w).Calls Call.ofElectMaster := by
  intro x hx
  unfold electMaster at hx
  split at hx
  · split at hx
    · simp at hx; rcases hx with rfl | rfl <;> rfl
    · split at hx
      · simp at hx; rcases hx with rfl | rfl | rfl <;> rfl
      · split at hx
        · simp at hx; rcases hx with rfl | rfl | rfl <;> rfl
        · simp at hx; rcases hx with rfl | rfl | rfl | rfl <;> rfl
  · split at hx <;> simp at hx

theorem rewireSlaves_calls (master : String) (w : W) :
    (rewireSlaves rsh meta master w).Calls Call.ofRewireSlaves := by
  intro x hx
  unfold rewireSlaves at hx
  split at hx
  · simp at hx; subst hx; rfl
  · simp at hx; rcases hx with rfl | rfl <;> rfl

theorem setRedisConfigLoop_calls (l : List String) (w : W) :
    (setRedisConfigLoop rsh meta l w).Calls Call.ofSetRedisConfig := by
  induction l generalizing w with
  | nil => intro x hx; simp [setRedisConfigLoop] at hx
  | cons rip rest ih =>
    unfold setRedisConfigLoop
    split
    · exact Outcome.Calls.after_calls (by simp [Call.ofSetRedisConfig]) (ih w)
    · dsimp only
      split
      · intro x hx; simp at hx; rcases hx with rfl | rfl | rfl <;> rfl
      · exact Outcome.Calls.after_calls (by simp [Call.ofSetRedisConfig]) (ih _)

theorem setRedisConfig_calls (w : W) :
    (setRedisConfig rsh meta w).Calls Call.ofSetRedisConfig := by
  unfold setRedisConfig
  split
  · intro x hx; simp at hx; subst hx; rfl
  · exact Outcome.Calls.after_calls (by simp [Call.ofSetRedisConfig]) (setRedisConfigLoop_calls rsh meta _ w)

theorem setSentinelConfigLoop_calls (l : List String) (w : W) :
    (setSentinelConfigLoop rsh meta l w).Calls Call.ofSetSentinelConfig := by
  induction l generalizing w with
  | nil => intro x hx; simp [setSentinelConfigLoop] at hx
  | cons sip rest ih =>
    unfold setSentinelConfigLoop
    dsimp only
    split
    · intro x hx; simp at hx; subst hx; rfl
    · exact Outcome.Calls.after_calls (by simp [Call.ofSetSentinelConfig]) (ih _)

theorem setSentinelConfig_calls (l : List String) (w : W) :
    (setSentinelConfig rsh meta l w).Calls Call.ofSetSentinelConfig := by
  unfold setSentinelConfig
  split
  · intro x hx; simp at hx
  · exact setSentinelConfigLoop_calls rsh meta l w

theorem waitRestoreLoop_calls (sentinel : String) (rs : RedisSentinel) (auth : AuthConfig)
    (deadline : Nat) (w : W) :
    (waitRestoreLoop rsh sentinel rs auth deadline w).Calls Call.ofWaitRestore := by
  induction w using waitRestoreLoop.induct rsh sentinel rs auth deadline with
  | case1 w fired =>
    rw [waitRestoreLoop, dif_pos fired]
    intro x hx; simp at hx; subst hx; rfl
  | case2 w fired e he ih =>
    rw [waitRestoreLoop, dif_neg fired]
    simp only [he]
    exact Outcome.Calls.after_calls (by simp [Call.ofWaitRestore]) ih
  | case3 w fired he =>
    rw [waitRestoreLoop, dif_neg fired]
    simp only [he]
    intro x hx; simp at hx; subst hx; rfl

theorem waitRestoreSentinelSlavesOK_calls (sentinel : String) (rs : RedisSentinel)
    (auth : AuthConfig) (w : W) :
    (waitRestoreSentinelSlavesOK rsh sentinel rs auth w).Calls Call.ofWaitRestore :=
  waitRestoreLoop_calls rsh sentinel rs auth _ w

theorem checkMonitors_calls (master : String) (l : List String) (w : W) :
    (checkMonitors rsh meta master l w).Calls Call.ofCheckMonitors := by
  induction l generalizing w with
  | nil => intro x hx; simp [checkMonitors] at hx
  | cons sip rest ih =>
    unfold checkMonitors
    split
    · exact Outcome.Calls.after_calls (by simp [Call.ofCheckMonitors]) (ih w)
    · dsimp only
      split
      · intro x hx; simp at hx; rcases hx with rfl | rfl <;> rfl
      · exact Outcome.Calls.after_calls (by simp [Call.ofCheckMonitors]) (ih _)

theorem restoreSlaves_calls (l : List String) (w : W) :
    (restoreSlaves rsh meta l w).Calls Call.ofRestoreSlaves := by
  induction l generalizing w with
  | nil => intro x hx; simp [restoreSlaves] at hx
  | cons sip rest ih =>
    unfold restoreSlaves
    split
    · exact Outcome.Calls.after_calls (by simp [Call.ofRestoreSlaves]) (ih w)
    · dsimp only
      split
      · intro x hx; simp at hx; rcases hx with rfl | rfl <;> rfl
      · refine Outcome.Calls.after_calls (by simp [Call.ofRestoreSlaves]) ?_
        refine Outcome.Calls.andThen_calls ?_ ih
        refine (waitRestoreSentinelSlavesOK_calls rsh sip meta.Obj meta.Auth _).mono ?_
        intro c hc; cases c <;> simp_all [Call.ofWaitRestore, Call.ofRestoreSlaves]

theorem restorePeers_calls (l : List String) (w : W) :
    (restorePeers rsh meta l w).Calls Call.ofRestorePeers := by
  induction l generalizing w with
  | nil => intro x hx; simp [restorePeers] at hx
  | cons sip rest ih =>
    unfold restorePeers
    split
    · exact Outcome.Calls.after_calls (by simp [Call.ofRestorePeers]) (ih w)
    · dsimp only
      split
      · intro x hx; simp at hx; rcases hx with rfl | rfl <;> rfl
      · exact Outcome.Calls.after_calls (by simp [Call.ofRestorePeers]) (ih _)

theorem healSentinels_calls (master : String) (l : List String) (w : W) :
    (healSentinels rsh meta master l w).Calls Call.ofHealTopology := by
  unfold healSentinels
  refine Outcome.Calls.andThen_calls ((checkMonitors_calls rsh meta master l w).mono ?_) fun w1 => ?_
  · intro c hc; cases c <;> simp_all [Call.ofCheckMonitors, Call.ofHealTopology,
      Call.beforeSentinelConfig]
  refine Outcome.Calls.andThen_calls ((restoreSlaves_calls rsh meta l w1).mono ?_) fun w2 => ?_
  · intro c hc; cases c <;> simp_all [Call.ofRestoreSlaves, Call.ofHealTopology,
      Call.beforeSentinelConfig]
  refine Outcome.Calls.andThen_calls ((restorePeers_calls rsh meta l w2).mono ?_) fun w3 => ?_
  · intro c hc; cases c <;> simp_all [Call.ofRestorePeers, Call.ofHealTopology,
      Call.beforeSentinelConfig]
  refine (setSentinelConfig_calls rsh meta l w3).mono ?_
  intro c hc; simp [Call.ofHealTopology, hc]

theorem healTopology_calls (w : W) :
    (healTopology rsh meta w).Calls Call.ofHealTopology := by
  unfold healTopology
  split
  · intro x hx; simp at hx; subst hx; rfl
  · rename_i master _
    refine Outcome.Calls.after_calls (by simp [Call.ofHealTopology, Call.beforeSentinelConfig]) ?_
    refine Outcome.Calls.andThen_calls ((rewireSlaves_calls rsh meta master w).mono ?_) fun w1 => ?_
    · intro c hc; cases c <;> simp_all [Call.ofRewireSlaves, Call.ofHealTopology,
        Call.beforeSentinelConfig]
    refine Outcome.Calls.andThen_calls ((setRedisConfig_calls rsh meta w1).mono ?_) fun w2 => ?_
    · intro c hc; cases c <;> simp_all [Call.ofSetRedisConfig, Call.ofHealTopology,
        Call.beforeSentinelConfig]
    split
    · intro x hx; simp at hx; subst hx; rfl
    · exact Outcome.Calls.after_calls (by simp [Call.ofHealTopology, Call.beforeSentinelConfig])
        (healSentinels_calls rsh meta master _ w2)

/-- The trace of a pass that got past the membership check and counted `n` masters. -/
theorem CheckAndHeal_of_masters {w : W} {n : Int}
    (hredis : rsh.RsChecker.CheckRedisNumber meta.Obj w = none)
    (hsentinel : rsh.RsChecker.CheckSentinelNumber meta.Obj w = none)
    (hmasters : rsh.RsChecker.GetNumberMasters meta.Obj meta.Auth w = .ok n) :
    CheckAndHeal rsh meta w =
      ((electMaster rsh meta n w).andThen (healTopology rsh meta)).after
        [⟨.CheckRedisNumber, none⟩, ⟨.CheckSentinelNumber, none⟩, ⟨.GetNumberMasters, none⟩] := by
  simp [CheckAndHeal, hredis, hsentinel, hmasters, Outcome.after]

end CallSets

/-! ## Membership check and master-count classification -/

/-- C1: when both replica-count checks pass and `GetNumberMasters` reports more than one
master, `CheckAndHeal` returns the error "more than one master, fix manually", which is not
the retry error, and its trace holds the three checker calls only: no healer call is made and
the world is left as it was. -/
theorem CheckAndHeal_more_than_one_master {W : Type} (rsh : RedisSentinelHandler W)
    (meta : Meta) (w : W) (n : Int)
    (hredis : rsh.RsChecker.CheckRedisNumber meta.Obj w = none)
    (hsentinel : rsh.RsChecker.CheckSentinelNumber meta.Obj w = none)
    (hmasters : rsh.RsChecker.GetNumberMasters meta.Obj meta.Auth w = .ok n)
    (hn : 1 < n) :
    (CheckAndHeal rsh meta w).err = some moreThanOneMasterErr ∧
    moreThanOneMasterErr ≠ needRequeueErr ∧
    moreThanOneMasterErr.msg ≠ NeedRequeueMsg ∧
    (CheckAndHeal rsh meta w).trace =
      [⟨.CheckRedisNumber, none⟩, ⟨.CheckSentinelNumber, none⟩, ⟨.GetNumberMasters, none⟩] ∧
    (∀ x ∈ (CheckAndHeal rsh meta w).trace, x.call.isHealer = false) ∧
    (CheckAndHeal rsh meta w).world = w := by
  have h0 : ¬ n = 0 := by omega
  have h1 : ¬ n = 1 := by omega
  have hrun : CheckAndHeal rsh meta w =
      ⟨some moreThanOneMasterErr, w,
        [⟨.CheckRedisNumber, none⟩, ⟨.CheckSentinelNumber, none⟩, ⟨.GetNumberMasters, none⟩]⟩ := by
    simp [CheckAndHeal, hredis, hsentinel, hmasters, electMaster, h0, h1, Outcome.andThen,
      Outcome.after]
  rw [hrun]
  refine ⟨rfl, by decide, by decide, rfl, ?_, rfl⟩
  intro x hx
  simp at hx
  rcases hx with rfl | rfl | rfl <;> rfl

/-- Witness for C1: the split-brain example cluster. -/
theorem CheckAndHeal_more_than_one_master_witness :
    (CheckAndHeal splitBrainHandler (demoMeta .Check) 0).err = some moreThanOneMasterErr ∧
    moreThanOneMasterErr ≠ needRequeueErr ∧
    moreThanOneMasterErr.msg ≠ NeedRequeueMsg ∧
    (CheckAndHeal splitBrainHandler (demoMeta .Check) 0).trace =
      [⟨.CheckRedisNumber, none⟩, ⟨.CheckSentinelNumber, none⟩, ⟨.GetNumberMasters, none⟩] ∧
    (∀ x ∈ (CheckAndHeal splitBrainHandler (demoMeta .Check) 0).trace,
      x.call.isHealer = false) ∧
    (CheckAndHeal splitBrainHandler (demoMeta .Check) 0).world = 0 :=
  CheckAndHeal_more_than_one_master splitBrainHandler (demoMeta .Check) 0 2 rfl rfl rfl
    (by decide)

/-- C2, as stated, fails: the two example clusters differ only in the result of
`CheckSentinelNumber`, yet the pass promotes a master in the one where the check passes and
makes no healer call at all in the one where it fails. -/
theorem CheckAndHeal_sentinel_mismatch_not_continued :
    sentinelShortHandler.RsChecker.CheckRedisNumber (demoMeta .Check).Obj 0 = none ∧
    sentinelShortHandler.RsChecker.CheckSentinelNumber (demoMeta .Check).Obj 0 ≠ none ∧
    loneRedisHandler.RsChecker.CheckSentinelNumber (demoMeta .Check).Obj 0 = none ∧
    (CheckAndHeal sentinelShortHandler (demoMeta .Check) 0).trace.filter
      (fun x => x.call.isHealer) = [] ∧
    (CheckAndHeal loneRedisHandler (demoMeta .Check) 0).trace.filter
      (fun x => x.call.isHealer) = [⟨.MakeMaster "10.0.0.1", none⟩] ∧
    ⟨.GetNumberMasters, none⟩ ∉ (CheckAndHeal sentinelShortHandler (demoMeta .Check) 0).trace := by
  decide

/-- C2, amended: when the Redis replica-count check passes and the Sentinel replica-count
check fails with error `e`, `CheckAndHeal` reports the condition with a `FailedCluster`
event carrying the text of `e` and ends the pass there: it returns nil, leaves the world as
it was, and makes no further checker call and no healer call. -/
theorem CheckAndHeal_sentinel_mismatch_ends_pass {W : Type} (rsh : RedisSentinelHandler W)
    (meta : Meta) (w : W) (e : GoError)
    (hredis : rsh.RsChecker.CheckRedisNumber meta.Obj w = none)
    (hsentinel : rsh.RsChecker.CheckSentinelNumber meta.Obj w = some e) :
    CheckAndHeal rsh meta w =
      ⟨none, w, [⟨.CheckRedisNumber, none⟩, ⟨.CheckSentinelNumber, some e⟩,
        ⟨.FailedCluster e.msg, none⟩]⟩ := by
  simp [CheckAndHeal, hredis, hsentinel]

/-- Witness for the amended C2: the example cluster that is short of sentinels. -/
theorem CheckAndHeal_sentinel_mismatch_ends_pass_witness :
    CheckAndHeal sentinelShortHandler (demoMeta .Check) 0 =
      ⟨none, 0, [⟨.CheckRedisNumber, none⟩,
        ⟨.CheckSentinelNumber, some ⟨"number of sentinel pods differ from specification"⟩⟩,
        ⟨.FailedCluster "number of sentinel pods differ from specification", none⟩]⟩ :=
  CheckAndHeal_sentinel_mismatch_ends_pass sentinelShortHandler (demoMeta .Check) 0
    ⟨"number of sentinel pods differ from specification"⟩ rfl rfl

/-- C3: when `CheckRedisNumber` fails, `CheckAndHeal` returns the retry error
`needRequeueErr`, whose text is "need requeue"; its trace is the failed check followed by
one `UpdateCluster` event, so no healer call and no further checker call is made, and the
world is left as it was. -/
theorem CheckAndHeal_redis_mismatch_requeues {W : Type} (rsh : RedisSentinelHandler W)
    (meta : Meta) (w : W) (e : GoError)
    (hredis : rsh.RsChecker.CheckRedisNumber meta.Obj w = some e) :
    CheckAndHeal rsh meta w =
      ⟨some needRequeueErr, w, [⟨.CheckRedisNumber, some e⟩,
        ⟨.UpdateCluster "wait for all redis server start", none⟩]⟩ ∧
    needRequeueErr.msg = "need requeue" ∧
    (CheckAndHeal rsh meta w).trace.filter (fun x => x.call.isHealer) = [] ∧
    (CheckAndHeal rsh meta w).trace.filter (fun x => x.call.isChecker) =
      [⟨.CheckRedisNumber, some e⟩] := by
  have hrun : CheckAndHeal rsh meta w =
      ⟨some needRequeueErr, w, [⟨.CheckRedisNumber, some e⟩,
        ⟨.UpdateCluster "wait for all redis server start", none⟩]⟩ := by
    simp [CheckAndHeal, hredis]
  rw [hrun]
  exact ⟨rfl, rfl, rfl, rfl⟩

/-- Witness for C3: the example cluster that is short of Redis replicas. -/
theorem CheckAndHeal_redis_mismatch_requeues_witness :
    CheckAndHeal redisShortHandler (demoMeta .Update) 0 =
      ⟨some needRequeueErr, 0,
        [⟨.CheckRedisNumber, some ⟨"number of redis pods differ from specification"⟩⟩,
        ⟨.UpdateCluster "wait for all redis server start", none⟩]⟩ ∧
    needRequeueErr.msg = "need requeue" ∧
    (CheckAndHeal redisShortHandler (demoMeta .Update) 0).trace.filter
      (fun x => x.call.isHealer) = [] ∧
    (CheckAndHeal redisShortHandler (demoMeta .Update) 0).trace.filter
      (fun x => x.call.isChecker) =
      [⟨.CheckRedisNumber, some ⟨"number of redis pods differ from specification"⟩⟩] :=
  CheckAndHeal_redis_mismatch_requeues redisShortHandler (demoMeta .Update) 0
    ⟨"number of redis pods differ from specification"⟩ rfl

/-! ## Passes over a cluster whose checks pass -/

section Quiet
variable {W : Type} (rsh : RedisSentinelHandler W) (meta : Meta)

theorem Outcome.Quiet.after_quiet {w : W} {o : Outcome W} {pre : List Entry}
    (hpre : ∀ x ∈ pre, x.call.isHealer = false) (h : o.Quiet w) : (o.after pre).Quiet w := by
  refine ⟨?_, h.2⟩
  intro x hx
  rcases List.mem_append.mp hx with hx | hx
  · exact hpre x hx
  · exact h.1 x hx

theorem Outcome.Quiet.andThen_quiet {w : W} {o : Outcome W} {k : W → Outcome W}
    (h : o.Quiet w) (hk : (k w).Quiet w) : (o.andThen k).Quiet w := by
  cases ho : o.err with
  | some e => rw [Outcome.andThen_of_err k ho]; exact h
  | none =>
    rw [Outcome.andThen_of_ok k ho, h.2]
    exact Outcome.Quiet.after_quiet h.1 hk

theorem setRedisConfigLoop_of_pass (l : List String) (w : W)
    (h : ∀ ip ∈ l, rsh.RsChecker.CheckRedisConfig meta.Obj ip meta.Auth w = none) :
    setRedisConfigLoop rsh meta l w =
      ⟨none, w, l.map fun ip => ⟨.CheckRedisConfig ip, none⟩⟩ := by
  induction l with
  | nil => rfl
  | cons ip rest ih =>
    have hip := h ip (List.mem_cons_self _ _)
    have hrest := ih fun x hx => h x (List.mem_cons_of_mem _ hx)
    simp [setRedisConfigLoop, hip, hrest, Outcome.after]

theorem checkMonitors_of_pass (master : String) (l : List String) (w : W)
    (h : ∀ sip ∈ l, rsh.RsChecker.CheckSentinelMonitor sip master meta.Auth w = none) :
    checkMonitors rsh meta master l w =
      ⟨none, w, l.map fun sip => ⟨.CheckSentinelMonitor sip master, none⟩⟩ := by
  induction l with
  | nil => rfl
  | cons sip rest ih =>
    have hsip := h sip (List.mem_cons_self _ _)
    have hrest := ih fun x hx => h x (List.mem_cons_of_mem _ hx)
    simp [checkMonitors, hsip, hrest, Outcome.after]

theorem restoreSlaves_of_pass (l : List String) (w : W)
    (h : ∀ sip ∈ l,
      rsh.RsChecker.CheckSentinelSlavesNumberInMemory sip meta.Obj meta.Auth w = none) :
    restoreSlaves rsh meta l w =
      ⟨none, w, l.map fun sip => ⟨.CheckSentinelSlavesNumberInMemory sip, none⟩⟩ := by
  induction l with
  | nil => rfl
  | cons sip rest ih =>
    have hsip := h sip (List.mem_cons_self _ _)
    have hrest := ih fun x hx => h x (List.mem_cons_of_mem _ hx)
    simp [restoreSlaves, hsip, hrest, Outcome.after]

theorem restorePeers_of_pass (l : List String) (w : W)
    (h : ∀ sip ∈ l, rsh.RsChecker.CheckSentinelNumberInMemory sip meta.Obj meta.Auth w = none) :
    restorePeers rsh meta l w =
      ⟨none, w, l.map fun sip => ⟨.CheckSentinelNumberInMemory sip, none⟩⟩ := by
  induction l with
  | nil => rfl
  | cons sip rest ih =>
    have hsip := h sip (List.mem_cons_self _ _)
    have hrest := ih fun x hx => h x (List.mem_cons_of_mem _ hx)
    simp [restorePeers, hsip, hrest, Outcome.after]

theorem setSentinelConfig_quiet (l : List String) (w : W)
    (h : meta.State = StateType.Check ∨ l = []) :
    (setSentinelConfig rsh meta l w).Quiet w := by
  unfold setSentinelConfig
  split
  · exact ⟨by simp, rfl⟩
  · rcases h with h | h
    · contradiction
    · subst h; exact ⟨by simp [setSentinelConfigLoop], rfl⟩

theorem healSentinels_quiet (master : String) (l : List String) (w : W)
    (hmonitor : ∀ sip ∈ l, rsh.RsChecker.CheckSentinelMonitor sip master meta.Auth w = none)
    (hslaves : ∀ sip ∈ l,
      rsh.RsChecker.CheckSentinelSlavesNumberInMemory sip meta.Obj meta.Auth w = none)
    (hpeers : ∀ sip ∈ l,
      rsh.RsChecker.CheckSentinelNumberInMemory sip meta.Obj meta.Auth w = none)
    (hphase : meta.State = StateType.Check ∨ l = []) :
    (healSentinels rsh meta master l w).Quiet w := by
  unfold healSentinels
  refine Outcome.Quiet.andThen_quiet ?_ (Outcome.Quiet.andThen_quiet ?_ (Outcome.Quiet.andThen_quiet ?_ ?_))
  · rw [checkMonitors_of_pass rsh meta master l w hmonitor]
    exact ⟨by simp [Call.isHealer], rfl⟩
  · rw [restoreSlaves_of_pass rsh meta l w hslaves]
    exact ⟨by simp [Call.isHealer], rfl⟩
  · rw [restorePeers_of_pass rsh meta l w hpeers]
    exact ⟨by simp [Call.isHealer], rfl⟩
  · exact setSentinelConfig_quiet rsh meta l w hphase

end Quiet

/-- C4, as stated, fails twice.  In the healthy example cluster, one master with every
slave replicating from it, a pass in the `Update` phase still calls
`SetSentinelCustomConfig`; and in the `Check` phase a pass over the cluster with a drifted
Redis configuration, where the same checks pass, calls `SetRedisCustomConfig`. -/
theorem CheckAndHeal_healthy_still_heals :
    healthyHandler.RsChecker.GetNumberMasters (demoMeta .Update).Obj (demoMeta .Update).Auth 0
      = .ok 1 ∧
    healthyHandler.RsChecker.CheckAllSlavesFromMaster "10.0.0.1" (demoMeta .Update).Obj
      (demoMeta .Update).Auth 0 = none ∧
    (CheckAndHeal healthyHandler (demoMeta .Update) 0).trace.filter
      (fun x => x.call.isHealer) = [⟨.SetSentinelCustomConfig "10.0.1.1", none⟩] ∧
    driftedConfigHandler.RsChecker.GetNumberMasters (demoMeta .Check).Obj
      (demoMeta .Check).Auth 0 = .ok 1 ∧
    driftedConfigHandler.RsChecker.CheckAllSlavesFromMaster "10.0.0.1" (demoMeta .Check).Obj
      (demoMeta .Check).Auth 0 = none ∧
    (CheckAndHeal driftedConfigHandler (demoMeta .Check) 0).trace.filter
      (fun x => x.call.isHealer) = [⟨.SetRedisCustomConfig "10.0.0.2", none⟩] :=
  ⟨rfl, rfl, by decide, rfl, rfl, by decide⟩

/-- C4, amended: when both replica-count checks pass, exactly one master is reported,
`CheckAllSlavesFromMaster` passes for the resolved master, every Redis node passes
`CheckRedisConfig`, every sentinel passes `CheckSentinelMonitor`,
`CheckSentinelSlavesNumberInMemory` and `CheckSentinelNumberInMemory`, and the phase is
`Check` or there is no sentinel, `CheckAndHeal` makes no healer call and leaves the world
as it was. -/
theorem CheckAndHeal_converged_no_healer {W : Type} (rsh : RedisSentinelHandler W)
    (meta : Meta) (w : W)
    (hredis : rsh.RsChecker.CheckRedisNumber meta.Obj w = none)
    (hsentinel : rsh.RsChecker.CheckSentinelNumber meta.Obj w = none)
    (hmasters : rsh.RsChecker.GetNumberMasters meta.Obj meta.Auth w = .ok 1)
    (hslaves : ∀ master, rsh.RsChecker.GetMasterIP meta.Obj meta.Auth w = .ok master →
      rsh.RsChecker.CheckAllSlavesFromMaster master meta.Obj meta.Auth w = none)
    (hconfig : ∀ redises, rsh.RsChecker.GetRedisesIPs meta.Obj meta.Auth w = .ok redises →
      ∀ ip ∈ redises, rsh.RsChecker.CheckRedisConfig meta.Obj ip meta.Auth w = none)
    (hsentinels : ∀ master sentinels,
      rsh.RsChecker.GetMasterIP meta.Obj meta.Auth w = .ok master →
      rsh.RsChecker.GetSentinelsIPs meta.Obj w = .ok sentinels →
      ∀ sip ∈ sentinels,
        rsh.RsChecker.CheckSentinelMonitor sip master meta.Auth w = none ∧
        rsh.RsChecker.CheckSentinelSlavesNumberInMemory sip meta.Obj meta.Auth w = none ∧
        rsh.RsChecker.CheckSentinelNumberInMemory sip meta.Obj meta.Auth w = none)
    (hphase : meta.State = StateType.Check ∨ rsh.RsChecker.GetSentinelsIPs meta.Obj w = .ok []) :
    (∀ x ∈ (CheckAndHeal rsh meta w).trace, x.call.isHealer = false) ∧
    (CheckAndHeal rsh meta w).world = w := by
  rw [CheckAndHeal_of_masters rsh meta hredis hsentinel hmasters]
  refine Outcome.Quiet.after_quiet (by simp [Call.isHealer]) ?_
  refine Outcome.Quiet.andThen_quiet (by simp [electMaster, Outcome.Quiet]) ?_
  unfold healTopology
  cases hmaster : rsh.RsChecker.GetMasterIP meta.Obj meta.Auth w with
  | error e => exact ⟨by simp [Call.isHealer], rfl⟩
  | ok master =>
    refine Outcome.Quiet.after_quiet (by simp [Call.isHealer]) ?_
    refine Outcome.Quiet.andThen_quiet ?_ (Outcome.Quiet.andThen_quiet ?_ ?_)
    · simp [rewireSlaves, hslaves master hmaster, Outcome.Quiet, Call.isHealer]
    · unfold setRedisConfig
      cases hips : rsh.RsChecker.GetRedisesIPs meta.Obj meta.Auth w with
      | error e => exact ⟨by simp [Call.isHealer], rfl⟩
      | ok redises =>
        dsimp only
        rw [setRedisConfigLoop_of_pass rsh meta redises w (hconfig redises hips)]
        exact ⟨by simp [Call.isHealer, Outcome.after], rfl⟩
    · cases hsips : rsh.RsChecker.GetSentinelsIPs meta.Obj w with
      | error e => exact ⟨by simp [Call.isHealer], rfl⟩
      | ok sentinels =>
        have hall := hsentinels master sentinels hmaster hsips
        dsimp only
        refine Outcome.Quiet.after_quiet (by simp [Call.isHealer]) ?_
        refine healSentinels_quiet rsh meta master sentinels w (fun s hs => (hall s hs).1)
          (fun s hs => (hall s hs).2.1) (fun s hs => (hall s hs).2.2) ?_
        rcases hphase with h | h
        · exact Or.inl h
        · right
          rw [hsips] at h
          exact Except.ok.inj h

/-- Witness for the amended C4: the healthy example cluster in the `Check` phase. -/
theorem CheckAndHeal_converged_no_healer_witness :
    (∀ x ∈ (CheckAndHeal healthyHandler (demoMeta .Check) 0).trace, x.call.isHealer = false) ∧
    (CheckAndHeal healthyHandler (demoMeta .Check) 0).world = 0 :=
  CheckAndHeal_converged_no_healer healthyHandler (demoMeta .Check) 0 rfl rfl rfl
    (fun _ _ => rfl) (fun _ _ _ _ => rfl) (fun _ _ _ _ _ _ => ⟨rfl, rfl, rfl⟩) (Or.inl rfl)

/-! ## Promotion when no master is observed -/

section Promotion
variable {W : Type} (rsh : RedisSentinelHandler W) (meta : Meta)

/-- The calls of a pass that reached the master-count switch: the three calls of the
membership check and master count, the calls of the switch, and then calls of the rest of the
pass, none of which belongs to the switch alone. -/
theorem CheckAndHeal_calls_of_masters {w : W} {n : Int}
    (hredis : rsh.RsChecker.CheckRedisNumber meta.Obj w = none)
    (hsentinel : rsh.RsChecker.CheckSentinelNumber meta.Obj w = none)
    (hmasters : rsh.RsChecker.GetNumberMasters meta.Obj meta.Auth w = .ok n) :
    ∃ rest : List Call,
      (CheckAndHeal rsh meta w).calls =
        [.CheckRedisNumber, .CheckSentinelNumber, .GetNumberMasters] ++
          (electMaster rsh meta n w).calls ++ rest ∧
      ∀ c ∈ rest, c.ofHealTopology = true := by
  rw [CheckAndHeal_of_masters rsh meta hredis hsentinel hmasters]
  cases he : (electMaster rsh meta n w).err with
  | some e =>
    refine ⟨[], ?_, by simp⟩
    rw [Outcome.andThen_of_err _ he]
    simp [Outcome.calls]
  | none =>
    refine ⟨(healTopology rsh meta (electMaster rsh meta n w).world).calls, ?_, ?_⟩
    · rw [Outcome.andThen_of_ok _ he]
      simp [Outcome.calls]
    · intro c hc
      simp only [Outcome.calls, List.mem_map] at hc
      obtain ⟨x, hx, rfl⟩ := hc
      exact healTopology_calls rsh meta _ x hx

end Promotion

/-- C5: when both replica-count checks pass, no master is observed and `GetRedisesIPs`
returns the single address `a`, the pass calls `MakeMaster a` exactly once, calls
`MakeMaster` on no other address, and calls neither `GetMinimumRedisPodTime` nor
`SetOldestAsMaster`. -/
theorem CheckAndHeal_single_node_promoted {W : Type} (rsh : RedisSentinelHandler W)
    (meta : Meta) (w : W) (a : String)
    (hredis : rsh.RsChecker.CheckRedisNumber meta.Obj w = none)
    (hsentinel : rsh.RsChecker.CheckSentinelNumber meta.Obj w = none)
    (hmasters : rsh.RsChecker.GetNumberMasters meta.Obj meta.Auth w = .ok 0)
    (hips : rsh.RsChecker.GetRedisesIPs meta.Obj meta.Auth w = .ok [a]) :
    (CheckAndHeal rsh meta w).calls.count (.MakeMaster a) = 1 ∧
    (∀ ip, Call.MakeMaster ip ∈ (CheckAndHeal rsh meta w).calls → ip = a) ∧
    Call.GetMinimumRedisPodTime ∉ (CheckAndHeal rsh meta w).calls ∧
    Call.SetOldestAsMaster ∉ (CheckAndHeal rsh meta w).calls := by
  obtain ⟨rest, hcalls, hrest⟩ := CheckAndHeal_calls_of_masters rsh meta hredis hsentinel hmasters
  have helect : (electMaster rsh meta 0 w).calls =
      [.UpdateCluster "set master", .GetRedisesIPs, .MakeMaster a] := by
    simp [electMaster, hips, Outcome.calls]
  rw [hcalls, helect]
  have hno : ∀ c : Call, c.ofHealTopology = false → c ∉ rest := by
    intro c hc hmem
    rw [hrest c hmem] at hc
    exact Bool.noConfusion hc
  refine ⟨?_, ?_, ?_, ?_⟩
  · have h0 : rest.count (.MakeMaster a) = 0 := List.count_eq_zero.mpr (hno _ rfl)
    simp [List.count_append, List.count_cons, h0]
  · intro ip hip
    simp only [List.mem_append] at hip
    rcases hip with (h | h) | h
    · simp at h
    · simpa using h
    · exact absurd h (hno _ rfl)
  · simp only [List.mem_append, not_or]
    exact ⟨⟨by simp, by simp⟩, hno _ rfl⟩
  · simp only [List.mem_append, not_or]
    exact ⟨⟨by simp, by simp⟩, hno _ rfl⟩

/-- Witness for C5: the example cluster with a single Redis node and no master. -/
theorem CheckAndHeal_single_node_promoted_witness :
    (CheckAndHeal loneRedisHandler (demoMeta .Create) 0).calls.count (.MakeMaster "10.0.0.1")
      = 1 ∧
    (∀ ip, Call.MakeMaster ip ∈ (CheckAndHeal loneRedisHandler (demoMeta .Create) 0).calls →
      ip = "10.0.0.1") ∧
    Call.GetMinimumRedisPodTime ∉ (CheckAndHeal loneRedisHandler (demoMeta .Create) 0).calls ∧
    Call.SetOldestAsMaster ∉ (CheckAndHeal loneRedisHandler (demoMeta .Create) 0).calls :=
  CheckAndHeal_single_node_promoted loneRedisHandler (demoMeta .Create) 0 "10.0.0.1"
    rfl rfl rfl rfl

/-- C6, as stated, fails: in the example cluster with three Redis nodes and no master, the
age query returns an error, and the pass returns that error without calling
`SetOldestAsMaster`. -/
theorem CheckAndHeal_age_query_error_blocks_promotion :
    noPodTimeHandler.RsChecker.CheckRedisNumber (demoMeta .Create).Obj 0 = none ∧
    noPodTimeHandler.RsChecker.CheckSentinelNumber (demoMeta .Create).Obj 0 = none ∧
    noPodTimeHandler.RsChecker.GetNumberMasters (demoMeta .Create).Obj (demoMeta .Create).Auth 0
      = .ok 0 ∧
    noPodTimeHandler.RsChecker.GetRedisesIPs (demoMeta .Create).Obj (demoMeta .Create).Auth 0
      = .ok ["10.0.0.1", "10.0.0.2", "10.0.0.3"] ∧
    (CheckAndHeal noPodTimeHandler (demoMeta .Create) 0).calls.count .SetOldestAsMaster = 0 ∧
    (CheckAndHeal noPodTimeHandler (demoMeta .Create) 0).err
      = some ⟨"statefulset pods not found"⟩ :=
  ⟨rfl, rfl, rfl, rfl, by decide, by decide⟩

/-- C6, amended: when both replica-count checks pass, no master is observed, `GetRedisesIPs`
returns a list whose length is not 1 and `GetMinimumRedisPodTime` succeeds, the pass calls
`SetOldestAsMaster` exactly once and never `MakeMaster`, whatever age the query returns. -/
theorem CheckAndHeal_oldest_promoted {W : Type} (rsh : RedisSentinelHandler W)
    (meta : Meta) (w : W) (ips : List String) (age : Int)
    (hredis : rsh.RsChecker.CheckRedisNumber meta.Obj w = none)
    (hsentinel : rsh.RsChecker.CheckSentinelNumber meta.Obj w = none)
    (hmasters : rsh.RsChecker.GetNumberMasters meta.Obj meta.Auth w = .ok 0)
    (hips : rsh.RsChecker.GetRedisesIPs meta.Obj meta.Auth w = .ok ips)
    (hlen : ips.length ≠ 1)
    (hage : rsh.RsChecker.GetMinimumRedisPodTime meta.Obj w = .ok age) :
    (CheckAndHeal rsh meta w).calls.count .SetOldestAsMaster = 1 ∧
    ∀ ip, Call.MakeMaster ip ∉ (CheckAndHeal rsh meta w).calls := by
  obtain ⟨rest, hcalls, hrest⟩ := CheckAndHeal_calls_of_masters rsh meta hredis hsentinel hmasters
  have helect : (electMaster rsh meta 0 w).calls =
      [.UpdateCluster "set master", .GetRedisesIPs, .GetMinimumRedisPodTime,
        .SetOldestAsMaster] := by
    match ips, hips, hlen with
    | [], hips, _ => simp [electMaster, hips, hage, Outcome.calls]
    | [_], _, hlen => exact absurd rfl hlen
    | _ :: _ :: _, hips, _ => simp [electMaster, hips, hage, Outcome.calls]
  rw [hcalls, helect]
  have hno : ∀ c : Call, c.ofHealTopology = false → c ∉ rest := by
    intro c hc hmem
    rw [hrest c hmem] at hc
    exact Bool.noConfusion hc
  refine ⟨?_, ?_⟩
  · have h0 : rest.count .SetOldestAsMaster = 0 := List.count_eq_zero.mpr (hno _ rfl)
    simp [List.count_append, List.count_cons, h0]
  · intro ip
    simp only [List.mem_append, not_or]
    exact ⟨⟨by simp, by simp⟩, hno _ rfl⟩

/-- Witness for the amended C6: the example cluster with three Redis nodes and no master. -/
theorem CheckAndHeal_oldest_promoted_witness :
    (CheckAndHeal noMasterHandler (demoMeta .Create) 7).calls.count .SetOldestAsMaster = 1 ∧
    ∀ ip, Call.MakeMaster ip ∉ (CheckAndHeal noMasterHandler (demoMeta .Create) 7).calls :=
  CheckAndHeal_oldest_promoted noMasterHandler (demoMeta .Create) 7
    ["10.0.0.1", "10.0.0.2", "10.0.0.3"] 7 rfl rfl rfl rfl (by decide) rfl

/-! ## Order of the sentinel steps -/

section Order
variable {W : Type} (rsh : RedisSentinelHandler W) (meta : Meta)

theorem Outcome.ConfigLast.of_calls {o : Outcome W} {P : Call → Bool} (h : o.Calls P)
    (hP : ∀ c, P c = true → c.ofSetSentinelConfig = false) : o.ConfigLast :=
  ⟨o.trace, [], by simp, fun y hy => hP _ (h y hy), by simp⟩

theorem Outcome.ConfigLast.of_trace_configLast {o : Outcome W}
    (h : ∀ y ∈ o.trace, y.call.ofSetSentinelConfig = false) : o.ConfigLast :=
  ⟨o.trace, [], by simp, h, by simp⟩

theorem Outcome.ConfigLast.after_configLast {o : Outcome W} {pre : List Entry}
    (hpre : ∀ y ∈ pre, y.call.ofSetSentinelConfig = false) (h : o.ConfigLast) :
    (o.after pre).ConfigLast := by
  obtain ⟨before, config, htrace, hbefore, hconfig⟩ := h
  refine ⟨pre ++ before, config, by simp [htrace], ?_, hconfig⟩
  intro y hy
  rcases List.mem_append.mp hy with hy | hy
  · exact hpre y hy
  · exact hbefore y hy

theorem Outcome.ConfigLast.andThen_configLast {o : Outcome W} {P : Call → Bool} {k : W → Outcome W}
    (h : o.Calls P) (hP : ∀ c, P c = true → c.ofSetSentinelConfig = false)
    (hk : ∀ w, (k w).ConfigLast) : (o.andThen k).ConfigLast := by
  cases ho : o.err with
  | some e => rw [Outcome.andThen_of_err k ho]; exact Outcome.ConfigLast.of_calls h hP
  | none =>
    rw [Outcome.andThen_of_ok k ho]
    exact Outcome.ConfigLast.after_configLast (fun y hy => hP _ (h y hy)) (hk _)

theorem healSentinels_configLast (master : String) (l : List String) (w : W) :
    (healSentinels rsh meta master l w).ConfigLast := by
  unfold healSentinels
  refine Outcome.ConfigLast.andThen_configLast (checkMonitors_calls rsh meta master l w)
    (by intro c hc; cases c <;> simp_all [Call.ofCheckMonitors, Call.ofSetSentinelConfig])
    fun w1 => ?_
  refine Outcome.ConfigLast.andThen_configLast (restoreSlaves_calls rsh meta l w1)
    (by intro c hc; cases c <;> simp_all [Call.ofRestoreSlaves, Call.ofSetSentinelConfig])
    fun w2 => ?_
  refine Outcome.ConfigLast.andThen_configLast (restorePeers_calls rsh meta l w2)
    (by intro c hc; cases c <;> simp_all [Call.ofRestorePeers, Call.ofSetSentinelConfig])
    fun w3 => ?_
  exact ⟨[], (setSentinelConfig rsh meta l w3).trace, by simp, by simp,
    setSentinelConfig_calls rsh meta l w3⟩

theorem healTopology_configLast (w : W) : (healTopology rsh meta w).ConfigLast := by
  unfold healTopology
  split
  · exact Outcome.ConfigLast.of_trace_configLast (by simp [Call.ofSetSentinelConfig])
  · rename_i master _
    refine Outcome.ConfigLast.after_configLast (by simp [Call.ofSetSentinelConfig]) ?_
    refine Outcome.ConfigLast.andThen_configLast (rewireSlaves_calls rsh meta master w)
      (by intro c hc; cases c <;> simp_all [Call.ofRewireSlaves, Call.ofSetSentinelConfig])
      fun w1 => ?_
    refine Outcome.ConfigLast.andThen_configLast (setRedisConfig_calls rsh meta w1)
      (by intro c hc; cases c <;> simp_all [Call.ofSetRedisConfig, Call.ofSetSentinelConfig])
      fun w2 => ?_
    split
    · exact Outcome.ConfigLast.of_trace_configLast (by simp [Call.ofSetSentinelConfig])
    · exact Outcome.ConfigLast.after_configLast (by simp [Call.ofSetSentinelConfig])
        (healSentinels_configLast rsh meta master _ w2)

theorem CheckAndHeal_configLast (w : W) : (CheckAndHeal rsh meta w).ConfigLast := by
  unfold CheckAndHeal
  split
  · exact Outcome.ConfigLast.of_trace_configLast (by simp [Call.ofSetSentinelConfig])
  · split
    · exact Outcome.ConfigLast.of_trace_configLast (by simp [Call.ofSetSentinelConfig])
    · refine Outcome.ConfigLast.after_configLast (by simp [Call.ofSetSentinelConfig]) ?_
      split
      · exact Outcome.ConfigLast.of_trace_configLast (by simp [Call.ofSetSentinelConfig])
      · refine Outcome.ConfigLast.after_configLast (by simp [Call.ofSetSentinelConfig]) ?_
        exact Outcome.ConfigLast.andThen_configLast (electMaster_calls rsh meta _ w)
          (by intro c hc; cases c <;> simp_all [Call.ofElectMaster, Call.ofSetSentinelConfig])
          (healTopology_configLast rsh meta)

end Order

/-- C7, as stated, fails: in the example cluster whose sentinel has a wrong peer count, a
pass in the `Update` phase makes its only `SetSentinelCustomConfig` call after the
`CheckSentinelMonitor` call and after the `RestoreSentinel` call, as the last call of the
pass. -/
theorem CheckAndHeal_sentinel_config_not_first :
    (demoMeta .Update).State ≠ StateType.Check ∧
    (CheckAndHeal forgetfulSentinelHandler (demoMeta .Update) 0).calls =
      [.CheckRedisNumber, .CheckSentinelNumber, .GetNumberMasters, .GetMasterIP,
       .CheckAllSlavesFromMaster "10.0.0.1", .GetRedisesIPs, .CheckRedisConfig "10.0.0.1",
       .CheckRedisConfig "10.0.0.2", .CheckRedisConfig "10.0.0.3", .GetSentinelsIPs,
       .CheckSentinelMonitor "10.0.1.1" "10.0.0.1",
       .CheckSentinelSlavesNumberInMemory "10.0.1.1",
       .CheckSentinelNumberInMemory "10.0.1.1", .RestoreSentinel "10.0.1.1",
       .SetSentinelCustomConfig "10.0.1.1"] ∧
    (CheckAndHeal forgetfulSentinelHandler (demoMeta .Update) 0).calls.indexOf
        (.CheckSentinelMonitor "10.0.1.1" "10.0.0.1") <
      (CheckAndHeal forgetfulSentinelHandler (demoMeta .Update) 0).calls.indexOf
        (.SetSentinelCustomConfig "10.0.1.1") ∧
    (CheckAndHeal forgetfulSentinelHandler (demoMeta .Update) 0).calls.indexOf
        (.RestoreSentinel "10.0.1.1") <
      (CheckAndHeal forgetfulSentinelHandler (demoMeta .Update) 0).calls.indexOf
        (.SetSentinelCustomConfig "10.0.1.1") := by
  decide

/-- C7, amended: the sentinel-config step runs last.  The trace of every pass splits into
a first part without any `SetSentinelCustomConfig` call, which therefore holds every
`CheckSentinelMonitor`, `NewSentinelMonitor` and `RestoreSentinel` call of the pass, and a
second part made of `SetSentinelCustomConfig` calls only. -/
theorem CheckAndHeal_sentinel_config_last {W : Type} (rsh : RedisSentinelHandler W)
    (meta : Meta) (w : W) :
    ∃ before config : List Entry,
      (CheckAndHeal rsh meta w).trace = before ++ config ∧
      (∀ y ∈ config, ∃ sip, y.call = .SetSentinelCustomConfig sip) ∧
      (∀ y ∈ before, ∀ sip, y.call ≠ .SetSentinelCustomConfig sip) ∧
      (∀ y ∈ (CheckAndHeal rsh meta w).trace,
        (∃ sip master, y.call = .CheckSentinelMonitor sip master ∨
          y.call = .NewSentinelMonitor sip master ∨ y.call = .RestoreSentinel sip) →
        y ∈ before) := by
  obtain ⟨before, config, htrace, hbefore, hconfig⟩ := CheckAndHeal_configLast rsh meta w
  refine ⟨before, config, htrace, ?_, ?_, ?_⟩
  · intro y hy
    have h := hconfig y hy
    cases hc : y.call <;> simp_all [Call.ofSetSentinelConfig]
  · intro y hy sip hc
    have h := hbefore y hy
    simp [hc, Call.ofSetSentinelConfig] at h
  · intro y hy hcall
    rw [htrace] at hy
    rcases List.mem_append.mp hy with hy | hy
    · exact hy
    · have h := hconfig y hy
      obtain ⟨sip, master, hc | hc | hc⟩ := hcall <;> simp [hc, Call.ofSetSentinelConfig] at h

/-! ## `setSentinelConfig` -/

section SentinelConfig
variable {W : Type} (rsh : RedisSentinelHandler W) (meta : Meta)

theorem setSentinelConfigLoop_of_ok (l : List String) (w : W)
    (h : ∀ done sip rest, l = done ++ sip :: rest →
      (rsh.RsHealer.SetSentinelCustomConfig sip meta.Obj meta.Auth
        (sentinelConfigWorld rsh meta done w)).1 = none) :
    setSentinelConfigLoop rsh meta l w =
      ⟨none, sentinelConfigWorld rsh meta l w,
        l.map fun sip => ⟨.SetSentinelCustomConfig sip, none⟩⟩ := by
  induction l generalizing w with
  | nil => rfl
  | cons sip rest ih =>
    have hhead := h [] sip rest rfl
    have htail := ih (rsh.RsHealer.SetSentinelCustomConfig sip meta.Obj meta.Auth w).2
      (fun done s r hl => by
        have := h (sip :: done) s r (by simp [hl])
        simpa [sentinelConfigWorld] using this)
    simp only [sentinelConfigWorld, List.foldl_nil] at hhead
    simp [setSentinelConfigLoop, hhead, htail, Outcome.after, sentinelConfigWorld]

theorem setSentinelConfigLoop_of_err (done : List String) (sip : String) (rest : List String)
    (w : W) (e : GoError)
    (hdone : ∀ d1 x d2, done = d1 ++ x :: d2 →
      (rsh.RsHealer.SetSentinelCustomConfig x meta.Obj meta.Auth
        (sentinelConfigWorld rsh meta d1 w)).1 = none)
    (hsip : (rsh.RsHealer.SetSentinelCustomConfig sip meta.Obj meta.Auth
        (sentinelConfigWorld rsh meta done w)).1 = some e) :
    setSentinelConfigLoop rsh meta (done ++ sip :: rest) w =
      ⟨some e, (rsh.RsHealer.SetSentinelCustomConfig sip meta.Obj meta.Auth
          (sentinelConfigWorld rsh meta done w)).2,
        (done.map fun s => ⟨.SetSentinelCustomConfig s, none⟩) ++
          [⟨.SetSentinelCustomConfig sip, some e⟩]⟩ := by
  induction done generalizing w with
  | nil =>
    simp only [sentinelConfigWorld, List.foldl_nil] at hsip
    simp [setSentinelConfigLoop, hsip, sentinelConfigWorld]
  | cons x done ih =>
    have hhead := hdone [] x done rfl
    simp only [sentinelConfigWorld, List.foldl_nil] at hhead
    have htail := ih (rsh.RsHealer.SetSentinelCustomConfig x meta.Obj meta.Auth w).2
      (fun d1 y d2 hl => by
        have := hdone (x :: d1) y d2 (by simp [hl])
        simpa [sentinelConfigWorld] using this)
      (by simpa [sentinelConfigWorld] using hsip)
    simp [setSentinelConfigLoop, hhead, htail, Outcome.after, sentinelConfigWorld]

end SentinelConfig

/-- C8: `setSentinelConfig` does nothing in the `Check` phase.  In every other phase it
calls `SetSentinelCustomConfig` on the sentinels in list order, each call in the world the
previous one left, with no checker call in between: if every call succeeds, every sentinel
is called once and the result is nil; if the call on `sip` is the first to return an error
`e`, the calls stop there and the result is `e`. -/
theorem setSentinelConfig_applies_unconditionally {W : Type} (rsh : RedisSentinelHandler W)
    (meta : Meta) (w : W) :
    (∀ sentinels, meta.State = StateType.Check →
      setSentinelConfig rsh meta sentinels w = ⟨none, w, []⟩) ∧
    (∀ sentinels, meta.State ≠ StateType.Check →
      (∀ done sip rest, sentinels = done ++ sip :: rest →
        (rsh.RsHealer.SetSentinelCustomConfig sip meta.Obj meta.Auth
          (sentinelConfigWorld rsh meta done w)).1 = none) →
      setSentinelConfig rsh meta sentinels w =
        ⟨none, sentinelConfigWorld rsh meta sentinels w,
          sentinels.map fun sip => ⟨.SetSentinelCustomConfig sip, none⟩⟩) ∧
    (∀ done sip rest e, meta.State ≠ StateType.Check →
      (∀ d1 x d2, done = d1 ++ x :: d2 →
        (rsh.RsHealer.SetSentinelCustomConfig x meta.Obj meta.Auth
          (sentinelConfigWorld rsh meta d1 w)).1 = none) →
      (rsh.RsHealer.SetSentinelCustomConfig sip meta.Obj meta.Auth
        (sentinelConfigWorld rsh meta done w)).1 = some e →
      setSentinelConfig rsh meta (done ++ sip :: rest) w =
        ⟨some e, (rsh.RsHealer.SetSentinelCustomConfig sip meta.Obj meta.Auth
            (sentinelConfigWorld rsh meta done w)).2,
          (done.map fun s => ⟨.SetSentinelCustomConfig s, none⟩) ++
            [⟨.SetSentinelCustomConfig sip, some e⟩]⟩) := by
  refine ⟨?_, ?_, ?_⟩
  · intro sentinels hcheck
    simp [setSentinelConfig, hcheck]
  · intro sentinels hphase hok
    simp only [setSentinelConfig, if_neg hphase]
    exact setSentinelConfigLoop_of_ok rsh meta sentinels w hok
  · intro done sip rest e hphase hdone hsip
    simp only [setSentinelConfig, if_neg hphase]
    exact setSentinelConfigLoop_of_err rsh meta done sip rest w e hdone hsip

/-- Witness for C8: three sentinels, the second of which rejects the configuration. -/
theorem setSentinelConfig_applies_unconditionally_witness :
    setSentinelConfig stubbornSentinelHandler (demoMeta .Check)
      ["10.0.1.1", "10.0.1.2", "10.0.1.3"] 0 = ⟨none, 0, []⟩ ∧
    setSentinelConfig stubbornSentinelHandler (demoMeta .Update) ["10.0.1.1", "10.0.1.3"] 0 =
      ⟨none, 2, [⟨.SetSentinelCustomConfig "10.0.1.1", none⟩,
        ⟨.SetSentinelCustomConfig "10.0.1.3", none⟩]⟩ ∧
    setSentinelConfig stubbornSentinelHandler (demoMeta .Update)
      ["10.0.1.1", "10.0.1.2", "10.0.1.3"] 0 =
      ⟨some ⟨"sentinel unreachable"⟩, 2, [⟨.SetSentinelCustomConfig "10.0.1.1", none⟩,
        ⟨.SetSentinelCustomConfig "10.0.1.2", some ⟨"sentinel unreachable"⟩⟩]⟩ :=
  ⟨(setSentinelConfig_applies_unconditionally stubbornSentinelHandler (demoMeta .Check) 0).1
      _ rfl,
    (setSentinelConfig_applies_unconditionally stubbornSentinelHandler (demoMeta .Update) 0).2.1
      ["10.0.1.1", "10.0.1.3"] (by decide) (by
        intro done sip rest h
        match done, h with
        | [], h => cases h; rfl
        | [_], h => cases h; rfl
        | _ :: _ :: [], h => cases h
        | _ :: _ :: _ :: _, h => cases h),
    (setSentinelConfig_applies_unconditionally stubbornSentinelHandler (demoMeta .Update) 0).2.2
      ["10.0.1.1"] "10.0.1.2" ["10.0.1.3"] ⟨"sentinel unreachable"⟩ (by decide) (by
        intro d1 x d2 h
        match d1, h with
        | [], h => cases h; rfl
        | _ :: [], h => cases h
        | _ :: _ :: _, h => cases h) rfl⟩

/-! ## Healer errors end the pass -/

section Propagation
variable {W : Type} (rsh : RedisSentinelHandler W) (meta : Meta)

theorem FatalLast.clean_of_none {t : List Entry} (h : FatalLast none t) :
    CleanTrace t := by
  induction t with
  | nil => intro x hx; simp at hx
  | cons y rest ih =>
    intro x hx
    rcases List.mem_cons.mp hx with rfl | hx
    · cases hxe : x.fatal with
      | none => rfl
      | some e => exact absurd (h.1 e hxe).1 (by simp)
    · exact ih h.2 x hx

theorem FatalLast.append {err : Option GoError} {a b : List Entry}
    (ha : CleanTrace a) (hb : FatalLast err b) : FatalLast err (a ++ b) := by
  induction a with
  | nil => exact hb
  | cons y rest ih =>
    refine ⟨?_, ih fun x hx => ha x (List.mem_cons_of_mem _ hx)⟩
    intro e he
    rw [ha y (List.mem_cons_self _ _)] at he
    exact Option.noConfusion he

theorem FatalLast.of_clean {err : Option GoError} {t : List Entry}
    (h : CleanTrace t) : FatalLast err t := by
  have := @FatalLast.append err t [] h trivial
  simpa using this

theorem FatalLast.split {err : Option GoError} {pre post : List Entry} {x : Entry}
    {e : GoError} (h : FatalLast err (pre ++ x :: post))
    (he : x.fatal = some e) : err = some e ∧ post = [] := by
  induction pre with
  | nil => exact h.1 e he
  | cons y rest ih => exact ih h.2

theorem Outcome.Propagates.after_propagates {o : Outcome W} {pre : List Entry} (hpre : CleanTrace pre)
    (h : o.Propagates) : (o.after pre).Propagates :=
  FatalLast.append hpre h

theorem Outcome.Propagates.andThen_propagates {o : Outcome W} {k : W → Outcome W} (h : o.Propagates)
    (hk : ∀ w, (k w).Propagates) : (o.andThen k).Propagates := by
  cases ho : o.err with
  | some e => rw [Outcome.andThen_of_err k ho]; exact h
  | none =>
    rw [Outcome.andThen_of_ok k ho]
    refine Outcome.Propagates.after_propagates ?_ (hk _)
    unfold Outcome.Propagates at h
    rw [ho] at h
    exact h.clean_of_none

theorem electMaster_propagates (n : Int) (w : W) : (electMaster rsh meta n w).Propagates := by
  unfold electMaster
  split
  · split
    · simp [Outcome.Propagates, FatalLast, Entry.fatal, Call.isHealer]
    · split
      · simp [Outcome.Propagates, FatalLast, Entry.fatal, Call.isHealer]
      · split
        · simp [Outcome.Propagates, FatalLast, Entry.fatal, Call.isHealer]
        · simp [Outcome.Propagates, FatalLast, Entry.fatal, Call.isHealer]
  · split <;> simp [Outcome.Propagates, FatalLast]

theorem rewireSlaves_propagates (master : String) (w : W) :
    (rewireSlaves rsh meta master w).Propagates := by
  unfold rewireSlaves
  split <;> simp [Outcome.Propagates, FatalLast, Entry.fatal, Call.isHealer]

theorem setRedisConfigLoop_propagates (l : List String) (w : W) :
    (setRedisConfigLoop rsh meta l w).Propagates := by
  induction l generalizing w with
  | nil => simp [setRedisConfigLoop, Outcome.Propagates, FatalLast]
  | cons rip rest ih =>
    unfold setRedisConfigLoop
    split
    · exact Outcome.Propagates.after_propagates (by simp [CleanTrace, Entry.fatal, Call.isHealer]) (ih w)
    · dsimp only
      split
      · rename_i h1
        simp [Outcome.Propagates, FatalLast, Entry.fatal, Call.isHealer, h1]
      · rename_i h1
        exact Outcome.Propagates.after_propagates (by simp [CleanTrace, Entry.fatal, Call.isHealer, h1]) (ih _)

theorem setRedisConfig_propagates (w : W) : (setRedisConfig rsh meta w).Propagates := by
  unfold setRedisConfig
  split
  · simp [Outcome.Propagates, FatalLast, Entry.fatal, Call.isHealer]
  · exact Outcome.Propagates.after_propagates (by simp [CleanTrace, Entry.fatal, Call.isHealer])
      (setRedisConfigLoop_propagates rsh meta _ w)

theorem setSentinelConfigLoop_propagates (l : List String) (w : W) :
    (setSentinelConfigLoop rsh meta l w).Propagates := by
  induction l generalizing w with
  | nil => simp [setSentinelConfigLoop, Outcome.Propagates, FatalLast]
  | cons sip rest ih =>
    unfold setSentinelConfigLoop
    dsimp only
    split
    · simp [Outcome.Propagates, FatalLast, Entry.fatal, Call.isHealer]
    · exact Outcome.Propagates.after_propagates (by simp [CleanTrace, Entry.fatal, Call.isHealer]) (ih _)

theorem setSentinelConfig_propagates (l : List String) (w : W) :
    (setSentinelConfig rsh meta l w).Propagates := by
  unfold setSentinelConfig
  split
  · simp [Outcome.Propagates, FatalLast]
  · exact setSentinelConfigLoop_propagates rsh meta l w

theorem waitRestoreLoop_propagates (sentinel : String) (rs : RedisSentinel)
    (auth : AuthConfig) (deadline : Nat) (w : W) :
    (waitRestoreLoop rsh sentinel rs auth deadline w).Propagates := by
  induction w using waitRestoreLoop.induct rsh sentinel rs auth deadline with
  | case1 w fired =>
    rw [waitRestoreLoop, dif_pos fired]
    simp [Outcome.Propagates, FatalLast, Entry.fatal]
  | case2 w fired e he ih =>
    rw [waitRestoreLoop, dif_neg fired]
    simp only [he]
    exact Outcome.Propagates.after_propagates (by simp [CleanTrace, Entry.fatal, Call.isHealer]) ih
  | case3 w fired he =>
    rw [waitRestoreLoop, dif_neg fired]
    simp only [he]
    simp [Outcome.Propagates, FatalLast, Entry.fatal, Call.isHealer]

theorem waitRestoreSentinelSlavesOK_propagates (sentinel : String) (rs : RedisSentinel)
    (auth : AuthConfig) (w : W) :
    (waitRestoreSentinelSlavesOK rsh sentinel rs auth w).Propagates :=
  waitRestoreLoop_propagates rsh sentinel rs auth _ w

theorem checkMonitors_propagates (master : String) (l : List String) (w : W) :
    (checkMonitors rsh meta master l w).Propagates := by
  induction l generalizing w with
  | nil => simp [checkMonitors, Outcome.Propagates, FatalLast]
  | cons sip rest ih =>
    unfold checkMonitors
    split
    · exact Outcome.Propagates.after_propagates (by simp [CleanTrace, Entry.fatal, Call.isHealer]) (ih w)
    · dsimp only
      split
      · rename_i h1
        simp [Outcome.Propagates, FatalLast, Entry.fatal, Call.isHealer, h1]
      · rename_i h1
        exact Outcome.Propagates.after_propagates (by simp [CleanTrace, Entry.fatal, Call.isHealer, h1]) (ih _)

theorem restoreSlaves_propagates (l : List String) (w : W) :
    (restoreSlaves rsh meta l w).Propagates := by
  induction l generalizing w with
  | nil => simp [restoreSlaves, Outcome.Propagates, FatalLast]
  | cons sip rest ih =>
    unfold restoreSlaves
    split
    · exact Outcome.Propagates.after_propagates (by simp [CleanTrace, Entry.fatal, Call.isHealer]) (ih w)
    · dsimp only
      split
      · rename_i h1
        simp [Outcome.Propagates, FatalLast, Entry.fatal, Call.isHealer, h1]
      · rename_i h1
        exact Outcome.Propagates.after_propagates (by simp [CleanTrace, Entry.fatal, Call.isHealer, h1])
          (Outcome.Propagates.andThen_propagates
            (waitRestoreSentinelSlavesOK_propagates rsh sip meta.Obj meta.Auth _) ih)

theorem restorePeers_propagates (l : List String) (w : W) :
    (restorePeers rsh meta l w).Propagates := by
  induction l generalizing w with
  | nil => simp [restorePeers, Outcome.Propagates, FatalLast]
  | cons sip rest ih =>
    unfold restorePeers
    split
    · exact Outcome.Propagates.after_propagates (by simp [CleanTrace, Entry.fatal, Call.isHealer]) (ih w)
    · dsimp only
      split
      · rename_i h1
        simp [Outcome.Propagates, FatalLast, Entry.fatal, Call.isHealer, h1]
      · rename_i h1
        exact Outcome.Propagates.after_propagates (by simp [CleanTrace, Entry.fatal, Call.isHealer, h1]) (ih _)

theorem healSentinels_propagates (master : String) (l : List String) (w : W) :
    (healSentinels rsh meta master l w).Propagates := by
  unfold healSentinels
  exact Outcome.Propagates.andThen_propagates (checkMonitors_propagates rsh meta master l w) fun w1 =>
    Outcome.Propagates.andThen_propagates (restoreSlaves_propagates rsh meta l w1) fun w2 =>
    Outcome.Propagates.andThen_propagates (restorePeers_propagates rsh meta l w2) fun w3 =>
    setSentinelConfig_propagates rsh meta l w3

theorem healTopology_propagates (w : W) : (healTopology rsh meta w).Propagates := by
  unfold healTopology
  split
  · simp [Outcome.Propagates, FatalLast, Entry.fatal, Call.isHealer]
  · rename_i master _
    refine Outcome.Propagates.after_propagates (by simp [CleanTrace, Entry.fatal, Call.isHealer]) ?_
    refine Outcome.Propagates.andThen_propagates (rewireSlaves_propagates rsh meta master w) fun w1 => ?_
    refine Outcome.Propagates.andThen_propagates (setRedisConfig_propagates rsh meta w1) fun w2 => ?_
    split
    · simp [Outcome.Propagates, FatalLast, Entry.fatal, Call.isHealer]
    · exact Outcome.Propagates.after_propagates (by simp [CleanTrace, Entry.fatal, Call.isHealer])
        (healSentinels_propagates rsh meta master _ w2)

theorem CheckAndHeal_propagates (w : W) : (CheckAndHeal rsh meta w).Propagates := by
  unfold CheckAndHeal
  split
  · simp [Outcome.Propagates, FatalLast, Entry.fatal, Call.isHealer]
  · split
    · simp [Outcome.Propagates, FatalLast, Entry.fatal, Call.isHealer]
    · refine Outcome.Propagates.after_propagates (by simp [CleanTrace, Entry.fatal, Call.isHealer]) ?_
      split
      · simp [Outcome.Propagates, FatalLast, Entry.fatal, Call.isHealer]
      · refine Outcome.Propagates.after_propagates (by simp [CleanTrace, Entry.fatal, Call.isHealer]) ?_
        exact Outcome.Propagates.andThen_propagates (electMaster_propagates rsh meta _ w)
          (healTopology_propagates rsh meta)

end Propagation

/-- C9: whenever a healer action of a pass returns an error `e`, whichever of the seven
actions it is, that call is the last entry of the trace, so no checker, healer, event or
timer call follows it, and `CheckAndHeal` returns exactly `e`. -/
theorem CheckAndHeal_healer_error_returned {W : Type} (rsh : RedisSentinelHandler W)
    (meta : Meta) (w : W) (pre post : List Entry) (x : Entry) (e : GoError)
    (htrace : (CheckAndHeal rsh meta w).trace = pre ++ x :: post)
    (hhealer : x.call.isHealer = true) (herr : x.err = some e) :
    (CheckAndHeal rsh meta w).err = some e ∧ post = [] := by
  have h := CheckAndHeal_propagates rsh meta w
  unfold Outcome.Propagates at h
  rw [htrace] at h
  refine h.split ?_
  have htimer : x.call ≠ Call.TimerC := by
    intro hc
    rw [hc] at hhealer
    exact Bool.noConfusion hhealer
  simp [Entry.fatal, htimer, hhealer, herr]

/-- Witness for C9: in the example cluster whose sentinel cannot be reset, the failed
`RestoreSentinel` call of the peer-count step is the last call of the pass. -/
theorem CheckAndHeal_healer_error_returned_witness :
    (CheckAndHeal brokenRestoreHandler (demoMeta .Update) 0).trace =
      brokenRestoreChecks ++
        ⟨.RestoreSentinel "10.0.1.1", some ⟨"sentinel reset refused"⟩⟩ :: [] ∧
    ((CheckAndHeal brokenRestoreHandler (demoMeta .Update) 0).err
        = some ⟨"sentinel reset refused"⟩ ∧
      ([] : List Entry) = []) :=
  ⟨by decide,
    CheckAndHeal_healer_error_returned brokenRestoreHandler (demoMeta .Update) 0
      brokenRestoreChecks []
      ⟨.RestoreSentinel "10.0.1.1", some ⟨"sentinel reset refused"⟩⟩
      ⟨"sentinel reset refused"⟩ (by decide) rfl rfl⟩

/-! ## The bounded wait for a restored sentinel -/

section Wait
variable {W : Type} (rsh : RedisSentinelHandler W) (meta : Meta)

theorem pollWorld_succ (k : Nat) (w : W) :
    pollWorld rsh (k + 1) w = rsh.Time.Sleep checkInterval (pollWorld rsh k w) := by
  induction k generalizing w with
  | zero => rfl
  | succ k ih => exact ih (rsh.Time.Sleep checkInterval w)

theorem pollWorld_elapsed (k : Nat) (w : W) :
    rsh.Time.Now w + k * checkInterval ≤ rsh.Time.Now (pollWorld rsh k w) := by
  induction k generalizing w with
  | zero => simp [pollWorld]
  | succ k ih =>
    have h1 := rsh.Time.Sleep_elapses checkInterval w
    have h2 := ih (rsh.Time.Sleep checkInterval w)
    simp only [pollWorld]
    rw [Nat.succ_mul]
    omega

theorem waitRestoreLoop_of_pass (sentinel : String) (rs : RedisSentinel) (auth : AuthConfig)
    (deadline : Nat) (k : Nat) (w : W)
    (hfail : ∀ j, j < k →
      rsh.RsChecker.CheckSentinelSlavesNumberInMemory sentinel rs auth (pollWorld rsh j w)
        ≠ none)
    (hpass : rsh.RsChecker.CheckSentinelSlavesNumberInMemory sentinel rs auth
      (pollWorld rsh k w) = none)
    (htime : rsh.Time.Now (pollWorld rsh k w) < deadline) :
    waitRestoreLoop rsh sentinel rs auth deadline w =
      ⟨none, pollWorld rsh k w, failedPolls rsh sentinel rs auth k w ++
        [⟨.CheckSentinelSlavesNumberInMemory sentinel, none⟩]⟩ := by
  induction k generalizing w with
  | zero =>
    simp only [pollWorld] at hpass htime
    rw [waitRestoreLoop, dif_neg (by omega)]
    simp [hpass, pollWorld, failedPolls]
  | succ k ih =>
    have hnow : rsh.Time.Now w < deadline := by
      have := pollWorld_elapsed rsh (k + 1) w
      omega
    have hhead := hfail 0 (by omega)
    simp only [pollWorld] at hhead
    obtain ⟨e, he⟩ := Option.ne_none_iff_exists'.mp hhead
    have htail := ih (rsh.Time.Sleep checkInterval w)
      (fun j hj => by simpa [pollWorld] using hfail (j + 1) (by omega))
      (by simpa [pollWorld] using hpass) (by simpa [pollWorld] using htime)
    rw [waitRestoreLoop, dif_neg (by omega)]
    simp [he, htail, Outcome.after, pollWorld, failedPolls]

theorem waitRestoreLoop_of_stuck (sentinel : String) (rs : RedisSentinel) (auth : AuthConfig)
    (deadline : Nat) (w : W)
    (hfail : ∀ j, rsh.Time.Now (pollWorld rsh j w) < deadline →
      rsh.RsChecker.CheckSentinelSlavesNumberInMemory sentinel rs auth (pollWorld rsh j w)
        ≠ none) :
    ∃ k, deadline ≤ rsh.Time.Now (pollWorld rsh k w) ∧
      (∀ j, j < k → rsh.Time.Now (pollWorld rsh j w) < deadline) ∧
      waitRestoreLoop rsh sentinel rs auth deadline w =
        ⟨some restoreTimeoutErr, pollWorld rsh k w,
          failedPolls rsh sentinel rs auth k w ++ [⟨.TimerC, none⟩]⟩ := by
  induction w using waitRestoreLoop.induct rsh sentinel rs auth deadline with
  | case1 w fired =>
    refine ⟨0, fired, fun j hj => absurd hj (Nat.not_lt_zero j), ?_⟩
    rw [waitRestoreLoop, dif_pos fired]
    simp [pollWorld, failedPolls]
  | case2 w fired e he ih =>
    obtain ⟨k, hk, hbefore, hrun⟩ := ih fun j hj => by
      simpa [pollWorld] using hfail (j + 1) (by simpa [pollWorld] using hj)
    refine ⟨k + 1, by simpa [pollWorld] using hk, ?_, ?_⟩
    · intro j hj
      cases j with
      | zero => simp only [pollWorld]; omega
      | succ j => simpa [pollWorld] using hbefore j (by omega)
    · rw [waitRestoreLoop, dif_neg fired]
      simp [he, hrun, Outcome.after, pollWorld, failedPolls]
  | case3 w fired he =>
    exact absurd he (hfail 0 (by simp only [pollWorld]; omega))

theorem waitRestoreSentinelSlavesOK_of_stuck (sentinel : String) (rs : RedisSentinel)
    (auth : AuthConfig) (w : W)
    (hfail : ∀ j, rsh.Time.Now (pollWorld rsh j w) < rsh.Time.Now w + timeOut →
      rsh.RsChecker.CheckSentinelSlavesNumberInMemory sentinel rs auth (pollWorld rsh j w)
        ≠ none) :
    ∃ k, 1 ≤ k ∧ k ≤ 6 ∧ rsh.Time.Now w + timeOut ≤ rsh.Time.Now (pollWorld rsh k w) ∧
      waitRestoreSentinelSlavesOK rsh sentinel rs auth w =
        ⟨some restoreTimeoutErr, pollWorld rsh k w,
          failedPolls rsh sentinel rs auth k w ++ [⟨.TimerC, none⟩]⟩ := by
  obtain ⟨k, hk, hbefore, hrun⟩ :=
    waitRestoreLoop_of_stuck rsh sentinel rs auth (rsh.Time.Now w + timeOut) w hfail
  refine ⟨k, ?_, ?_, hk, hrun⟩
  · cases k with
    | zero =>
      simp only [pollWorld, timeOut, Second] at hk
      omega
    | succ k => omega
  · by_contra hlarge
    have h6 := hbefore 6 (by omega)
    have h6e := pollWorld_elapsed rsh 6 w
    simp only [timeOut, checkInterval, Second] at h6 h6e
    omega

theorem restoreSlaves_of_restore {sip : String} {rest : List String} {w w1 : W} {e : GoError}
    (hcheck : rsh.RsChecker.CheckSentinelSlavesNumberInMemory sip meta.Obj meta.Auth w
      = some e)
    (hrestore : rsh.RsHealer.RestoreSentinel sip meta.Auth w = (none, w1)) :
    restoreSlaves rsh meta (sip :: rest) w =
      ((waitRestoreSentinelSlavesOK rsh sip meta.Obj meta.Auth w1).andThen
        (restoreSlaves rsh meta rest)).after
        [⟨.CheckSentinelSlavesNumberInMemory sip, some e⟩, ⟨.RestoreSentinel sip, none⟩] := by
  simp [restoreSlaves, hcheck, hrestore]

theorem Outcome.Split.of_trace_split {P Q : Call → Bool} {o : Outcome W}
    (h : ∀ y ∈ o.trace, P y.call = true) : o.Split P Q :=
  ⟨o.trace, [], by simp, h, by simp⟩

theorem Outcome.Split.of_second {P Q : Call → Bool} {o : Outcome W} (h : o.Calls Q) :
    o.Split P Q :=
  ⟨[], o.trace, by simp, by simp, h⟩

theorem Outcome.Split.after_split {P Q : Call → Bool} {o : Outcome W} {pre : List Entry}
    (hpre : ∀ y ∈ pre, P y.call = true) (h : o.Split P Q) : (o.after pre).Split P Q := by
  obtain ⟨a, b, htrace, ha, hb⟩ := h
  refine ⟨pre ++ a, b, by simp [htrace], ?_, hb⟩
  intro y hy
  rcases List.mem_append.mp hy with hy | hy
  · exact hpre y hy
  · exact ha y hy

theorem Outcome.Split.andThen_split {P Q : Call → Bool} {o : Outcome W} {k : W → Outcome W}
    (h : o.Calls P) (hk : ∀ w, (k w).Split P Q) : (o.andThen k).Split P Q := by
  cases ho : o.err with
  | some e => rw [Outcome.andThen_of_err k ho]; exact Outcome.Split.of_trace_split h
  | none =>
    rw [Outcome.andThen_of_ok k ho]
    exact Outcome.Split.after_split h (hk _)

theorem healSentinels_split (master : String) (l : List String) (w : W) :
    (healSentinels rsh meta master l w).Split Call.notPeerCheck Call.notTimer := by
  unfold healSentinels
  refine Outcome.Split.andThen_split ((checkMonitors_calls rsh meta master l w).mono
    (by intro c hc; cases c <;> simp_all [Call.ofCheckMonitors, Call.notPeerCheck]))
    fun w1 => ?_
  refine Outcome.Split.andThen_split ((restoreSlaves_calls rsh meta l w1).mono
    (by intro c hc; cases c <;> simp_all [Call.ofRestoreSlaves, Call.notPeerCheck]))
    fun w2 => ?_
  refine Outcome.Split.of_second ?_
  refine Outcome.Calls.andThen_calls ((restorePeers_calls rsh meta l w2).mono
    (by intro c hc; cases c <;> simp_all [Call.ofRestorePeers, Call.notTimer])) fun w3 => ?_
  exact (setSentinelConfig_calls rsh meta l w3).mono
    (by intro c hc; cases c <;> simp_all [Call.ofSetSentinelConfig, Call.notTimer])

theorem healTopology_split (w : W) :
    (healTopology rsh meta w).Split Call.notPeerCheck Call.notTimer := by
  unfold healTopology
  split
  · exact Outcome.Split.of_trace_split (by simp [Call.notPeerCheck])
  · rename_i master _
    refine Outcome.Split.after_split (by simp [Call.notPeerCheck]) ?_
    refine Outcome.Split.andThen_split ((rewireSlaves_calls rsh meta master w).mono
      (by intro c hc; cases c <;> simp_all [Call.ofRewireSlaves, Call.notPeerCheck]))
      fun w1 => ?_
    refine Outcome.Split.andThen_split ((setRedisConfig_calls rsh meta w1).mono
      (by intro c hc; cases c <;> simp_all [Call.ofSetRedisConfig, Call.notPeerCheck]))
      fun w2 => ?_
    split
    · exact Outcome.Split.of_trace_split (by simp [Call.notPeerCheck])
    · exact Outcome.Split.after_split (by simp [Call.notPeerCheck])
        (healSentinels_split rsh meta master _ w2)

theorem CheckAndHeal_split (w : W) :
    (CheckAndHeal rsh meta w).Split Call.notPeerCheck Call.notTimer := by
  unfold CheckAndHeal
  split
  · exact Outcome.Split.of_trace_split (by simp [Call.notPeerCheck])
  · split
    · exact Outcome.Split.of_trace_split (by simp [Call.notPeerCheck])
    · refine Outcome.Split.after_split (by simp [Call.notPeerCheck]) ?_
      split
      · exact Outcome.Split.of_trace_split (by simp [Call.notPeerCheck])
      · refine Outcome.Split.after_split (by simp [Call.notPeerCheck]) ?_
        exact Outcome.Split.andThen_split ((electMaster_calls rsh meta _ w).mono
          (by intro c hc; cases c <;> simp_all [Call.ofElectMaster, Call.notPeerCheck]))
          (healTopology_split rsh meta)

/-- A pass whose restore timer fired returns the timeout error, made the expiry its last
trace entry, and never ran a peer-count check. -/
theorem CheckAndHeal_of_timer (w : W) (x : Entry)
    (hx : x ∈ (CheckAndHeal rsh meta w).trace) (htimer : x.call = Call.TimerC) :
    (CheckAndHeal rsh meta w).err = some restoreTimeoutErr ∧
    ∃ pre, (CheckAndHeal rsh meta w).trace = pre ++ [x] ∧
      ∀ y ∈ pre, ∀ s, y.call ≠ Call.CheckSentinelNumberInMemory s := by
  obtain ⟨pre, post, htrace⟩ := List.append_of_mem hx
  have hfatal : x.fatal = some restoreTimeoutErr := by simp [Entry.fatal, htimer]
  have hprop := CheckAndHeal_propagates rsh meta w
  unfold Outcome.Propagates at hprop
  rw [htrace] at hprop
  obtain ⟨herr, hpost⟩ := hprop.split hfatal
  subst hpost
  refine ⟨herr, pre, htrace, ?_⟩
  obtain ⟨a, b, hab, ha, hb⟩ := CheckAndHeal_split rsh meta w
  have hb_nil : b = [] := by
    rcases List.eq_nil_or_concat b with h | ⟨b1, z, h⟩
    · exact h
    · exfalso
      rw [List.concat_eq_append] at h
      rw [htrace, h, ← List.append_assoc] at hab
      have hz : [x] = [z] := List.append_inj_right' hab rfl
      have hzx : z = x := (List.singleton_inj.mp hz).symm
      have := hb z (by simp [h])
      rw [hzx, htimer] at this
      exact Bool.noConfusion this
  intro y hy s hc
  have hya : y ∈ a := by
    have : y ∈ a ++ b := by rw [← hab, htrace]; exact List.mem_append_left _ hy
    simpa [hb_nil] using this
  have := ha y hya
  rw [hc] at this
  exact Bool.noConfusion this

/-- A pass over a cluster whose data plane and sentinel monitors are in order goes straight
to the slave-count loop. -/
theorem CheckAndHeal_of_monitors_ok {w : W} {master : String} {redises sentinels : List String}
    (hredis : rsh.RsChecker.CheckRedisNumber meta.Obj w = none)
    (hsentinel : rsh.RsChecker.CheckSentinelNumber meta.Obj w = none)
    (hmasters : rsh.RsChecker.GetNumberMasters meta.Obj meta.Auth w = .ok 1)
    (hmaster : rsh.RsChecker.GetMasterIP meta.Obj meta.Auth w = .ok master)
    (hslaves : rsh.RsChecker.CheckAllSlavesFromMaster master meta.Obj meta.Auth w = none)
    (hips : rsh.RsChecker.GetRedisesIPs meta.Obj meta.Auth w = .ok redises)
    (hconfig : ∀ ip ∈ redises, rsh.RsChecker.CheckRedisConfig meta.Obj ip meta.Auth w = none)
    (hsips : rsh.RsChecker.GetSentinelsIPs meta.Obj w = .ok sentinels)
    (hmonitor : ∀ sip ∈ sentinels,
      rsh.RsChecker.CheckSentinelMonitor sip master meta.Auth w = none) :
    CheckAndHeal rsh meta w =
      ((restoreSlaves rsh meta sentinels w).andThen fun w2 =>
        (restorePeers rsh meta sentinels w2).andThen fun w3 =>
          setSentinelConfig rsh meta sentinels w3).after
        ([⟨.CheckRedisNumber, none⟩, ⟨.CheckSentinelNumber, none⟩, ⟨.GetNumberMasters, none⟩,
          ⟨.GetMasterIP, none⟩, ⟨.CheckAllSlavesFromMaster master, none⟩,
          ⟨.GetRedisesIPs, none⟩] ++
          (redises.map fun ip => ⟨.CheckRedisConfig ip, none⟩) ++ [⟨.GetSentinelsIPs, none⟩] ++
          (sentinels.map fun sip => ⟨.CheckSentinelMonitor sip master, none⟩)) := by
  rw [CheckAndHeal_of_masters rsh meta hredis hsentinel hmasters]
  simp [electMaster, healTopology, hmaster, rewireSlaves, hslaves, setRedisConfig, hips,
    setRedisConfigLoop_of_pass rsh meta redises w hconfig, hsips, healSentinels,
    checkMonitors_of_pass rsh meta master sentinels w hmonitor, Outcome.andThen, Outcome.after]

end Wait

/-- C10: a sentinel `sip` that fails `CheckSentinelSlavesNumberInMemory` is reset with
`RestoreSentinel` and then polled with the same check every `checkInterval` = 5s against a
timer of `timeOut` = 30s.  If the `k`-th poll is the first to pass and is made before the
timer fires, the loop goes on with the next sentinel, in the world of that poll.  If every
poll made before the timer fires fails, `waitRestoreSentinelSlavesOK` gives up after
between one and six polls with the timeout error, and the slave-count loop returns it.  A
pass whose timer fired returns that error, which is not the retry error, ends with the
expiry of the timer, and has made no `CheckSentinelNumberInMemory` call. -/
theorem restoreSlaves_restore_then_poll {W : Type} (rsh : RedisSentinelHandler W)
    (meta : Meta) :
    checkInterval = 5 * Second ∧ timeOut = 30 * Second ∧
    (∀ (sip : String) (rest : List String) (w w1 : W) (e : GoError) (k : Nat),
      rsh.RsChecker.CheckSentinelSlavesNumberInMemory sip meta.Obj meta.Auth w = some e →
      rsh.RsHealer.RestoreSentinel sip meta.Auth w = (none, w1) →
      (∀ j, j < k → rsh.RsChecker.CheckSentinelSlavesNumberInMemory sip meta.Obj meta.Auth
        (pollWorld rsh j w1) ≠ none) →
      rsh.RsChecker.CheckSentinelSlavesNumberInMemory sip meta.Obj meta.Auth
        (pollWorld rsh k w1) = none →
      rsh.Time.Now (pollWorld rsh k w1) < rsh.Time.Now w1 + timeOut →
      restoreSlaves rsh meta (sip :: rest) w =
        (restoreSlaves rsh meta rest (pollWorld rsh k w1)).after
          ([⟨.CheckSentinelSlavesNumberInMemory sip, some e⟩, ⟨.RestoreSentinel sip, none⟩] ++
            failedPolls rsh sip meta.Obj meta.Auth k w1 ++
            [⟨.CheckSentinelSlavesNumberInMemory sip, none⟩])) ∧
    (∀ (sip : String) (rest : List String) (w w1 : W) (e : GoError),
      rsh.RsChecker.CheckSentinelSlavesNumberInMemory sip meta.Obj meta.Auth w = some e →
      rsh.RsHealer.RestoreSentinel sip meta.Auth w = (none, w1) →
      (∀ j, rsh.Time.Now (pollWorld rsh j w1) < rsh.Time.Now w1 + timeOut →
        rsh.RsChecker.CheckSentinelSlavesNumberInMemory sip meta.Obj meta.Auth
          (pollWorld rsh j w1) ≠ none) →
      ∃ k, 1 ≤ k ∧ k ≤ 6 ∧
        rsh.Time.Now w1 + timeOut ≤ rsh.Time.Now (pollWorld rsh k w1) ∧
        waitRestoreSentinelSlavesOK rsh sip meta.Obj meta.Auth w1 =
          ⟨some restoreTimeoutErr, pollWorld rsh k w1,
            failedPolls rsh sip meta.Obj meta.Auth k w1 ++ [⟨.TimerC, none⟩]⟩ ∧
        restoreSlaves rsh meta (sip :: rest) w =
          ⟨some restoreTimeoutErr, pollWorld rsh k w1,
            [⟨.CheckSentinelSlavesNumberInMemory sip, some e⟩, ⟨.RestoreSentinel sip, none⟩] ++
              failedPolls rsh sip meta.Obj meta.Auth k w1 ++ [⟨.TimerC, none⟩]⟩) ∧
    restoreTimeoutErr.msg ≠ NeedRequeueMsg ∧
    (∀ (w : W) (x : Entry), x ∈ (CheckAndHeal rsh meta w).trace → x.call = Call.TimerC →
      (CheckAndHeal rsh meta w).err = some restoreTimeoutErr ∧
      ∃ pre, (CheckAndHeal rsh meta w).trace = pre ++ [x] ∧
        ∀ y ∈ pre, ∀ s, y.call ≠ Call.CheckSentinelNumberInMemory s) := by
  refine ⟨rfl, rfl, ?_, ?_, by decide, CheckAndHeal_of_timer rsh meta⟩
  · intro sip rest w w1 e k hcheck hrestore hfail hpass htime
    have hwait := waitRestoreLoop_of_pass rsh sip meta.Obj meta.Auth
      (rsh.Time.Now w1 + timeOut) k w1 hfail hpass htime
    rw [restoreSlaves_of_restore rsh meta hcheck hrestore]
    unfold waitRestoreSentinelSlavesOK
    rw [hwait]
    simp [Outcome.andThen, Outcome.after]
  · intro sip rest w w1 e hcheck hrestore hfail
    obtain ⟨k, h1, h6, hlate, hwait⟩ :=
      waitRestoreSentinelSlavesOK_of_stuck rsh sip meta.Obj meta.Auth w1 hfail
    refine ⟨k, h1, h6, hlate, hwait, ?_⟩
    rw [restoreSlaves_of_restore rsh meta hcheck hrestore, hwait]
    simp [Outcome.andThen, Outcome.after]

/-- Witness for C10: in the example cluster whose sentinel recovers after ten seconds the
third poll passes and the loop goes on; in the one whose sentinel never recovers the wait
gives up, and the whole pass returns the timeout error without a peer-count check. -/
theorem restoreSlaves_restore_then_poll_witness :
    restoreSlaves slowSentinelHandler (demoMeta .Check) ["10.0.1.1"] 0 =
      ⟨none, 10 * Second,
        [⟨.CheckSentinelSlavesNumberInMemory "10.0.1.1", some ⟨"slaves in memory mismatch"⟩⟩,
          ⟨.RestoreSentinel "10.0.1.1", none⟩,
          ⟨.CheckSentinelSlavesNumberInMemory "10.0.1.1", some ⟨"slaves in memory mismatch"⟩⟩,
          ⟨.Sleep checkInterval, none⟩,
          ⟨.CheckSentinelSlavesNumberInMemory "10.0.1.1", some ⟨"slaves in memory mismatch"⟩⟩,
          ⟨.Sleep checkInterval, none⟩,
          ⟨.CheckSentinelSlavesNumberInMemory "10.0.1.1", none⟩]⟩ ∧
    (∃ k, 1 ≤ k ∧ k ≤ 6 ∧
      restoreSlaves stuckSentinelHandler (demoMeta .Check) ["10.0.1.1"] 0 =
        ⟨some restoreTimeoutErr, pollWorld stuckSentinelHandler k 0,
          [⟨.CheckSentinelSlavesNumberInMemory "10.0.1.1",
              some ⟨"slaves in memory mismatch"⟩⟩, ⟨.RestoreSentinel "10.0.1.1", none⟩] ++
            failedPolls stuckSentinelHandler "10.0.1.1" (demoMeta .Check).Obj
              (demoMeta .Check).Auth k 0 ++ [⟨.TimerC, none⟩]⟩) ∧
    (CheckAndHeal stuckSentinelHandler (demoMeta .Check) 0).err = some restoreTimeoutErr ∧
    (∀ y ∈ (CheckAndHeal stuckSentinelHandler (demoMeta .Check) 0).trace,
      ∀ s, y.call ≠ Call.CheckSentinelNumberInMemory s) := by
  have hC10 := restoreSlaves_restore_then_poll stuckSentinelHandler (demoMeta .Check)
  obtain ⟨k, h1, h6, _, _, hloop⟩ := hC10.2.2.2.1 "10.0.1.1" [] 0 0
    ⟨"slaves in memory mismatch"⟩ rfl rfl (fun _ _ h => Option.noConfusion h)
  have hrun := @CheckAndHeal_of_monitors_ok Nat stuckSentinelHandler (demoMeta .Check) 0
    "10.0.0.1" ["10.0.0.1", "10.0.0.2", "10.0.0.3"] ["10.0.1.1"]
    rfl rfl rfl rfl rfl rfl (fun _ _ => rfl) rfl (fun _ _ => rfl)
  have hmem : (⟨.TimerC, none⟩ : Entry) ∈
      (CheckAndHeal stuckSentinelHandler (demoMeta .Check) 0).trace := by
    rw [hrun, hloop]
    simp [Outcome.andThen, Outcome.after]
  obtain ⟨herr, pre, htrace, hpre⟩ := hC10.2.2.2.2.2 0 ⟨.TimerC, none⟩ hmem rfl
  refine ⟨?_, ⟨k, h1, h6, hloop⟩, herr, ?_⟩
  · exact ((restoreSlaves_restore_then_poll slowSentinelHandler (demoMeta .Check)).2.2.1
      "10.0.1.1" [] 0 0 ⟨"slaves in memory mismatch"⟩ 2 rfl rfl
      (by intro j hj; interval_cases j <;> decide) rfl (by decide)).trans rfl
  · intro y hy s
    rw [htrace] at hy
    rcases List.mem_append.mp hy with hy | hy
    · exact hpre y hy s
    · rw [List.mem_singleton.mp hy]
      exact fun h => Call.noConfusion h

/-! ## The check-then-heal loops, address by address -/

section InTurn
variable {W : Type}

theorem worldInTurn_append (check : String → W → Option GoError)
    (heal : String → W → Option GoError × W) (done rest : List String) (w : W) :
    worldInTurn check heal (done ++ rest) w =
      worldInTurn check heal rest (worldInTurn check heal done w) := by
  induction done generalizing w with
  | nil => rfl
  | cons a done ih =>
    simp only [List.cons_append, worldInTurn]
    split <;> exact ih _

/-- An address is in `failingInTurn` exactly when, at one of its places in the list, its
check fails in the world the loop has reached by then. -/
theorem mem_failingInTurn (check : String → W → Option GoError)
    (heal : String → W → Option GoError × W) (l : List String) (w : W) (a : String) :
    a ∈ failingInTurn check heal l w ↔
      ∃ done rest, l = done ++ a :: rest ∧ check a (worldInTurn check heal done w) ≠ none := by
  induction l generalizing w with
  | nil => simp [failingInTurn]
  | cons b l ih =>
    cases hb : check b w with
    | none =>
      simp only [failingInTurn, hb, ih]
      constructor
      · rintro ⟨done, rest, hl, hfail⟩
        exact ⟨b :: done, rest, by simp [hl], by simpa [worldInTurn, hb] using hfail⟩
      · rintro ⟨done, rest, hl, hfail⟩
        cases done with
        | nil =>
          simp only [List.nil_append, List.cons.injEq] at hl
          obtain ⟨rfl, -⟩ := hl
          simp [worldInTurn, hb] at hfail
        | cons d done =>
          simp only [List.cons_append, List.cons.injEq] at hl
          obtain ⟨rfl, rfl⟩ := hl
          exact ⟨done, rest, rfl, by simpa [worldInTurn, hb] using hfail⟩
    | some e =>
      simp only [failingInTurn, hb, List.mem_cons, ih]
      constructor
      · rintro (rfl | ⟨done, rest, hl, hfail⟩)
        · exact ⟨[], l, rfl, by simp [worldInTurn, hb]⟩
        · exact ⟨b :: done, rest, by simp [hl], by simpa [worldInTurn, hb] using hfail⟩
      · rintro ⟨done, rest, hl, hfail⟩
        cases done with
        | nil =>
          simp only [List.nil_append, List.cons.injEq] at hl
          exact Or.inl hl.1.symm
        | cons d done =>
          simp only [List.cons_append, List.cons.injEq] at hl
          obtain ⟨rfl, rfl⟩ := hl
          exact Or.inr ⟨done, rest, rfl, by simpa [worldInTurn, hb] using hfail⟩

end InTurn

section InTurn
variable {W : Type} (rsh : RedisSentinelHandler W) (meta : Meta)

theorem Outcome.calls_after (pre : List Entry) (o : Outcome W) :
    (o.after pre).calls = pre.map (fun x => x.call) ++ o.calls := by
  simp [Outcome.calls]

theorem failedCount_append (c : Call) (a b : List Entry) :
    failedCount c (a ++ b) = failedCount c a + failedCount c b := by
  simp [failedCount]

theorem restorePeers_counts (l : List String) (w : W) (sip : String) :
    (restorePeers rsh meta l w).calls.count (.RestoreSentinel sip) =
      failedCount (.CheckSentinelNumberInMemory sip) (restorePeers rsh meta l w).trace ∧
    (restorePeers rsh meta l w).calls.count (.CheckSentinelNumberInMemory sip) ≤
      l.count sip := by
  induction l generalizing w with
  | nil => simp [restorePeers, Outcome.calls, failedCount]
  | cons a rest ih =>
    unfold restorePeers
    split
    · obtain ⟨h1, h2⟩ := ih w
      rw [Outcome.calls_after, Outcome.after_trace, failedCount_append, List.count_append,
        List.count_append, h1]
      refine ⟨by simp [failedCount], ?_⟩
      by_cases ha : a = sip
      · subst ha; simp [List.count_cons]; omega
      · have : ¬ sip = a := fun h => ha h.symm
        simp [List.count_cons, ha, this]; omega
    · dsimp only
      rename_i e he
      split
      · rename_i e1 h1
        by_cases ha : a = sip
        · subst ha; simp [Outcome.calls, failedCount, h1, List.count_cons]
        · have : ¬ sip = a := fun h => ha h.symm
          simp [Outcome.calls, failedCount, h1, List.count_cons, ha, this]
      · rename_i h1
        obtain ⟨h1', h2⟩ := ih (rsh.RsHealer.RestoreSentinel a meta.Auth w).2
        rw [Outcome.calls_after, Outcome.after_trace, failedCount_append, List.count_append,
          List.count_append, h1']
        by_cases ha : a = sip
        · subst ha; simp [failedCount, List.count_cons]; omega
        · have : ¬ sip = a := fun h => ha h.symm
          simp [failedCount, List.count_cons, ha, this]; omega

theorem restorePeers_in_turn (l : List String) (w : W)
    (hok : ∀ done sip rest, l = done ++ sip :: rest →
      peerCheck rsh meta sip (worldInTurn (peerCheck rsh meta) (peerHeal rsh meta) done w)
        ≠ none →
      (peerHeal rsh meta sip
        (worldInTurn (peerCheck rsh meta) (peerHeal rsh meta) done w)).1 = none) :
    (restorePeers rsh meta l w).err = none ∧
    (restorePeers rsh meta l w).world =
      worldInTurn (peerCheck rsh meta) (peerHeal rsh meta) l w ∧
    (restorePeers rsh meta l w).calls.filterMap Call.restoredSentinel =
      failingInTurn (peerCheck rsh meta) (peerHeal rsh meta) l w ∧
    (restorePeers rsh meta l w).calls.filterMap Call.peerChecked = l := by
  induction l generalizing w with
  | nil => simp [restorePeers, Outcome.calls, worldInTurn, failingInTurn]
  | cons a rest ih =>
    cases ha : rsh.RsChecker.CheckSentinelNumberInMemory a meta.Obj meta.Auth w with
    | none =>
      have hrest := ih w fun done sip r hl => by
        have := hok (a :: done) sip r (by simp [hl])
        simpa [worldInTurn, peerCheck, ha] using this
      simp only [restorePeers, ha, worldInTurn, failingInTurn, peerCheck,
        Outcome.calls_after, Outcome.after_err, Outcome.after_world]
      simp only [peerCheck] at hrest
      refine ⟨hrest.1, hrest.2.1, ?_, ?_⟩
      · simpa [Call.restoredSentinel] using hrest.2.2.1
      · simpa [Call.peerChecked] using hrest.2.2.2
    | some e =>
      have hheal := hok [] a rest rfl (by simp [worldInTurn, peerCheck, ha])
      simp only [worldInTurn, peerHeal] at hheal
      have hrest := ih (rsh.RsHealer.RestoreSentinel a meta.Auth w).2 fun done sip r hl => by
        have := hok (a :: done) sip r (by simp [hl])
        simpa [worldInTurn, peerCheck, peerHeal, ha] using this
      simp only [restorePeers, ha, hheal, worldInTurn, failingInTurn, peerCheck, peerHeal,
        Outcome.calls_after, Outcome.after_err, Outcome.after_world]
      simp only [peerCheck, peerHeal] at hrest
      refine ⟨hrest.1, hrest.2.1, ?_, ?_⟩
      · simpa [Call.restoredSentinel] using hrest.2.2.1
      · simpa [Call.peerChecked] using hrest.2.2.2

end InTurn

/-- C11: in the peer-count loop `RestoreSentinel sip` is called as many times as
`CheckSentinelNumberInMemory sip` failed, so once for a failed check and never for a
passed one; a sentinel is checked at most once for each of its places in the list, so the
check is not run again after a reset; and the loop makes no other call, in particular it
neither sleeps nor polls.  When no reset returns an error the loop checks every sentinel
of the list in order and resets exactly those whose check fails in the world of their
turn. -/
theorem restorePeers_restores_each_failing_once {W : Type} (rsh : RedisSentinelHandler W)
    (meta : Meta) (l : List String) (w : W) :
    (∀ sip, (restorePeers rsh meta l w).calls.count (.RestoreSentinel sip) =
      failedCount (.CheckSentinelNumberInMemory sip) (restorePeers rsh meta l w).trace) ∧
    (∀ sip, (restorePeers rsh meta l w).calls.count (.CheckSentinelNumberInMemory sip) ≤
      l.count sip) ∧
    (∀ x ∈ (restorePeers rsh meta l w).trace, x.call.ofRestorePeers = true) ∧
    ((∀ done sip rest, l = done ++ sip :: rest →
        peerCheck rsh meta sip (worldInTurn (peerCheck rsh meta) (peerHeal rsh meta) done w)
          ≠ none →
        (peerHeal rsh meta sip
          (worldInTurn (peerCheck rsh meta) (peerHeal rsh meta) done w)).1 = none) →
      (restorePeers rsh meta l w).err = none ∧
      (restorePeers rsh meta l w).world =
        worldInTurn (peerCheck rsh meta) (peerHeal rsh meta) l w ∧
      (restorePeers rsh meta l w).calls.filterMap Call.restoredSentinel =
        failingInTurn (peerCheck rsh meta) (peerHeal rsh meta) l w ∧
      (restorePeers rsh meta l w).calls.filterMap Call.peerChecked = l) :=
  ⟨fun sip => (restorePeers_counts rsh meta l w sip).1,
    fun sip => (restorePeers_counts rsh meta l w sip).2,
    restorePeers_calls rsh meta l w,
    restorePeers_in_turn rsh meta l w⟩

/-- Witness for C11: of the three sentinels of the example only the second is reset, once,
and each of them is checked once. -/
theorem restorePeers_restores_each_failing_once_witness :
    (restorePeers oneForgetfulHandler (demoMeta .Check)
      ["10.0.1.1", "10.0.1.2", "10.0.1.3"] 0).calls.filterMap Call.restoredSentinel
        = ["10.0.1.2"] ∧
    (restorePeers oneForgetfulHandler (demoMeta .Check)
      ["10.0.1.1", "10.0.1.2", "10.0.1.3"] 0).calls.filterMap Call.peerChecked
        = ["10.0.1.1", "10.0.1.2", "10.0.1.3"] ∧
    (restorePeers oneForgetfulHandler (demoMeta .Check)
      ["10.0.1.1", "10.0.1.2", "10.0.1.3"] 0).calls.count (.RestoreSentinel "10.0.1.2") = 1 :=
  have h := (restorePeers_restores_each_failing_once oneForgetfulHandler (demoMeta .Check)
    ["10.0.1.1", "10.0.1.2", "10.0.1.3"] 0).2.2.2 (fun _ _ _ _ _ => rfl)
  ⟨h.2.2.1.trans (by decide), h.2.2.2, by decide⟩

section InTurn
variable {W : Type} (rsh : RedisSentinelHandler W) (meta : Meta)

theorem setRedisConfigLoop_counts (l : List String) (w : W) (ip : String) :
    (setRedisConfigLoop rsh meta l w).calls.count (.SetRedisCustomConfig ip) =
      failedCount (.CheckRedisConfig ip) (setRedisConfigLoop rsh meta l w).trace := by
  induction l generalizing w with
  | nil => simp [setRedisConfigLoop, Outcome.calls, failedCount]
  | cons a rest ih =>
    unfold setRedisConfigLoop
    split
    · rw [Outcome.calls_after, Outcome.after_trace, failedCount_append, List.count_append,
        ih w]
      simp [failedCount]
    · dsimp only
      rename_i e he
      split
      · rename_i e1 h1
        by_cases ha : a = ip
        · subst ha; simp [Outcome.calls, failedCount, h1, List.count_cons]
        · have : ¬ ip = a := fun h => ha h.symm
          simp [Outcome.calls, failedCount, h1, List.count_cons, ha, this]
      · rename_i h1
        rw [Outcome.calls_after, Outcome.after_trace, failedCount_append, List.count_append,
          ih (rsh.RsHealer.SetRedisCustomConfig a meta.Obj meta.Auth w).2]
        by_cases ha : a = ip
        · subst ha; simp [failedCount, List.count_cons]
        · have : ¬ ip = a := fun h => ha h.symm
          simp [failedCount, List.count_cons, ha, this]

theorem setRedisConfigLoop_in_turn (l : List String) (w : W)
    (hok : ∀ done ip rest, l = done ++ ip :: rest →
      redisConfigCheck rsh meta ip
        (worldInTurn (redisConfigCheck rsh meta) (redisConfigHeal rsh meta) done w) ≠ none →
      (redisConfigHeal rsh meta ip
        (worldInTurn (redisConfigCheck rsh meta) (redisConfigHeal rsh meta) done w)).1
          = none) :
    (setRedisConfigLoop rsh meta l w).err = none ∧
    (setRedisConfigLoop rsh meta l w).world =
      worldInTurn (redisConfigCheck rsh meta) (redisConfigHeal rsh meta) l w ∧
    (setRedisConfigLoop rsh meta l w).calls.filterMap Call.configuredRedis =
      failingInTurn (redisConfigCheck rsh meta) (redisConfigHeal rsh meta) l w ∧
    (setRedisConfigLoop rsh meta l w).calls.filterMap Call.configChecked = l := by
  induction l generalizing w with
  | nil => simp [setRedisConfigLoop, Outcome.calls, worldInTurn, failingInTurn]
  | cons a rest ih =>
    cases ha : rsh.RsChecker.CheckRedisConfig meta.Obj a meta.Auth w with
    | none =>
      have hrest := ih w fun done ip r hl => by
        have := hok (a :: done) ip r (by simp [hl])
        simpa [worldInTurn, redisConfigCheck, ha] using this
      simp only [setRedisConfigLoop, ha, worldInTurn, failingInTurn, redisConfigCheck,
        Outcome.calls_after, Outcome.after_err, Outcome.after_world]
      simp only [redisConfigCheck] at hrest
      refine ⟨hrest.1, hrest.2.1, ?_, ?_⟩
      · simpa [Call.configuredRedis] using hrest.2.2.1
      · simpa [Call.configChecked] using hrest.2.2.2
    | some e =>
      have hheal := hok [] a rest rfl (by simp [worldInTurn, redisConfigCheck, ha])
      simp only [worldInTurn, redisConfigHeal] at hheal
      have hrest := ih (rsh.RsHealer.SetRedisCustomConfig a meta.Obj meta.Auth w).2
        fun done ip r hl => by
          have := hok (a :: done) ip r (by simp [hl])
          simpa [worldInTurn, redisConfigCheck, redisConfigHeal, ha] using this
      simp only [setRedisConfigLoop, ha, hheal, worldInTurn, failingInTurn, redisConfigCheck,
        redisConfigHeal, Outcome.calls_after, Outcome.after_err, Outcome.after_world]
      simp only [redisConfigCheck, redisConfigHeal] at hrest
      refine ⟨hrest.1, hrest.2.1, ?_, ?_⟩
      · simpa [Call.configuredRedis] using hrest.2.2.1
      · simpa [Call.configChecked] using hrest.2.2.2

theorem checkMonitors_counts (master : String) (l : List String) (w : W) (sip m : String) :
    (checkMonitors rsh meta master l w).calls.count (.NewSentinelMonitor sip m) =
      failedCount (.CheckSentinelMonitor sip m) (checkMonitors rsh meta master l w).trace := by
  induction l generalizing w with
  | nil => simp [checkMonitors, Outcome.calls, failedCount]
  | cons a rest ih =>
    unfold checkMonitors
    split
    · rw [Outcome.calls_after, Outcome.after_trace, failedCount_append, List.count_append,
        ih w]
      simp [failedCount]
    · dsimp only
      rename_i e he
      split
      · rename_i e1 h1
        by_cases ha : a = sip ∧ master = m
        · obtain ⟨rfl, rfl⟩ := ha
          simp [Outcome.calls, failedCount, h1, List.count_cons]
        · have h2 : ¬ (sip = a ∧ m = master) := fun h => ha ⟨h.1.symm, h.2.symm⟩
          simp [Outcome.calls, failedCount, h1, List.count_cons, ha, h2]
      · rename_i h1
        rw [Outcome.calls_after, Outcome.after_trace, failedCount_append, List.count_append,
          ih (rsh.RsHealer.NewSentinelMonitor a master meta.Obj meta.Auth w).2]
        by_cases ha : a = sip ∧ master = m
        · obtain ⟨rfl, rfl⟩ := ha
          simp [failedCount, List.count_cons]
        · have h2 : ¬ (sip = a ∧ m = master) := fun h => ha ⟨h.1.symm, h.2.symm⟩
          simp [failedCount, List.count_cons, ha, h2]

theorem checkMonitors_in_turn (master : String) (l : List String) (w : W)
    (hok : ∀ done sip rest, l = done ++ sip :: rest →
      monitorCheck rsh meta master sip
        (worldInTurn (monitorCheck rsh meta master) (monitorHeal rsh meta master) done w)
          ≠ none →
      (monitorHeal rsh meta master sip
        (worldInTurn (monitorCheck rsh meta master) (monitorHeal rsh meta master) done w)).1
          = none) :
    (checkMonitors rsh meta master l w).err = none ∧
    (checkMonitors rsh meta master l w).world =
      worldInTurn (monitorCheck rsh meta master) (monitorHeal rsh meta master) l w ∧
    (checkMonitors rsh meta master l w).calls.filterMap Call.monitorSet =
      failingInTurn (monitorCheck rsh meta master) (monitorHeal rsh meta master) l w ∧
    (checkMonitors rsh meta master l w).calls.filterMap Call.monitorChecked = l := by
  induction l generalizing w with
  | nil => simp [checkMonitors, Outcome.calls, worldInTurn, failingInTurn]
  | cons a rest ih =>
    cases ha : rsh.RsChecker.CheckSentinelMonitor a master meta.Auth w with
    | none =>
      have hrest := ih w fun done sip r hl => by
        have := hok (a :: done) sip r (by simp [hl])
        simpa [worldInTurn, monitorCheck, ha] using this
      simp only [checkMonitors, ha, worldInTurn, failingInTurn, monitorCheck,
        Outcome.calls_after, Outcome.after_err, Outcome.after_world]
      simp only [monitorCheck] at hrest
      refine ⟨hrest.1, hrest.2.1, ?_, ?_⟩
      · simpa [Call.monitorSet] using hrest.2.2.1
      · simpa [Call.monitorChecked] using hrest.2.2.2
    | some e =>
      have hheal := hok [] a rest rfl (by simp [worldInTurn, monitorCheck, ha])
      simp only [worldInTurn, monitorHeal] at hheal
      have hrest := ih (rsh.RsHealer.NewSentinelMonitor a master meta.Obj meta.Auth w).2
        fun done sip r hl => by
          have := hok (a :: done) sip r (by simp [hl])
          simpa [worldInTurn, monitorCheck, monitorHeal, ha] using this
      simp only [checkMonitors, ha, hheal, worldInTurn, failingInTurn, monitorCheck,
        monitorHeal, Outcome.calls_after, Outcome.after_err, Outcome.after_world]
      simp only [monitorCheck, monitorHeal] at hrest
      refine ⟨hrest.1, hrest.2.1, ?_, ?_⟩
      · simpa [Call.monitorSet] using hrest.2.2.1
      · simpa [Call.monitorChecked] using hrest.2.2.2

end InTurn

section Pairing
variable {W : Type} (rsh : RedisSentinelHandler W) (meta : Meta)

theorem Outcome.Paired.of_absent {c h : Call} {o : Outcome W} {P : Call → Bool}
    (hcalls : o.Calls P) (hc : P c = false) (hh : P h = false) : o.Paired c h := by
  have h1 : o.calls.count h = 0 := by
    refine List.count_eq_zero.mpr fun hmem => ?_
    simp only [Outcome.calls, List.mem_map] at hmem
    obtain ⟨x, hx, rfl⟩ := hmem
    rw [hcalls x hx] at hh
    exact Bool.noConfusion hh
  have h2 : failedCount c o.trace = 0 := by
    simp only [failedCount, List.length_eq_zero, List.filter_eq_nil_iff]
    intro x hx
    have := hcalls x hx
    simp only [decide_eq_true_eq, not_and]
    intro hxc
    rw [hxc, hc] at this
    exact Bool.noConfusion this
  rw [Outcome.Paired, h1, h2]

theorem Outcome.Paired.after_paired {c h : Call} {o : Outcome W} {pre : List Entry}
    (hpre : (pre.map fun x => x.call).count h = failedCount c pre) (ho : o.Paired c h) :
    (o.after pre).Paired c h := by
  unfold Outcome.Paired at *
  rw [Outcome.calls_after, Outcome.after_trace, failedCount_append, List.count_append, hpre,
    ho]

theorem Outcome.Paired.andThen_paired {c h : Call} {o : Outcome W} {k : W → Outcome W}
    (ho : o.Paired c h) (hk : ∀ w, (k w).Paired c h) : (o.andThen k).Paired c h := by
  cases he : o.err with
  | some e => rw [Outcome.andThen_of_err k he]; exact ho
  | none =>
    rw [Outcome.andThen_of_ok k he]
    exact Outcome.Paired.after_paired ho (hk _)

theorem healSentinels_monitor_paired (master : String) (l : List String) (w : W)
    (sip m : String) :
    (healSentinels rsh meta master l w).Paired (.CheckSentinelMonitor sip m)
      (.NewSentinelMonitor sip m) := by
  unfold healSentinels
  refine Outcome.Paired.andThen_paired (checkMonitors_counts rsh meta master l w sip m)
    fun w1 => ?_
  refine Outcome.Paired.andThen_paired
    (Outcome.Paired.of_absent (restoreSlaves_calls rsh meta l w1) rfl rfl) fun w2 => ?_
  refine Outcome.Paired.andThen_paired
    (Outcome.Paired.of_absent (restorePeers_calls rsh meta l w2) rfl rfl) fun w3 => ?_
  exact Outcome.Paired.of_absent (setSentinelConfig_calls rsh meta l w3) rfl rfl

theorem healTopology_monitor_paired (w : W) (sip m : String) :
    (healTopology rsh meta w).Paired (.CheckSentinelMonitor sip m)
      (.NewSentinelMonitor sip m) := by
  unfold healTopology
  split
  · simp [Outcome.Paired, Outcome.calls, failedCount]
  · rename_i master _
    refine Outcome.Paired.after_paired (by simp [failedCount]) ?_
    refine Outcome.Paired.andThen_paired
      (Outcome.Paired.of_absent (rewireSlaves_calls rsh meta master w) rfl rfl) fun w1 => ?_
    refine Outcome.Paired.andThen_paired
      (Outcome.Paired.of_absent (setRedisConfig_calls rsh meta w1) rfl rfl) fun w2 => ?_
    split
    · simp [Outcome.Paired, Outcome.calls, failedCount]
    · exact Outcome.Paired.after_paired (by simp [failedCount])
        (healSentinels_monitor_paired rsh meta master _ w2 sip m)

theorem CheckAndHeal_monitor_paired (w : W) (sip m : String) :
    (CheckAndHeal rsh meta w).Paired (.CheckSentinelMonitor sip m)
      (.NewSentinelMonitor sip m) := by
  unfold CheckAndHeal
  split
  · simp [Outcome.Paired, Outcome.calls, failedCount]
  · split
    · simp [Outcome.Paired, Outcome.calls, failedCount]
    · refine Outcome.Paired.after_paired (by simp [failedCount]) ?_
      split
      · simp [Outcome.Paired, Outcome.calls, failedCount]
      · refine Outcome.Paired.after_paired (by simp [failedCount]) ?_
        exact Outcome.Paired.andThen_paired
          (Outcome.Paired.of_absent (electMaster_calls rsh meta _ w) rfl rfl)
          (healTopology_monitor_paired rsh meta · sip m)

end Pairing

section Pairing
variable {W : Type} (rsh : RedisSentinelHandler W) (meta : Meta)

theorem checkMonitors_master (master : String) (l : List String) (w : W) :
    ∀ x ∈ (checkMonitors rsh meta master l w).trace, x.call.masterArg = some master := by
  induction l generalizing w with
  | nil => intro x hx; simp [checkMonitors] at hx
  | cons sip rest ih =>
    unfold checkMonitors
    split
    · intro x hx
      simp only [Outcome.after_trace, List.singleton_append, List.mem_cons] at hx
      rcases hx with rfl | hx
      · rfl
      · exact ih w x hx
    · dsimp only
      split
      · intro x hx; simp at hx; rcases hx with rfl | rfl <;> rfl
      · intro x hx
        simp only [Outcome.after_trace, List.cons_append, List.nil_append,
          List.mem_cons] at hx
        rcases hx with rfl | rfl | hx
        · rfl
        · rfl
        · exact ih _ x hx

end Pairing

/-- C13: for the list `l` of Redis addresses that `GetRedisesIPs` returns, and provided no
`SetRedisCustomConfig` call returns an error, `setRedisConfig` checks every address of `l`
once, in list order, and calls `SetRedisCustomConfig` on exactly the addresses whose
`CheckRedisConfig` fails in the world of their turn, in list order: once for each failed
check and never for a passed one. -/
theorem setRedisConfig_configures_failing {W : Type} (rsh : RedisSentinelHandler W)
    (meta : Meta) (w : W) (l : List String)
    (hips : rsh.RsChecker.GetRedisesIPs meta.Obj meta.Auth w = .ok l)
    (hok : ∀ done ip rest, l = done ++ ip :: rest →
      redisConfigCheck rsh meta ip
        (worldInTurn (redisConfigCheck rsh meta) (redisConfigHeal rsh meta) done w) ≠ none →
      (redisConfigHeal rsh meta ip
        (worldInTurn (redisConfigCheck rsh meta) (redisConfigHeal rsh meta) done w)).1
          = none) :
    (setRedisConfig rsh meta w).err = none ∧
    (setRedisConfig rsh meta w).world =
      worldInTurn (redisConfigCheck rsh meta) (redisConfigHeal rsh meta) l w ∧
    (setRedisConfig rsh meta w).calls.filterMap Call.configuredRedis =
      failingInTurn (redisConfigCheck rsh meta) (redisConfigHeal rsh meta) l w ∧
    (setRedisConfig rsh meta w).calls.filterMap Call.configChecked = l ∧
    (∀ ip, (setRedisConfig rsh meta w).calls.count (.SetRedisCustomConfig ip) =
      failedCount (.CheckRedisConfig ip) (setRedisConfig rsh meta w).trace) := by
  have hloop := setRedisConfigLoop_in_turn rsh meta l w hok
  simp only [setRedisConfig, hips, Outcome.after_err, Outcome.after_world,
    Outcome.calls_after, Outcome.after_trace]
  refine ⟨hloop.1, hloop.2.1, ?_, ?_, ?_⟩
  · simpa [Call.configuredRedis] using hloop.2.2.1
  · simpa [Call.configChecked] using hloop.2.2.2
  · intro ip
    rw [failedCount_append, List.count_append, setRedisConfigLoop_counts rsh meta l w ip]
    simp [failedCount]

/-- Witness for C13: of the three Redis nodes of the example only the second, whose
configuration has drifted, is configured. -/
theorem setRedisConfig_configures_failing_witness :
    (setRedisConfig driftedConfigHandler (demoMeta .Check) 0).err = none ∧
    (setRedisConfig driftedConfigHandler (demoMeta .Check) 0).world = 0 ∧
    (setRedisConfig driftedConfigHandler (demoMeta .Check) 0).calls.filterMap
      Call.configuredRedis = ["10.0.0.2"] ∧
    (setRedisConfig driftedConfigHandler (demoMeta .Check) 0).calls.filterMap
      Call.configChecked = ["10.0.0.1", "10.0.0.2", "10.0.0.3"] ∧
    (setRedisConfig driftedConfigHandler (demoMeta .Check) 0).calls.count
      (.SetRedisCustomConfig "10.0.0.2") = 1 :=
  have h := setRedisConfig_configures_failing driftedConfigHandler (demoMeta .Check) 0
    ["10.0.0.1", "10.0.0.2", "10.0.0.3"] rfl (fun _ _ _ _ _ => rfl)
  ⟨h.1, h.2.1.trans (by decide), h.2.2.1.trans (by decide), h.2.2.2.1,
    (h.2.2.2.2 "10.0.0.2").trans (by decide)⟩

/-- C14: in every pass `NewSentinelMonitor s m` is called as many times as
`CheckSentinelMonitor s m` failed, so once for a failed check and never for a passed one.
In the monitor loop over the sentinels `l` for the master `master`, provided no
`NewSentinelMonitor` call returns an error, every sentinel of `l` is checked once, in list
order, and `NewSentinelMonitor` is called on exactly the sentinels whose check fails in
the world of their turn. -/
theorem checkMonitors_monitors_failing {W : Type} (rsh : RedisSentinelHandler W)
    (meta : Meta) :
    (∀ (w : W) (sip m : String),
      (CheckAndHeal rsh meta w).calls.count (.NewSentinelMonitor sip m) =
        failedCount (.CheckSentinelMonitor sip m) (CheckAndHeal rsh meta w).trace) ∧
    (∀ (master : String) (l : List String) (w : W),
      (∀ done sip rest, l = done ++ sip :: rest →
        monitorCheck rsh meta master sip
          (worldInTurn (monitorCheck rsh meta master) (monitorHeal rsh meta master) done w)
            ≠ none →
        (monitorHeal rsh meta master sip
          (worldInTurn (monitorCheck rsh meta master) (monitorHeal rsh meta master) done w)).1
            = none) →
      (checkMonitors rsh meta master l w).err = none ∧
      (checkMonitors rsh meta master l w).world =
        worldInTurn (monitorCheck rsh meta master) (monitorHeal rsh meta master) l w ∧
      (checkMonitors rsh meta master l w).calls.filterMap Call.monitorSet =
        failingInTurn (monitorCheck rsh meta master) (monitorHeal rsh meta master) l w ∧
      (checkMonitors rsh meta master l w).calls.filterMap Call.monitorChecked = l ∧
      ∀ c ∈ (checkMonitors rsh meta master l w).calls, c.masterArg = some master) :=
  ⟨fun w sip m => CheckAndHeal_monitor_paired rsh meta w sip m,
    fun master l w hok =>
      have h := checkMonitors_in_turn rsh meta master l w hok
      ⟨h.1, h.2.1, h.2.2.1, h.2.2.2, by
        intro c hc
        simp only [Outcome.calls, List.mem_map] at hc
        obtain ⟨x, hx, rfl⟩ := hc
        exact checkMonitors_master rsh meta master l w x hx⟩⟩

/-- Witness for C14: of the three sentinels of the example only the third, which monitors
another address, is given a new monitor, and the whole pass pairs that call with the one
failed check. -/
theorem checkMonitors_monitors_failing_witness :
    (CheckAndHeal strayMonitorHandler (demoMeta .Check) 0).calls.count
      (.NewSentinelMonitor "10.0.1.3" "10.0.0.1") = 1 ∧
    (CheckAndHeal strayMonitorHandler (demoMeta .Check) 0).calls.count
      (.NewSentinelMonitor "10.0.1.1" "10.0.0.1") = 0 ∧
    (checkMonitors strayMonitorHandler (demoMeta .Check) "10.0.0.1"
      ["10.0.1.1", "10.0.1.2", "10.0.1.3"] 0).calls.filterMap Call.monitorSet
        = ["10.0.1.3"] ∧
    (checkMonitors strayMonitorHandler (demoMeta .Check) "10.0.0.1"
      ["10.0.1.1", "10.0.1.2", "10.0.1.3"] 0).calls.filterMap Call.monitorChecked
        = ["10.0.1.1", "10.0.1.2", "10.0.1.3"] :=
  have h := checkMonitors_monitors_failing strayMonitorHandler (demoMeta .Check)
  have hloop := h.2 "10.0.0.1" ["10.0.1.1", "10.0.1.2", "10.0.1.3"] 0 (fun _ _ _ _ _ => rfl)
  ⟨(h.1 0 "10.0.1.3" "10.0.0.1").trans (by decide),
    (h.1 0 "10.0.1.1" "10.0.0.1").trans (by decide),
    hloop.2.2.1.trans (by decide), hloop.2.2.2.1⟩

/-! ## The resolved master -/

section Master
variable {W : Type} (rsh : RedisSentinelHandler W) (meta : Meta)

theorem healSentinels_afterRewire (master : String) (l : List String) (w : W) :
    (healSentinels rsh meta master l w).Calls (Call.afterRewire master) := by
  unfold healSentinels
  refine Outcome.Calls.andThen_calls ?_ fun w1 => ?_
  · intro x hx
    have h1 := checkMonitors_calls rsh meta master l w x hx
    have h2 := checkMonitors_master rsh meta master l w x hx
    cases hc : x.call <;> simp_all [Call.ofCheckMonitors, Call.afterRewire, Call.masterArg]
  refine Outcome.Calls.andThen_calls ((restoreSlaves_calls rsh meta l w1).mono
    (by intro c hc; cases c <;> simp_all [Call.ofRestoreSlaves, Call.afterRewire]))
    fun w2 => ?_
  refine Outcome.Calls.andThen_calls ((restorePeers_calls rsh meta l w2).mono
    (by intro c hc; cases c <;> simp_all [Call.ofRestorePeers, Call.afterRewire]))
    fun w3 => ?_
  exact (setSentinelConfig_calls rsh meta l w3).mono
    (by intro c hc; cases c <;> simp_all [Call.ofSetSentinelConfig, Call.afterRewire])

theorem rewireSlaves_then (m : String) (w : W) (k : W → Outcome W)
    (hk : ∀ v, (k v).Calls (Call.afterRewire m)) :
    ∃ rest : List Call,
      ((rewireSlaves rsh meta m w).andThen k).calls =
        [.CheckAllSlavesFromMaster m] ++
          (if rsh.RsChecker.CheckAllSlavesFromMaster m meta.Obj meta.Auth w = none then []
            else [.SetMasterOnAll m]) ++ rest ∧
      ∀ c ∈ rest, c.afterRewire m = true := by
  have hcalls : ∀ v, ∀ c ∈ (k v).calls, c.afterRewire m = true := by
    intro v c hc
    simp only [Outcome.calls, List.mem_map] at hc
    obtain ⟨x, hx, rfl⟩ := hc
    exact hk v x hx
  cases hchk : rsh.RsChecker.CheckAllSlavesFromMaster m meta.Obj meta.Auth w with
  | none =>
    refine ⟨(k w).calls, ?_, hcalls w⟩
    simp [rewireSlaves, hchk, Outcome.andThen, Outcome.calls]
  | some e =>
    cases hr : (rsh.RsHealer.SetMasterOnAll m meta.Obj meta.Auth w).1 with
    | some e1 =>
      refine ⟨[], ?_, by simp⟩
      simp [rewireSlaves, hchk, hr, Outcome.andThen, Outcome.calls]
    | none =>
      refine ⟨(k (rsh.RsHealer.SetMasterOnAll m meta.Obj meta.Auth w).2).calls, ?_,
        hcalls _⟩
      simp [rewireSlaves, hchk, hr, Outcome.andThen, Outcome.calls]

theorem healTopology_master (m : String) (w : W)
    (hmaster : rsh.RsChecker.GetMasterIP meta.Obj meta.Auth w = .ok m) :
    ∃ rest : List Call,
      (healTopology rsh meta w).calls =
        [.GetMasterIP, .CheckAllSlavesFromMaster m] ++
          (if rsh.RsChecker.CheckAllSlavesFromMaster m meta.Obj meta.Auth w = none then []
            else [.SetMasterOnAll m]) ++ rest ∧
      ∀ c ∈ rest, c.afterRewire m = true := by
  unfold healTopology
  split
  · rename_i e he
    rw [hmaster] at he
    exact Except.noConfusion he
  · rename_i master he
    rw [hmaster] at he
    obtain rfl : m = master := Except.ok.inj he
    obtain ⟨rest, hcalls, hrest⟩ := rewireSlaves_then rsh meta m w
      (fun w1 => (setRedisConfig rsh meta w1).andThen fun w2 =>
        match rsh.RsChecker.GetSentinelsIPs meta.Obj w2 with
        | .error e => ⟨some e, w2, [⟨.GetSentinelsIPs, some e⟩]⟩
        | .ok sentinels =>
          (healSentinels rsh meta m sentinels w2).after [⟨.GetSentinelsIPs, none⟩])
      (by
        intro w1
        refine Outcome.Calls.andThen_calls ((setRedisConfig_calls rsh meta w1).mono
          (by intro c hc; cases c <;> simp_all [Call.ofSetRedisConfig, Call.afterRewire]))
          fun w2 => ?_
        split
        · intro x hx; simp at hx; subst hx; rfl
        · exact Outcome.Calls.after_calls (by simp [Call.afterRewire])
            (healSentinels_afterRewire rsh meta m _ w2))
    refine ⟨rest, ?_, hrest⟩
    rw [Outcome.calls_after]
    simp only [List.map_cons, List.map_nil]
    erw [hcalls]
    simp

end Master

/-- C12: a pass that gets past the master-count switch in world `w1` and resolves the
master address `m` there with `GetMasterIP` calls `CheckAllSlavesFromMaster m` next, then
`SetMasterOnAll m` exactly when that check fails, and from then on gives a master address
only to `CheckSentinelMonitor` and `NewSentinelMonitor`, always `m`.  So `SetMasterOnAll`
is called once if the check fails and never if it passes, and every master address of the
pass is `m`. -/
theorem CheckAndHeal_resolves_master {W : Type} (rsh : RedisSentinelHandler W)
    (meta : Meta) (w : W) (n : Int) (m : String)
    (hredis : rsh.RsChecker.CheckRedisNumber meta.Obj w = none)
    (hsentinel : rsh.RsChecker.CheckSentinelNumber meta.Obj w = none)
    (hmasters : rsh.RsChecker.GetNumberMasters meta.Obj meta.Auth w = .ok n)
    (helect : (electMaster rsh meta n w).err = none)
    (hmaster : rsh.RsChecker.GetMasterIP meta.Obj meta.Auth (electMaster rsh meta n w).world
      = .ok m) :
    (∃ rest : List Call,
      (CheckAndHeal rsh meta w).calls =
        [.CheckRedisNumber, .CheckSentinelNumber, .GetNumberMasters] ++
          (electMaster rsh meta n w).calls ++
          [.GetMasterIP, .CheckAllSlavesFromMaster m] ++
          (if rsh.RsChecker.CheckAllSlavesFromMaster m meta.Obj meta.Auth
              (electMaster rsh meta n w).world = none then []
            else [.SetMasterOnAll m]) ++ rest ∧
      ∀ c ∈ rest, c.afterRewire m = true) ∧
    (CheckAndHeal rsh meta w).calls.count (.SetMasterOnAll m) =
      (if rsh.RsChecker.CheckAllSlavesFromMaster m meta.Obj meta.Auth
        (electMaster rsh meta n w).world = none then 0 else 1) ∧
    (∀ c ∈ (CheckAndHeal rsh meta w).calls, c.masterArg = none ∨ c.masterArg = some m) := by
  obtain ⟨rest, htopo, hrest⟩ :=
    healTopology_master rsh meta m (electMaster rsh meta n w).world hmaster
  have hcalls : (CheckAndHeal rsh meta w).calls =
      [.CheckRedisNumber, .CheckSentinelNumber, .GetNumberMasters] ++
        (electMaster rsh meta n w).calls ++
        [.GetMasterIP, .CheckAllSlavesFromMaster m] ++
        (if rsh.RsChecker.CheckAllSlavesFromMaster m meta.Obj meta.Auth
            (electMaster rsh meta n w).world = none then []
          else [.SetMasterOnAll m]) ++ rest := by
    rw [CheckAndHeal_of_masters rsh meta hredis hsentinel hmasters,
      Outcome.andThen_of_ok _ helect, Outcome.calls_after, Outcome.calls_after, htopo]
    simp [Outcome.calls]
  have helectCalls : ∀ c ∈ (electMaster rsh meta n w).calls, c.masterArg = none := by
    intro c hc
    simp only [Outcome.calls, List.mem_map] at hc
    obtain ⟨x, hx, rfl⟩ := hc
    have := electMaster_calls rsh meta n w x hx
    cases hxc : x.call <;> simp_all [Call.ofElectMaster, Call.masterArg]
  have hrestArg : ∀ c ∈ rest, (c.masterArg = none ∨ c.masterArg = some m) ∧
      c ≠ .SetMasterOnAll m := by
    intro c hc
    have := hrest c hc
    cases c <;> simp_all [Call.afterRewire, Call.masterArg]
  refine ⟨⟨rest, hcalls, hrest⟩, ?_, ?_⟩
  · rw [hcalls]
    have h1 : (electMaster rsh meta n w).calls.count (.SetMasterOnAll m) = 0 :=
      List.count_eq_zero.mpr fun h => by simpa [Call.masterArg] using helectCalls _ h
    have h2 : rest.count (.SetMasterOnAll m) = 0 :=
      List.count_eq_zero.mpr fun h => (hrestArg _ h).2 rfl
    simp only [List.count_append, h1, h2]
    split <;> simp [List.count_cons]
  · intro c hc
    rw [hcalls] at hc
    simp only [List.mem_append] at hc
    rcases hc with (((hc | hc) | hc) | hc) | hc
    · simp at hc; rcases hc with rfl | rfl | rfl <;> exact Or.inl rfl
    · exact Or.inl (helectCalls c hc)
    · simp at hc; rcases hc with rfl | rfl
      · exact Or.inl rfl
      · exact Or.inr rfl
    · split at hc
      · simp at hc
      · simp at hc; subst hc; exact Or.inr rfl
    · exact (hrestArg c hc).1

/-- Witness for C12: in the example cluster with a strayed slave the pass rewires the
slaves to the resolved master once. -/
theorem CheckAndHeal_resolves_master_witness :
    (CheckAndHeal strayedSlaveHandler (demoMeta .Check) 0).calls.count
      (.SetMasterOnAll "10.0.0.1") = 1 ∧
    (∀ c ∈ (CheckAndHeal strayedSlaveHandler (demoMeta .Check) 0).calls,
      c.masterArg = none ∨ c.masterArg = some "10.0.0.1") :=
  have h := CheckAndHeal_resolves_master strayedSlaveHandler (demoMeta .Check) 0 1 "10.0.0.1"
    rfl rfl rfl rfl rfl
  ⟨h.2.1.trans (by decide), h.2.2⟩

/-! ## The condition list of the status -/

section Conditions

theorem getClusterConditionFrom_none {t : ConditionType} {i : Nat} {l : List Condition} :
    getClusterConditionFrom t i l = none ↔ ∀ x ∈ l, x.type ≠ t := by
  induction l generalizing i with
  | nil => simp [getClusterConditionFrom]
  | cons c rest ih =>
    by_cases h : t = c.type
    · simp [getClusterConditionFrom, h]
    · have h2 : ¬ c.type = t := fun h3 => h h3.symm
      simp [getClusterConditionFrom, h, h2, ih]

theorem getClusterConditionFrom_some {t : ConditionType} {i pos : Nat} {l : List Condition}
    {cp : Condition} (h : getClusterConditionFrom t i l = some (pos, cp)) :
    ∃ pre post, l = pre ++ cp :: post ∧ pos = i + pre.length ∧ cp.type = t ∧
      ∀ x ∈ pre, x.type ≠ t := by
  induction l generalizing i with
  | nil => simp [getClusterConditionFrom] at h
  | cons c rest ih =>
    by_cases hc : t = c.type
    · simp only [getClusterConditionFrom, hc, if_true, Option.some.injEq, Prod.mk.injEq] at h
      obtain ⟨rfl, rfl⟩ := h
      exact ⟨[], rest, rfl, rfl, hc.symm, by simp⟩
    · simp only [getClusterConditionFrom, hc, if_false] at h
      obtain ⟨pre, post, hl, hpos, htype, hpre⟩ := ih h
      refine ⟨c :: pre, post, by simp [hl], by simp [hpos]; omega, htype, ?_⟩
      intro x hx
      rcases List.mem_cons.mp hx with rfl | hx
      · exact fun h3 => hc h3.symm
      · exact hpre x hx

/-- What `getClusterCondition` finds: nothing when no condition has the type, and
otherwise the first condition of the type together with its index. -/
theorem getClusterCondition_cases (rss : RedisSentinelStatus) (t : ConditionType) :
    (getClusterCondition rss t = none ∧ ∀ x ∈ rss.Conditions, x.type ≠ t) ∨
    ∃ pre cp post, getClusterCondition rss t = some (pre.length, cp) ∧
      rss.Conditions = pre ++ cp :: post ∧ cp.type = t ∧ ∀ x ∈ pre, x.type ≠ t := by
  cases h : getClusterCondition rss t with
  | none => exact Or.inl ⟨rfl, getClusterConditionFrom_none.mp h⟩
  | some r =>
    obtain ⟨pos, cp⟩ := r
    obtain ⟨pre, post, hl, hpos, htype, hpre⟩ := getClusterConditionFrom_some h
    refine Or.inr ⟨pre, cp, post, ?_, hl, htype, hpre⟩
    simp [hpos]

/-- The three outcomes of `setClusterCondition`. -/
theorem setClusterCondition_cases (rss : RedisSentinelStatus) (now : Nat) (c : Condition) :
    ((∀ x ∈ rss.Conditions, x.type ≠ c.type) ∧
      (rss.setClusterCondition now c).Conditions = rss.Conditions ++ [c]) ∨
    ∃ pre cp post, rss.Conditions = pre ++ cp :: post ∧ cp.type = c.type ∧
      (∀ x ∈ pre, x.type ≠ c.type) ∧
      (((cp.Status = c.Status ∧ cp.Reason = c.Reason ∧ cp.Message = c.Message) ∧
          (rss.setClusterCondition now c).Conditions =
            pre ++ { cp with LastUpdateAt := now, LastUpdateTime := formatRFC3339 now } ::
              post) ∨
        (¬ (cp.Status = c.Status ∧ cp.Reason = c.Reason ∧ cp.Message = c.Message) ∧
          (rss.setClusterCondition now c).Conditions = pre ++ c :: post)) := by
  rcases getClusterCondition_cases rss c.type with ⟨hnone, hall⟩ | ⟨pre, cp, post, hsome, hl,
    htype, hpre⟩
  · exact Or.inl ⟨hall, by simp [RedisSentinelStatus.setClusterCondition, hnone]⟩
  · refine Or.inr ⟨pre, cp, post, hl, htype, hpre, ?_⟩
    by_cases hsame : cp.Status = c.Status ∧ cp.Reason = c.Reason ∧ cp.Message = c.Message
    · exact Or.inl ⟨hsame, by simp [RedisSentinelStatus.setClusterCondition, hsome, hsame, hl]⟩
    · exact Or.inr ⟨hsame, by simp [RedisSentinelStatus.setClusterCondition, hsome, hsame, hl]⟩

theorem setClusterCondition_nodup (rss : RedisSentinelStatus) (now : Nat) (c : Condition)
    (h : rss.types.Nodup) : (rss.setClusterCondition now c).types.Nodup := by
  unfold RedisSentinelStatus.types at *
  rcases setClusterCondition_cases rss now c with ⟨hall, hres⟩ | ⟨pre, cp, post, hl, htype,
    -, ⟨-, hres⟩ | ⟨-, hres⟩⟩
  · rw [hres, List.map_append]
    refine List.Nodup.append h (by simp) ?_
    intro t ht hc
    simp only [List.map_cons, List.map_nil, List.mem_singleton] at hc
    obtain ⟨x, hx, rfl⟩ := List.mem_map.mp ht
    exact hall x hx hc
  · rw [hres]; rw [hl] at h; simpa using h
  · rw [hres]; rw [hl] at h; simpa [htype] using h

theorem ClearCondition_nodup (rss : RedisSentinelStatus) (t : ConditionType)
    (h : rss.types.Nodup) : (rss.ClearCondition t).types.Nodup := by
  unfold RedisSentinelStatus.types at *
  rcases getClusterCondition_cases rss t with ⟨hnone, -⟩ | ⟨pre, cp, post, hsome, hl, -, -⟩
  · simpa [RedisSentinelStatus.ClearCondition, hnone] using h
  · rw [hl] at h
    have hres : (rss.ClearCondition t).Conditions = pre ++ post := by
      simp [RedisSentinelStatus.ClearCondition, hsome, hl]
    rw [hres]
    simp only [List.map_append, List.map_cons] at h ⊢
    exact (List.nodup_append.mp h).1.append (List.nodup_cons.mp (List.nodup_append.mp h).2.1).2
      (fun x hx hy => (List.nodup_append.mp h).2.2 hx (List.mem_cons_of_mem _ hy))

theorem StatusCall.run_nodup (op : StatusCall) (rss : RedisSentinelStatus)
    (h : rss.types.Nodup) : (op.run rss).types.Nodup := by
  cases op with
  | ClearCondition t => exact ClearCondition_nodup rss t h
  | _ => exact setClusterCondition_nodup rss _ _ h

end Conditions

/-- C15: if a status holds at most one condition of each type, it still does after any of
`SetCreateCondition`, `SetScalingUpCondition`, `SetScalingDownCondition`,
`SetUpgradingCondition`, `SetUpdatingCondition`, `SetReadyCondition`, `SetFailedCondition`
and `ClearCondition`, whatever the clock reads; and every status reached from the empty
one by a sequence of these calls holds at most one condition of each type. -/
theorem status_one_condition_per_type :
    (∀ (rss : RedisSentinelStatus) (now : Nat) (message : String) (t : ConditionType),
      rss.types.Nodup →
      (rss.SetCreateCondition now message).types.Nodup ∧
      (rss.SetScalingUpCondition now message).types.Nodup ∧
      (rss.SetScalingDownCondition now message).types.Nodup ∧
      (rss.SetUpgradingCondition now message).types.Nodup ∧
      (rss.SetUpdatingCondition now message).types.Nodup ∧
      (rss.SetReadyCondition now message).types.Nodup ∧
      (rss.SetFailedCondition now message).types.Nodup ∧
      (rss.ClearCondition t).types.Nodup) ∧
    (∀ ops : List StatusCall,
      (ops.foldl (fun rss op => op.run rss) emptyStatus).types.Nodup) := by
  refine ⟨fun rss now message t h =>
    ⟨setClusterCondition_nodup rss _ _ h, setClusterCondition_nodup rss _ _ h,
      setClusterCondition_nodup rss _ _ h, setClusterCondition_nodup rss _ _ h,
      setClusterCondition_nodup rss _ _ h, setClusterCondition_nodup rss _ _ h,
      setClusterCondition_nodup rss _ _ h, ClearCondition_nodup rss t h⟩, ?_⟩
  intro ops
  have key : ∀ (l : List StatusCall) (rss : RedisSentinelStatus), rss.types.Nodup →
      (l.foldl (fun rss op => op.run rss) rss).types.Nodup := by
    intro l
    induction l with
    | nil => exact fun rss h => h
    | cons op rest ih => exact fun rss h => ih _ (op.run_nodup rss h)
  exact key ops emptyStatus (by simp [emptyStatus, RedisSentinelStatus.types])

theorem getElem?_append_cons_length {α : Type} (pre post : List α) (c : α) :
    (pre ++ c :: post)[pre.length]? = some c := by
  rw [List.getElem?_append_right (Nat.le_refl _)]
  simp

/-- Witness for C15: a `SetReadyCondition` and a `ClearCondition` on the example status,
and a sequence of calls from the empty status that sets the same type twice. -/
theorem status_one_condition_per_type_witness :
    (failedStatus.SetReadyCondition (12 * Second) "Cluster ok").types
      = ["Failed", "Healthy"] ∧
    (failedStatus.SetReadyCondition (12 * Second) "Cluster ok").types.Nodup ∧
    (failedStatus.ClearCondition "Failed").types.Nodup ∧
    ([StatusCall.SetCreateCondition 1 "a", .SetScalingUpCondition 2 "b",
      .SetScalingDownCondition 3 "c", .SetReadyCondition 4 "d"].foldl
        (fun rss op => op.run rss) emptyStatus).types.Nodup :=
  ⟨by decide,
    (status_one_condition_per_type.1 failedStatus (12 * Second) "Cluster ok" "Failed"
      (by decide)).2.2.2.2.2.1,
    (status_one_condition_per_type.1 failedStatus (12 * Second) "Cluster ok" "Failed"
      (by decide)).2.2.2.2.2.2.2,
    status_one_condition_per_type.2 _⟩

/-- C16: when the first condition of the type of `c` in the status, `old` at index `pos`,
has the status, reason and message of `c`, `setClusterCondition` changes nothing but
`LastUpdateAt` and `LastUpdateTime` of that condition, which become the reading of the
clock: the list keeps its length, every other index keeps its condition, and the
condition at `pos` keeps its type, status, reason, message and `LastTransitionTime`. -/
theorem setClusterCondition_same_refreshes (rss : RedisSentinelStatus) (now : Nat)
    (c old : Condition) (pos : Nat)
    (hold : getClusterCondition rss c.type = some (pos, old))
    (hstatus : old.Status = c.Status) (hreason : old.Reason = c.Reason)
    (hmessage : old.Message = c.Message) :
    rss.Conditions[pos]? = some old ∧
    (rss.setClusterCondition now c).Conditions.length = rss.Conditions.length ∧
    (∀ i, i ≠ pos → (rss.setClusterCondition now c).Conditions[i]? = rss.Conditions[i]?) ∧
    (rss.setClusterCondition now c).Conditions[pos]? =
      some { old with LastUpdateAt := now, LastUpdateTime := formatRFC3339 now } ∧
    (∀ new, (rss.setClusterCondition now c).Conditions[pos]? = some new →
      new.type = old.type ∧ new.Status = old.Status ∧ new.Reason = old.Reason ∧
      new.Message = old.Message ∧ new.LastTransitionTime = old.LastTransitionTime ∧
      new.LastUpdateAt = now ∧ new.LastUpdateTime = formatRFC3339 now) ∧
    (rss.setClusterCondition now c).MasterIP = rss.MasterIP ∧
    (rss.setClusterCondition now c).SentinelIP = rss.SentinelIP := by
  obtain ⟨pre, post, hl, hpos, -, -⟩ := getClusterConditionFrom_some hold
  simp only [Nat.zero_add] at hpos
  subst hpos
  have hres : rss.setClusterCondition now c =
      { rss with
        Conditions := pre ++
          { old with LastUpdateAt := now, LastUpdateTime := formatRFC3339 now } :: post } := by
    simp [RedisSentinelStatus.setClusterCondition, hold, hstatus, hreason, hmessage, hl]
  have hat : (pre ++ ({ old with LastUpdateAt := now, LastUpdateTime := formatRFC3339 now } ::
      post))[pre.length]? =
      some { old with LastUpdateAt := now, LastUpdateTime := formatRFC3339 now } :=
    getElem?_append_cons_length pre post _
  rw [hres]
  refine ⟨by rw [hl]; exact getElem?_append_cons_length pre post old, by simp [hl], ?_, hat,
    ?_, rfl, rfl⟩
  · intro i hi
    rw [hl]
    rcases Nat.lt_or_gt_of_ne hi with h | h
    · simp [List.getElem?_append_left h]
    · obtain ⟨k, rfl⟩ : ∃ k, i = pre.length + (k + 1) := ⟨i - pre.length - 1, by omega⟩
      simp [List.getElem?_append_right]
  · intro new hnew
    rw [hat] at hnew
    obtain rfl := Option.some.inj hnew
    exact ⟨rfl, rfl, rfl, rfl, rfl, rfl, rfl⟩

/-- Witness for C16: the failure of the example status reported again two seconds later. -/
theorem setClusterCondition_same_refreshes_witness :
    (failedStatus.SetFailedCondition (12 * Second) "redis unreachable").Conditions =
      [{ type := "Failed", Status := "True", LastUpdateTime := 12,
         LastUpdateAt := 12 * Second, LastTransitionTime := 10, Reason := "Cluster failed",
         Message := "redis unreachable" }] :=
  have h := setClusterCondition_same_refreshes failedStatus (12 * Second)
    (newClusterCondition (12 * Second) ClusterConditionFailed ConditionTrue "Cluster failed"
      "redis unreachable")
    (newClusterCondition (10 * Second) ClusterConditionFailed ConditionTrue "Cluster failed"
      "redis unreachable") 0 rfl rfl rfl rfl
  List.ext_getElem? fun i => by
    cases i with
    | zero => exact h.2.2.2.1.trans (by decide)
    | succ i => exact (h.2.2.1 (i + 1) (by omega)).trans rfl

/-- C17, as stated, fails on the transition time: the example status holds a failure whose
transition was stamped at second 10; a `SetFailedCondition` with another message while
the clock reads second 5 replaces the record, and the new transition time, 5, is earlier
than the old one. -/
theorem setClusterCondition_transition_may_go_back :
    ∃ old new : Condition,
      getClusterCondition failedStatus ClusterConditionFailed = some (0, old) ∧
      old.Message ≠ "sentinel unreachable" ∧
      (failedStatus.SetFailedCondition (5 * Second) "sentinel unreachable").Conditions[0]?
        = some new ∧
      new.Message = "sentinel unreachable" ∧
      new.LastTransitionTime < old.LastTransitionTime :=
  ⟨_, _, rfl, by decide, rfl, rfl, by decide⟩

/-- C17, amended: when the first condition of type `T` in the status, `old` at index
`pos`, differs in status, reason or message from the condition being set, the record is
replaced in place: the list keeps its length, every other index keeps its condition, and
the condition at `pos` is the new one, with the new status, reason and message and with
the reading of the clock at the call as its `LastTransitionTime`.  That time is not
earlier than the old transition time whenever the old one was stamped at a clock reading
that is not later than the reading at the call. -/
theorem setClusterCondition_different_replaces (rss : RedisSentinelStatus) (now : Nat)
    (T : ConditionType) (status reason message : String) (old : Condition) (pos : Nat)
    (hold : getClusterCondition rss T = some (pos, old))
    (hdiff : ¬ (old.Status = status ∧ old.Reason = reason ∧ old.Message = message)) :
    rss.Conditions[pos]? = some old ∧
    (rss.setClusterCondition now
      (newClusterCondition now T status reason message)).Conditions.length =
        rss.Conditions.length ∧
    (∀ i, i ≠ pos →
      (rss.setClusterCondition now
        (newClusterCondition now T status reason message)).Conditions[i]? =
          rss.Conditions[i]?) ∧
    (rss.setClusterCondition now
      (newClusterCondition now T status reason message)).Conditions[pos]? =
        some { type := T, Status := status, LastUpdateTime := formatRFC3339 now,
               LastUpdateAt := now, LastTransitionTime := formatRFC3339 now,
               Reason := reason, Message := message } ∧
    (∀ t0, old.LastTransitionTime = formatRFC3339 t0 → t0 ≤ now →
      old.LastTransitionTime ≤ formatRFC3339 now) ∧
    (rss.setClusterCondition now (newClusterCondition now T status reason message)).MasterIP
      = rss.MasterIP ∧
    (rss.setClusterCondition now (newClusterCondition now T status reason message)).SentinelIP
      = rss.SentinelIP := by
  obtain ⟨pre, post, hl, hpos, -, -⟩ := getClusterConditionFrom_some hold
  simp only [Nat.zero_add] at hpos
  subst hpos
  have hres : rss.setClusterCondition now (newClusterCondition now T status reason message) =
      { rss with
        Conditions := pre ++ newClusterCondition now T status reason message :: post } := by
    have hold2 : getClusterCondition rss (newClusterCondition now T status reason message).type
        = some (pre.length, old) := hold
    simp only [RedisSentinelStatus.setClusterCondition, hold2]
    have hdiff2 : ¬ (old.Status = (newClusterCondition now T status reason message).Status ∧
        old.Reason = (newClusterCondition now T status reason message).Reason ∧
        old.Message = (newClusterCondition now T status reason message).Message) := hdiff
    rw [if_neg hdiff2]
    simp [hl]
  rw [hres]
  refine ⟨by rw [hl]; exact getElem?_append_cons_length pre post old, by simp [hl], ?_,
    getElem?_append_cons_length pre post _, ?_, rfl, rfl⟩
  · intro i hi
    rw [hl]
    rcases Nat.lt_or_gt_of_ne hi with h | h
    · simp [List.getElem?_append_left h]
    · obtain ⟨k, rfl⟩ : ∃ k, i = pre.length + (k + 1) := ⟨i - pre.length - 1, by omega⟩
      simp [List.getElem?_append_right]
  · intro t0 ht0 hle
    rw [ht0]
    exact Nat.div_le_div_right hle

/-- Witness for the amended C17: the failure of the example status replaced two seconds
later by a failure with another message. -/
theorem setClusterCondition_different_replaces_witness :
    (failedStatus.SetFailedCondition (12 * Second) "sentinel unreachable").Conditions[0]? =
      some { type := "Failed", Status := "True", LastUpdateTime := 12,
             LastUpdateAt := 12 * Second, LastTransitionTime := 12,
             Reason := "Cluster failed", Message := "sentinel unreachable" } ∧
    (failedStatus.SetFailedCondition (12 * Second) "sentinel unreachable").Conditions.length
      = 1 :=
  have h := setClusterCondition_different_replaces failedStatus (12 * Second)
    ClusterConditionFailed ConditionTrue "Cluster failed" "sentinel unreachable"
    (newClusterCondition (10 * Second) ClusterConditionFailed ConditionTrue "Cluster failed"
      "redis unreachable") 0 rfl (by decide)
  ⟨h.2.2.2.1.trans rfl, h.2.1⟩

/-! ## Sorting the conditions -/

/-- C18: `DescConditionsByTime` leaves a permutation of the conditions in which every
condition was updated no earlier than each condition after it, in particular than the one
that follows it; the other fields of the status are left as they were. -/
theorem DescConditionsByTime_sorted_perm (rss : RedisSentinelStatus) :
    rss.DescConditionsByTime.Conditions.Perm rss.Conditions ∧
    rss.DescConditionsByTime.Conditions.Pairwise
      (fun a b => b.LastUpdateAt ≤ a.LastUpdateAt) ∧
    rss.DescConditionsByTime.Conditions.Chain'
      (fun a b => b.LastUpdateAt ≤ a.LastUpdateAt) ∧
    rss.DescConditionsByTime.MasterIP = rss.MasterIP ∧
    rss.DescConditionsByTime.SentinelIP = rss.SentinelIP := by
  have hsorted : rss.DescConditionsByTime.Conditions.Pairwise
      (fun a b => b.LastUpdateAt ≤ a.LastUpdateAt) := by
    have htotal : IsTotal Condition
        (fun a b => decide (b.LastUpdateAt > a.LastUpdateAt) = false) :=
      ⟨fun a b => by
        simp only [gt_iff_lt, decide_eq_false_iff_not, Nat.not_lt]
        exact Nat.le_total _ _⟩
    have htrans : IsTrans Condition
        (fun a b => decide (b.LastUpdateAt > a.LastUpdateAt) = false) :=
      ⟨fun a b c hab hbc => by
        simp only [gt_iff_lt, decide_eq_false_iff_not, Nat.not_lt] at hab hbc ⊢
        exact Nat.le_trans hbc hab⟩
    have h := List.sorted_insertionSort
      (fun a b : Condition => decide (b.LastUpdateAt > a.LastUpdateAt) = false)
      rss.Conditions
    refine List.Pairwise.imp ?_ h
    intro a b hab
    simpa using hab
  exact ⟨List.perm_insertionSort _ _, hsorted, List.Pairwise.chain' hsorted, rfl, rfl⟩

/-! ## `Do` when `CheckAndHeal` asks for a retry -/

section Retry
variable {W : Type} (rsh : ControllerHandler W)

theorem setClusterCondition_failed (rss : RedisSentinelStatus) (now : Nat) (c : Condition)
    (hc : c.type ≠ ClusterConditionFailed) :
    (rss.setClusterCondition now c).failed = rss.failed := by
  unfold RedisSentinelStatus.failed
  rcases setClusterCondition_cases rss now c with ⟨-, hres⟩ | ⟨pre, cp, post, hl, htype,
    -, ⟨-, hres⟩ | ⟨-, hres⟩⟩
  · rw [hres]; simp [hc]
  · have hcp : cp.type ≠ ClusterConditionFailed := htype ▸ hc
    rw [hres, hl]; simp [hcp]
  · have hcp : cp.type ≠ ClusterConditionFailed := htype ▸ hc
    rw [hres, hl]; simp [hc, hcp]

theorem Do_of_ensure {rc : RedisSentinel} {w : W} {p : Ensured W}
    (hensure : rsh.ensure rc w = .ok p) : rsh.Do rc w = rsh.checkAndHeal p := by
  simp [ControllerHandler.Do, hensure]

/-- What `Do` does once `CheckAndHeal` has returned an error with the retry text. -/
theorem checkAndHeal_of_retry (p : Ensured W) (e : GoError)
    (hcheck : (CheckAndHeal rsh.handler p.meta p.world).err = some e)
    (hretry : e.msg = needRequeueMsg) :
    rsh.checkAndHeal p =
      if p.meta.Obj.Status.firstIsHealthy = true then
        ⟨some e,
          { p.meta.Obj with
            Status := p.meta.Obj.Status.SetCreateCondition
              (rsh.handler.Time.Now (CheckAndHeal rsh.handler p.meta p.world).world)
              removedByUserMsg },
          rsh.UpdateCluster
            { p.meta.Obj with
              Status := p.meta.Obj.Status.SetCreateCondition
                (rsh.handler.Time.Now (CheckAndHeal rsh.handler p.meta p.world).world)
                removedByUserMsg }
            (CheckAndHeal rsh.handler p.meta p.world).world,
          p.trace ++ [⟨.CheckCluster, none⟩] ++ (CheckAndHeal rsh.handler p.meta p.world).trace ++
            [⟨.SetClusterError, none⟩, ⟨.CreateCluster, none⟩, ⟨.K8sUpdateCluster, none⟩]⟩
      else
        ⟨some e, p.meta.Obj, (CheckAndHeal rsh.handler p.meta p.world).world,
          p.trace ++ [⟨.CheckCluster, none⟩] ++ (CheckAndHeal rsh.handler p.meta p.world).trace ++
            [⟨.SetClusterError, none⟩]⟩ := by
  unfold ControllerHandler.checkAndHeal RedisSentinelStatus.firstIsHealthy
  simp only [hcheck, hretry, ne_eq, not_true_eq_false, if_false, removedByUserMsg]
  cases hconds : p.meta.Obj.Status.Conditions with
  | nil => simp
  | cons c rest =>
    by_cases hc : c.type = ClusterConditionHealthy
    · simp [hc]
    · simp [hc]

end Retry

/-- C19 at the failing input: the example object after a `Create` pass and a healthy
`Check` pass lists its conditions in the order they were first set, `Creating` then
`Healthy`, and `Healthy` is the one with the latest update time.  A third pass, in which
the Redis replica count is short, returns the retry error, tests only the first condition
of the list, and leaves the status as it is: no `Creating` condition is set and no
`CreateCluster` event is sent. -/
theorem Do_retry_after_healthy_pass_sets_nothing :
    ((createController healthyHandler).Do (demoCluster emptyStatus) (3 * Second)).err = none ∧
    ((demoController healthyHandler .Check).Do createdCluster (9 * Second)).err = none ∧
    settledCluster.Status.Conditions =
      [{ type := "Creating", Status := "True", LastUpdateTime := 3,
         LastUpdateAt := 3 * Second, LastTransitionTime := 3, Reason := "Creating",
         Message := "Bootstrap redis cluster" },
       { type := "Healthy", Status := "True", LastUpdateTime := 9,
         LastUpdateAt := 9 * Second, LastTransitionTime := 3, Reason := "Cluster available",
         Message := "Cluster ok" }] ∧
    (∃ c ∈ settledCluster.Status.Conditions, c.type = ClusterConditionHealthy ∧
      ∀ x ∈ settledCluster.Status.Conditions, x ≠ c → x.LastUpdateAt < c.LastUpdateAt) ∧
    ((demoController redisShortHandler .Check).Do settledCluster (12 * Second)).err
      = some needRequeueErr ∧
    ((demoController redisShortHandler .Check).Do settledCluster (12 * Second)).rc.Status
      = settledCluster.Status ∧
    Call.CreateCluster ∉
      ((demoController redisShortHandler .Check).Do settledCluster (12 * Second)).calls := by
  refine ⟨by decide, by decide, by decide, by decide, by decide, by decide, by decide⟩

/-- What `Do` does when `CheckAndHeal` returns an error with the retry text: it returns
that error, and it sets the `Creating` condition exactly when the condition list of the
status, as it is when `CheckAndHeal` is entered, is not empty and its first condition is
of type `Healthy`; otherwise it leaves the object as it is.  The first condition is one
with the latest update time when the list is in the order `DescConditionsByTime` gives. -/
theorem Do_retry_sets_creating_iff_first_healthy {W : Type} (rsh : ControllerHandler W)
    (rc : RedisSentinel) (w : W) (p : Ensured W) (e : GoError)
    (hensure : rsh.ensure rc w = .ok p)
    (hcheck : (CheckAndHeal rsh.handler p.meta p.world).err = some e)
    (hretry : e.msg = needRequeueMsg) :
    (rsh.Do rc w).err = some e ∧
    (p.meta.Obj.Status.firstIsHealthy = true →
      (rsh.Do rc w).rc =
        { p.meta.Obj with
          Status := p.meta.Obj.Status.SetCreateCondition
            (rsh.handler.Time.Now (CheckAndHeal rsh.handler p.meta p.world).world)
            removedByUserMsg } ∧
      (rsh.Do rc w).trace =
        p.trace ++ [⟨.CheckCluster, none⟩] ++ (CheckAndHeal rsh.handler p.meta p.world).trace ++
          [⟨.SetClusterError, none⟩, ⟨.CreateCluster, none⟩, ⟨.K8sUpdateCluster, none⟩]) ∧
    (p.meta.Obj.Status.firstIsHealthy = false →
      (rsh.Do rc w).rc = p.meta.Obj ∧
      (rsh.Do rc w).trace =
        p.trace ++ [⟨.CheckCluster, none⟩] ++ (CheckAndHeal rsh.handler p.meta p.world).trace ++
          [⟨.SetClusterError, none⟩]) ∧
    (p.meta.Obj.Status.firstIsHealthy = true ↔
      ∃ c rest, p.meta.Obj.Status.Conditions = c :: rest ∧ c.type = ClusterConditionHealthy) ∧
    (∀ c rest, p.meta.Obj.Status.Conditions = c :: rest →
      (c :: rest).Pairwise (fun a b => b.LastUpdateAt ≤ a.LastUpdateAt) →
      ∀ x ∈ p.meta.Obj.Status.Conditions, x.LastUpdateAt ≤ c.LastUpdateAt) := by
  rw [Do_of_ensure rsh hensure, checkAndHeal_of_retry rsh p e hcheck hretry]
  refine ⟨by split <;> rfl, ?_, ?_, ?_, ?_⟩
  · intro h; simp [h]
  · intro h; simp [h]
  · unfold RedisSentinelStatus.firstIsHealthy
    cases p.meta.Obj.Status.Conditions with
    | nil => simp
    | cons c rest => simp
  · intro c rest hconds hsorted x hx
    rw [hconds] at hx
    rcases List.mem_cons.mp hx with rfl | hx
    · exact Nat.le_refl _
    · exact (List.pairwise_cons.mp hsorted).1 x hx

/-- C20: when `CheckAndHeal` returns an error with the retry text, `Do` returns that
error, and the conditions of type `Failed` of the status after `Do` are those of the
status as it was when `CheckAndHeal` was entered, with all their fields: none is set,
added or refreshed.  After `CheckAndHeal` the only calls of `Do` are the error metric and,
when it sets the `Creating` condition, the `CreateCluster` event and the store of the
object. -/
theorem Do_retry_leaves_failed_conditions {W : Type} (rsh : ControllerHandler W)
    (rc : RedisSentinel) (w : W) (p : Ensured W) (e : GoError)
    (hensure : rsh.ensure rc w = .ok p)
    (hcheck : (CheckAndHeal rsh.handler p.meta p.world).err = some e)
    (hretry : e.msg = needRequeueMsg) :
    (rsh.Do rc w).err = some e ∧
    (rsh.Do rc w).rc.Status.failed = p.meta.Obj.Status.failed ∧
    ∃ tail : List Entry,
      (rsh.Do rc w).trace =
        p.trace ++ [⟨.CheckCluster, none⟩] ++ (CheckAndHeal rsh.handler p.meta p.world).trace ++
          tail ∧
      ∀ x ∈ tail, x.call = .SetClusterError ∨ x.call = .CreateCluster ∨
        x.call = .K8sUpdateCluster := by
  rw [Do_of_ensure rsh hensure, checkAndHeal_of_retry rsh p e hcheck hretry]
  split
  · refine ⟨rfl, ?_, _, rfl, by simp⟩
    exact setClusterCondition_failed _ _ _
      (show ClusterConditionCreating ≠ ClusterConditionFailed by decide)
  · exact ⟨rfl, rfl, _, rfl, by simp⟩

/-- Witness for C20: the example object with a failure on record, in a cluster that is
short of Redis replicas; the failure is still as it was after `Do`. -/
theorem Do_retry_leaves_failed_conditions_witness :
    ((demoController redisShortHandler .Check).Do (demoCluster healthyFirstStatus) 0).err
      = some needRequeueErr ∧
    ((demoController redisShortHandler .Check).Do (demoCluster healthyFirstStatus)
      0).rc.Status.failed =
      [newClusterCondition (9 * Second) ClusterConditionFailed ConditionTrue "Cluster failed"
        "redis unreachable"] :=
  have h := Do_retry_leaves_failed_conditions (demoController redisShortHandler .Check)
    (demoCluster healthyFirstStatus) 0 (demoEnsured healthyFirstStatus) needRequeueErr
    rfl rfl rfl
  ⟨h.1, h.2.1.trans (by decide)⟩

/-! ## What `Do` records in the status -/

section Holding

theorem getClusterConditionFrom_append_cons {t : ConditionType} (i : Nat)
    (pre post : List Condition) (c : Condition) (hpre : ∀ x ∈ pre, x.type ≠ t)
    (hc : c.type = t) :
    getClusterConditionFrom t i (pre ++ c :: post) = some (i + pre.length, c) := by
  induction pre generalizing i with
  | nil => simp [getClusterConditionFrom, hc]
  | cons a rest ih =>
    have ha : ¬ t = a.type := fun h => hpre a (List.mem_cons_self _ _) h.symm
    have hrest : ∀ x ∈ rest, x.type ≠ t := fun x hx => hpre x (List.mem_cons_of_mem _ hx)
    have hstep := ih (i + 1) hrest
    rw [Nat.add_assoc, Nat.add_comm 1] at hstep
    simpa [getClusterConditionFrom, ha] using hstep

theorem Holds_of_append_cons {rss : RedisSentinelStatus} {t : ConditionType}
    {pre post : List Condition} {c : Condition} (hl : rss.Conditions = pre ++ c :: post)
    (hpre : ∀ x ∈ pre, x.type ≠ t) (hc : c.type = t) :
    rss.Holds t c.Status c.Reason c.Message := by
  refine ⟨pre.length, c, ?_, ?_, hc, rfl, rfl, rfl⟩
  · unfold getClusterCondition
    rw [hl, getClusterConditionFrom_append_cons 0 pre post c hpre hc, Nat.zero_add]
  · rw [hl]; exact getElem?_append_cons_length pre post c

/-- After `setClusterCondition` the status holds the condition that was set. -/
theorem setClusterCondition_holds (rss : RedisSentinelStatus) (now : Nat) (c : Condition) :
    (rss.setClusterCondition now c).Holds c.type c.Status c.Reason c.Message := by
  rcases setClusterCondition_cases rss now c with ⟨hall, hres⟩ | ⟨pre, cp, post, hl, htype,
    hpre, ⟨hsame, hres⟩ | ⟨-, hres⟩⟩
  · exact Holds_of_append_cons hres hall rfl
  · have h := @Holds_of_append_cons (rss.setClusterCondition now c) c.type pre post
      { cp with LastUpdateAt := now, LastUpdateTime := formatRFC3339 now } hres hpre htype
    simpa [hsame.1, hsame.2.1, hsame.2.2] using h
  · exact Holds_of_append_cons hres hpre rfl

/-- The number of conditions of the type that was set: one if there was none, and as many
as before otherwise. -/
theorem setClusterCondition_countOf (rss : RedisSentinelStatus) (now : Nat) (c : Condition) :
    (rss.setClusterCondition now c).countOf c.type = max 1 (rss.countOf c.type) := by
  unfold RedisSentinelStatus.countOf
  rcases setClusterCondition_cases rss now c with ⟨hall, hres⟩ | ⟨pre, cp, post, hl, htype,
    hpre, ⟨-, hres⟩ | ⟨-, hres⟩⟩
  · have h0 : rss.Conditions.countP (fun x => x.type = c.type) = 0 :=
      List.countP_eq_zero.mpr fun x hx => by simpa using hall x hx
    rw [hres, List.countP_append, h0]
    simp
  · rw [hres, hl]
    simp only [List.countP_append, List.countP_cons, htype, decide_True, if_true]
    omega
  · rw [hres, hl]
    simp only [List.countP_append, List.countP_cons, htype, decide_True, if_true]
    omega

theorem RedisSentinelStatus.Holds.mem_conditions {rss : RedisSentinelStatus} {t : ConditionType}
    {status reason message : String} (h : rss.Holds t status reason message) :
    ∃ c ∈ rss.Conditions, c.type = t ∧ c.Status = status ∧ c.Reason = reason ∧
      c.Message = message := by
  obtain ⟨pos, c, -, hat, h⟩ := h
  exact ⟨c, (List.getElem?_eq_some_iff.mp hat).2 ▸ List.getElem_mem _, h⟩

end Holding

section DoPaths
variable {W : Type} (rsh : ControllerHandler W)

/-- What `Do` does when `Ensure` returns the error `e`. -/
theorem ensure_of_ensure_err (rc : RedisSentinel) (w : W) (e : GoError)
    (hvalid : rc.Validate.1 = none)
    (hensure : (rsh.Ensure (rsh.updateStatus (rsh.cache rc.Validate.2) w).rc
      (rsh.updateStatus (rsh.cache rc.Validate.2) w).world).1 = some e) :
    rsh.Do rc w =
      ⟨some e,
        { (rsh.updateStatus (rsh.cache rc.Validate.2) w).rc with
          Status := (rsh.updateStatus (rsh.cache rc.Validate.2) w).rc.Status.SetFailedCondition
            (rsh.handler.Time.Now (rsh.Ensure (rsh.updateStatus (rsh.cache rc.Validate.2) w).rc
              (rsh.updateStatus (rsh.cache rc.Validate.2) w).world).2) e.msg },
        rsh.UpdateCluster
          { (rsh.updateStatus (rsh.cache rc.Validate.2) w).rc with
            Status := (rsh.updateStatus (rsh.cache rc.Validate.2) w).rc.Status.SetFailedCondition
              (rsh.handler.Time.Now (rsh.Ensure (rsh.updateStatus (rsh.cache rc.Validate.2) w).rc
                (rsh.updateStatus (rsh.cache rc.Validate.2) w).world).2) e.msg }
          (rsh.Ensure (rsh.updateStatus (rsh.cache rc.Validate.2) w).rc
            (rsh.updateStatus (rsh.cache rc.Validate.2) w).world).2,
        (rsh.updateStatus (rsh.cache rc.Validate.2) w).trace ++
          [⟨.EnsureCluster, none⟩, ⟨.Ensure, some e⟩, ⟨.FailedCluster e.msg, none⟩,
            ⟨.K8sUpdateCluster, none⟩, ⟨.SetClusterError, none⟩]⟩ := by
  unfold ControllerHandler.Do ControllerHandler.ensure
  have hv : rc.Validate = (none, rc.Validate.2) := by
    rw [← hvalid]
  rw [hv]
  simp only [ControllerHandler.cache] at hensure ⊢
  simp only [hensure]

/-- What `Do` does once `CheckAndHeal` has returned an error without the retry text. -/
theorem checkAndHeal_of_fatal (p : Ensured W) (e : GoError)
    (hcheck : (CheckAndHeal rsh.handler p.meta p.world).err = some e)
    (hfatal : e.msg ≠ needRequeueMsg) :
    rsh.checkAndHeal p =
      ⟨some e,
        { p.meta.Obj with
          Status := p.meta.Obj.Status.SetFailedCondition
            (rsh.handler.Time.Now (CheckAndHeal rsh.handler p.meta p.world).world) e.msg },
        rsh.UpdateCluster
          { p.meta.Obj with
            Status := p.meta.Obj.Status.SetFailedCondition
              (rsh.handler.Time.Now (CheckAndHeal rsh.handler p.meta p.world).world) e.msg }
          (CheckAndHeal rsh.handler p.meta p.world).world,
        p.trace ++ [⟨.CheckCluster, none⟩] ++ (CheckAndHeal rsh.handler p.meta p.world).trace ++
          [⟨.SetClusterError, none⟩, ⟨.FailedCluster e.msg, none⟩,
            ⟨.K8sUpdateCluster, none⟩]⟩ := by
  unfold ControllerHandler.checkAndHeal
  simp only [hcheck, ne_eq, hfatal, not_false_eq_true, if_true]

/-- What `Do` does once `CheckAndHeal` has returned nil. -/
theorem checkAndHeal_of_ok (p : Ensured W)
    (hcheck : (CheckAndHeal rsh.handler p.meta p.world).err = none) :
    rsh.checkAndHeal p =
      ⟨none,
        { p.meta.Obj with
          Status := p.meta.Obj.Status.SetReadyCondition
            (rsh.handler.Time.Now (CheckAndHeal rsh.handler p.meta p.world).world)
            "Cluster ok" },
        rsh.UpdateCluster
          { p.meta.Obj with
            Status := p.meta.Obj.Status.SetReadyCondition
              (rsh.handler.Time.Now (CheckAndHeal rsh.handler p.meta p.world).world)
              "Cluster ok" }
          (CheckAndHeal rsh.handler p.meta p.world).world,
        p.trace ++ [⟨.CheckCluster, none⟩] ++ (CheckAndHeal rsh.handler p.meta p.world).trace ++
          [⟨.HealthCluster, none⟩, ⟨.K8sUpdateCluster, none⟩, ⟨.SetClusterOK, none⟩]⟩ := by
  unfold ControllerHandler.checkAndHeal
  simp only [hcheck]

end DoPaths

/-- C21: when `Ensure` returns the error `e`, and when `CheckAndHeal` returns the error
`e` whose text is not the retry text, `Do` returns `e`, and the status of the object
afterwards holds a condition of type `Failed` with status `True`, reason
"Cluster failed" and the text of `e` as message; `Do` also reports the failure with the
`FailedCluster` event carrying that text. -/
theorem Do_error_sets_failed {W : Type} (rsh : ControllerHandler W) (rc : RedisSentinel)
    (w : W) (e : GoError) :
    (rc.Validate.1 = none →
      (rsh.Ensure (rsh.updateStatus (rsh.cache rc.Validate.2) w).rc
        (rsh.updateStatus (rsh.cache rc.Validate.2) w).world).1 = some e →
      (rsh.Do rc w).err = some e ∧
      (rsh.Do rc w).rc.Status.Holds ClusterConditionFailed ConditionTrue "Cluster failed"
        e.msg ∧
      (∃ c ∈ (rsh.Do rc w).rc.Status.Conditions, c.type = ClusterConditionFailed ∧
        c.Status = ConditionTrue ∧ c.Reason = "Cluster failed" ∧ c.Message = e.msg) ∧
      ⟨.FailedCluster e.msg, none⟩ ∈ (rsh.Do rc w).trace) ∧
    (∀ p : Ensured W, rsh.ensure rc w = .ok p →
      (CheckAndHeal rsh.handler p.meta p.world).err = some e →
      e.msg ≠ needRequeueMsg →
      (rsh.Do rc w).err = some e ∧
      (rsh.Do rc w).rc.Status.Holds ClusterConditionFailed ConditionTrue "Cluster failed"
        e.msg ∧
      (∃ c ∈ (rsh.Do rc w).rc.Status.Conditions, c.type = ClusterConditionFailed ∧
        c.Status = ConditionTrue ∧ c.Reason = "Cluster failed" ∧ c.Message = e.msg) ∧
      ⟨.FailedCluster e.msg, none⟩ ∈ (rsh.Do rc w).trace) := by
  refine ⟨fun hvalid hensure => ?_, fun p hensure hcheck hfatal => ?_⟩
  · rw [ensure_of_ensure_err rsh rc w e hvalid hensure]
    have h := setClusterCondition_holds
      (rsh.updateStatus (rsh.cache rc.Validate.2) w).rc.Status
      (rsh.handler.Time.Now (rsh.Ensure (rsh.updateStatus (rsh.cache rc.Validate.2) w).rc
        (rsh.updateStatus (rsh.cache rc.Validate.2) w).world).2)
      (newClusterCondition
        (rsh.handler.Time.Now (rsh.Ensure (rsh.updateStatus (rsh.cache rc.Validate.2) w).rc
          (rsh.updateStatus (rsh.cache rc.Validate.2) w).world).2)
        ClusterConditionFailed ConditionTrue "Cluster failed" e.msg)
    exact ⟨rfl, h, h.mem_conditions, by simp⟩
  · rw [Do_of_ensure rsh hensure, checkAndHeal_of_fatal rsh p e hcheck hfatal]
    have h := setClusterCondition_holds p.meta.Obj.Status
      (rsh.handler.Time.Now (CheckAndHeal rsh.handler p.meta p.world).world)
      (newClusterCondition
        (rsh.handler.Time.Now (CheckAndHeal rsh.handler p.meta p.world).world)
        ClusterConditionFailed ConditionTrue "Cluster failed" e.msg)
    exact ⟨rfl, h, h.mem_conditions, by simp⟩

/-- Witness for C21: `Ensure` fails for the example object, and `CheckAndHeal` finds two
masters in the example cluster. -/
theorem Do_error_sets_failed_witness :
    ((ensureFailsController.Do (demoCluster failedStatus) 0).err
        = some ⟨"statefulset quota exceeded"⟩ ∧
      (ensureFailsController.Do (demoCluster failedStatus) 0).rc.Status.Holds
        ClusterConditionFailed ConditionTrue "Cluster failed" "statefulset quota exceeded") ∧
    (((demoController splitBrainHandler .Check).Do (demoCluster emptyStatus) 0).err
        = some moreThanOneMasterErr ∧
      ((demoController splitBrainHandler .Check).Do (demoCluster emptyStatus) 0).rc.Status.Holds
        ClusterConditionFailed ConditionTrue "Cluster failed" moreThanOneMasterErr.msg) :=
  have h1 := (Do_error_sets_failed ensureFailsController (demoCluster failedStatus) 0
    ⟨"statefulset quota exceeded"⟩).1 rfl rfl
  have h2 := (Do_error_sets_failed (demoController splitBrainHandler .Check)
    (demoCluster emptyStatus) 0 moreThanOneMasterErr).2 (demoEnsured emptyStatus) rfl rfl
    (by decide)
  ⟨⟨h1.1, h1.2.1⟩, ⟨h2.1, h2.2.1⟩⟩

/-- What `Do` leaves when `Validate`, `Ensure` and `CheckAndHeal` all succeed: it returns
nil after the `HealthCluster` event, the store of the object and the `SetClusterOK` metric,
and the status holds a condition of type `Healthy` with status `True`, reason
"Cluster available" and message "Cluster ok"; of that type there is one condition if the
status held none when `CheckAndHeal` was entered, and as many as it held otherwise. -/
theorem Do_success_status {W : Type} (rsh : ControllerHandler W) (rc : RedisSentinel)
    (w : W) (p : Ensured W)
    (hensure : rsh.ensure rc w = .ok p)
    (hcheck : (CheckAndHeal rsh.handler p.meta p.world).err = none) :
    (rsh.Do rc w).err = none ∧
    (rsh.Do rc w).rc.Status.Holds ClusterConditionHealthy ConditionTrue "Cluster available"
      "Cluster ok" ∧
    (∃ c ∈ (rsh.Do rc w).rc.Status.Conditions, c.type = ClusterConditionHealthy ∧
      c.Status = ConditionTrue ∧ c.Reason = "Cluster available" ∧ c.Message = "Cluster ok") ∧
    (rsh.Do rc w).rc.Status.countOf ClusterConditionHealthy =
      max 1 (p.meta.Obj.Status.countOf ClusterConditionHealthy) ∧
    (p.meta.Obj.Status.countOf ClusterConditionHealthy ≤ 1 →
      (rsh.Do rc w).rc.Status.countOf ClusterConditionHealthy = 1) ∧
    (rsh.Do rc w).trace =
      p.trace ++ [⟨.CheckCluster, none⟩] ++ (CheckAndHeal rsh.handler p.meta p.world).trace ++
        [⟨.HealthCluster, none⟩, ⟨.K8sUpdateCluster, none⟩, ⟨.SetClusterOK, none⟩] := by
  rw [Do_of_ensure rsh hensure, checkAndHeal_of_ok rsh p hcheck]
  have h := setClusterCondition_holds p.meta.Obj.Status
    (rsh.handler.Time.Now (CheckAndHeal rsh.handler p.meta p.world).world)
    (newClusterCondition
      (rsh.handler.Time.Now (CheckAndHeal rsh.handler p.meta p.world).world)
      ClusterConditionHealthy ConditionTrue "Cluster available" "Cluster ok")
  have hcount := setClusterCondition_countOf p.meta.Obj.Status
    (rsh.handler.Time.Now (CheckAndHeal rsh.handler p.meta p.world).world)
    (newClusterCondition
      (rsh.handler.Time.Now (CheckAndHeal rsh.handler p.meta p.world).world)
      ClusterConditionHealthy ConditionTrue "Cluster available" "Cluster ok")
  refine ⟨rfl, h, h.mem_conditions, hcount, fun hle => ?_, rfl⟩
  have hcount2 : (p.meta.Obj.Status.SetReadyCondition
      (rsh.handler.Time.Now (CheckAndHeal rsh.handler p.meta p.world).world)
      "Cluster ok").countOf ClusterConditionHealthy =
      max 1 (p.meta.Obj.Status.countOf ClusterConditionHealthy) := hcount
  show (p.meta.Obj.Status.SetReadyCondition
      (rsh.handler.Time.Now (CheckAndHeal rsh.handler p.meta p.world).world)
      "Cluster ok").countOf ClusterConditionHealthy = 1
  rw [hcount2]
  omega

/-! ## The metrics calls of `Do` -/

section Metrics
variable {W : Type}

theorem filter_isMetric_of_calls {P : Call → Bool} {t : List Entry}
    (h : ∀ x ∈ t, P x.call = true) (hP : ∀ c, P c = true → c.isMetric = false) :
    (t.map Entry.call).filter Call.isMetric = [] := by
  rw [List.filter_eq_nil_iff]
  intro c hc
  obtain ⟨x, hx, rfl⟩ := List.mem_map.mp hc
  simp [hP _ (h x hx)]

/-- A pass of `CheckAndHeal` makes no call on the metrics client. -/
theorem CheckAndHeal_no_metric (rsh : RedisSentinelHandler W) (meta : Meta) (w : W) :
    ((CheckAndHeal rsh meta w).trace.map Entry.call).filter Call.isMetric = [] := by
  have hcalls : (CheckAndHeal rsh meta w).Calls fun c => !c.isMetric := by
    unfold CheckAndHeal
    split
    · intro x hx; simp at hx; rcases hx with rfl | rfl <;> rfl
    · split
      · intro x hx; simp at hx; rcases hx with rfl | rfl | rfl <;> rfl
      · refine Outcome.Calls.after_calls (by intro x hx; simp at hx; rcases hx with rfl | rfl <;> rfl) ?_
        split
        · intro x hx; simp at hx; subst hx; rfl
        · refine Outcome.Calls.after_calls (by intro x hx; simp at hx; subst hx; rfl) ?_
          refine Outcome.Calls.andThen_calls
            ((electMaster_calls rsh meta _ w).mono fun c hc => by
              cases c <;> simp_all [Call.ofElectMaster, Call.isMetric])
            fun w1 => (healTopology_calls rsh meta w1).mono fun c hc => by
              cases c <;> simp_all [Call.ofHealTopology, Call.beforeSentinelConfig,
                Call.ofRewireSlaves, Call.ofSetRedisConfig, Call.ofCheckMonitors,
                Call.ofRestoreSlaves, Call.ofRestorePeers, Call.ofSetSentinelConfig,
                Call.isMetric]
  exact @filter_isMetric_of_calls (fun c => !c.isMetric) _ hcalls fun c hc => by simpa using hc

/-- The status update of `Do` makes no call on the metrics client. -/
theorem updateStatus_no_metric (rsh : ControllerHandler W) (meta : Meta) (w : W) :
    ((rsh.updateStatus meta w).trace.map Entry.call).filter Call.isMetric = [] := by
  unfold ControllerHandler.updateStatus
  split
  · simp only [List.map_cons, List.map_nil]
    split_ifs <;> rfl
  · rfl

end Metrics

section DoPaths
variable {W : Type} (rsh : ControllerHandler W)

/-- What `Do` does when `Validate` returns the error `e`. -/
theorem Do_of_invalid (rc : RedisSentinel) (w : W) (e : GoError)
    (hvalid : rc.Validate.1 = some e) :
    rsh.Do rc w = ⟨some e, rc.Validate.2, w, [⟨.SetClusterError, none⟩]⟩ := by
  unfold ControllerHandler.Do ControllerHandler.ensure
  have hv : rc.Validate = (some e, rc.Validate.2) := by
    rw [← hvalid]
  rw [hv]

/-- The state in which `Do` enters `CheckAndHeal` when `Validate` and `Ensure` return
nil. -/
theorem ensure_of_ensure_ok (rc : RedisSentinel) (w : W)
    (hvalid : rc.Validate.1 = none)
    (hensure : (rsh.Ensure (rsh.updateStatus (rsh.cache rc.Validate.2) w).rc
      (rsh.updateStatus (rsh.cache rc.Validate.2) w).world).1 = none) :
    rsh.ensure rc w = .ok
      ⟨{ rsh.cache rc.Validate.2 with Obj := (rsh.updateStatus (rsh.cache rc.Validate.2) w).rc },
        (rsh.Ensure (rsh.updateStatus (rsh.cache rc.Validate.2) w).rc
          (rsh.updateStatus (rsh.cache rc.Validate.2) w).world).2,
        (rsh.updateStatus (rsh.cache rc.Validate.2) w).trace ++
          [⟨.EnsureCluster, none⟩, ⟨.Ensure, none⟩]⟩ := by
  unfold ControllerHandler.ensure
  have hv : rc.Validate = (none, rc.Validate.2) := by
    rw [← hvalid]
  rw [hv]
  simp only [ControllerHandler.cache] at hensure ⊢
  simp only [hensure]

/-- The metrics call of the second part of `Do`. -/
theorem checkAndHeal_metric (p : Ensured W)
    (hpre : (p.trace.map Entry.call).filter Call.isMetric = []) :
    (rsh.checkAndHeal p).calls.filter Call.isMetric =
      [match (rsh.checkAndHeal p).err with
        | none => Call.SetClusterOK
        | some _ => Call.SetClusterError] := by
  cases hcheck : (CheckAndHeal rsh.handler p.meta p.world).err with
  | none =>
    rw [checkAndHeal_of_ok rsh p hcheck]
    simp [DoOutcome.calls, List.filter_append, hpre, CheckAndHeal_no_metric, Call.isMetric]
  | some e =>
    by_cases hretry : e.msg = needRequeueMsg
    · rw [checkAndHeal_of_retry rsh p e hcheck hretry]
      split <;>
        simp [DoOutcome.calls, List.filter_append, hpre, CheckAndHeal_no_metric,
          Call.isMetric]
    · rw [checkAndHeal_of_fatal rsh p e hcheck hretry]
      simp [DoOutcome.calls, List.filter_append, hpre, CheckAndHeal_no_metric, Call.isMetric]

end DoPaths

/-- C23: every run of `Do` makes exactly one call on the metrics client: `SetClusterOK`
when it returns nil and `SetClusterError` when it returns an error, whichever of its
returns is taken. -/
theorem Do_one_metric_call {W : Type} (rsh : ControllerHandler W) (rc : RedisSentinel)
    (w : W) :
    (rsh.Do rc w).calls.filter Call.isMetric =
      [match (rsh.Do rc w).err with
        | none => Call.SetClusterOK
        | some _ => Call.SetClusterError] ∧
    (rsh.Do rc w).calls.count .SetClusterOK =
      (if (rsh.Do rc w).err = none then 1 else 0) ∧
    (rsh.Do rc w).calls.count .SetClusterError =
      (if (rsh.Do rc w).err = none then 0 else 1) := by
  have key : (rsh.Do rc w).calls.filter Call.isMetric =
      [match (rsh.Do rc w).err with
        | none => Call.SetClusterOK
        | some _ => Call.SetClusterError] := by
    cases hvalid : rc.Validate.1 with
    | some e => rw [Do_of_invalid rsh rc w e hvalid]; rfl
    | none =>
      cases hensure : (rsh.Ensure (rsh.updateStatus (rsh.cache rc.Validate.2) w).rc
          (rsh.updateStatus (rsh.cache rc.Validate.2) w).world).1 with
      | some e =>
        rw [ensure_of_ensure_err rsh rc w e hvalid hensure]
        simp [DoOutcome.calls, List.filter_append, updateStatus_no_metric, Call.isMetric]
      | none =>
        have hp := ensure_of_ensure_ok rsh rc w hvalid hensure
        rw [Do_of_ensure rsh hp]
        exact checkAndHeal_metric rsh _
          (by simp [List.filter_append, updateStatus_no_metric, Call.isMetric])
  have hcount : ∀ c : Call, c.isMetric = true →
      (rsh.Do rc w).calls.count c = ((rsh.Do rc w).calls.filter Call.isMetric).count c := by
    intro c hc
    rw [List.count_filter hc]
  refine ⟨key, ?_, ?_⟩
  · rw [hcount _ (by rfl), key]
    cases (rsh.Do rc w).err <;> simp
  · rw [hcount _ (by rfl), key]
    cases (rsh.Do rc w).err <;> simp

/-! ## The status update of `Do` -/

theorem setClusterCondition_countOf_other (rss : RedisSentinelStatus) (now : Nat)
    (c : Condition) (t : ConditionType) (ht : c.type ≠ t) :
    (rss.setClusterCondition now c).countOf t = rss.countOf t := by
  unfold RedisSentinelStatus.countOf
  rcases setClusterCondition_cases rss now c with ⟨-, hres⟩ | ⟨pre, cp, post, hl, htype,
    -, ⟨-, hres⟩ | ⟨-, hres⟩⟩
  · rw [hres]; simp [ht]
  · have hcp : cp.type ≠ t := htype ▸ ht
    rw [hres, hl]; simp [hcp]
  · have hcp : cp.type ≠ t := htype ▸ ht
    rw [hres, hl]; simp [ht, hcp]

section Phase
variable {W : Type} (rsh : ControllerHandler W)

/-- What `updateStatus` leaves in the status, phase by phase. -/
theorem updateStatus_status (meta : Meta) (w : W) :
    (rsh.updateStatus meta w).rc.Status =
      if meta.State = StateType.Check then meta.Obj.Status
      else if meta.Status = ClusterConditionCreating then
        meta.Obj.Status.SetCreateCondition (rsh.handler.Time.Now w) meta.Message
      else if meta.Status = ClusterConditionScaling then
        meta.Obj.Status.SetScalingUpCondition (rsh.handler.Time.Now w) meta.Message
      else if meta.Status = ClusterConditionScalingDown then
        meta.Obj.Status.SetScalingDownCondition (rsh.handler.Time.Now w) meta.Message
      else if meta.Status = ClusterConditionUpgrading then
        meta.Obj.Status.SetUpgradingCondition (rsh.handler.Time.Now w) meta.Message
      else meta.Obj.Status.SetUpdatingCondition (rsh.handler.Time.Now w) meta.Message := by
  unfold ControllerHandler.updateStatus
  by_cases hstate : meta.State = StateType.Check
  · simp [hstate]
  · simp only [ne_eq, hstate, not_false_eq_true, if_true, if_false]
    split_ifs <;> rfl

/-- In the scale-down phase `updateStatus` sets a condition of type `Scaling`, and the
number of conditions of type `ScalingDown` stays what it was. -/
theorem updateStatus_of_scale_down (meta : Meta) (w : W)
    (hstate : meta.State ≠ StateType.Check)
    (hstatus : meta.Status = ClusterConditionScalingDown) :
    (rsh.updateStatus meta w).rc.Status.Holds ClusterConditionScaling ConditionTrue
      "Scaling down" meta.Message ∧
    (rsh.updateStatus meta w).rc.Status.countOf ClusterConditionScalingDown =
      meta.Obj.Status.countOf ClusterConditionScalingDown := by
  rw [updateStatus_status, if_neg hstate, hstatus]
  exact ⟨setClusterCondition_holds _ _ _,
    setClusterCondition_countOf_other _ _ _ _
      (show ClusterConditionScaling ≠ ClusterConditionScalingDown by decide)⟩

end Phase

/-- C24, as stated, fails for a scale-down: the cache entry of the example is in phase
`ScaleDown` and its condition type is `ScalingDown`, for an object with no condition yet.
After `updateStatus` the only condition of the status is of type `Scaling`, with reason
"Scaling down" and the message of the entry; no condition has the type of the entry. -/
theorem updateStatus_scale_down_sets_scaling_type :
    scaleDownMeta.State ≠ StateType.Check ∧
    scaleDownMeta.Status = "ScalingDown" ∧
    ((demoController healthyHandler .ScaleDown).updateStatus scaleDownMeta 0).rc.Status.Conditions
      = [{ type := "Scaling", Status := "True", LastUpdateTime := 0, LastUpdateAt := 0,
           LastTransitionTime := 0, Reason := "Scaling down", Message := "scale down to 3" }] ∧
    getClusterCondition
      ((demoController healthyHandler .ScaleDown).updateStatus scaleDownMeta 0).rc.Status
      scaleDownMeta.Status = none ∧
    ((demoController healthyHandler .ScaleDown).updateStatus scaleDownMeta 0).trace.map Entry.call
      = [.SlaveRemove "scale down to 3", .K8sUpdateCluster] := by
  refine ⟨by decide, by decide, by decide, by decide, by decide⟩

/-- C24, amended: outside the `Check` phase `updateStatus` sets a condition that reflects
the phase the cache inferred, with status `True` and the message of the cache entry.  For
the types `Creating`, `Scaling` and `Upgrading` of the entry the condition has that type;
for `ScalingDown` it has the type `Scaling`, which both scaling directions share, and the
reason "Scaling down", and the conditions of type `ScalingDown` are as many as before; for
every other type of the entry it has the type `Updating`.  In the `Check` phase the
object, so its conditions, is left as it is and no call is made. -/
theorem updateStatus_reflects_phase {W : Type} (rsh : ControllerHandler W) (meta : Meta)
    (w : W) :
    (meta.State = StateType.Check →
      (rsh.updateStatus meta w).rc = meta.Obj ∧ (rsh.updateStatus meta w).trace = []) ∧
    (meta.State ≠ StateType.Check →
      (meta.Status = ClusterConditionCreating →
        (rsh.updateStatus meta w).rc.Status.Holds meta.Status ConditionTrue "Creating"
          meta.Message) ∧
      (meta.Status = ClusterConditionScaling →
        (rsh.updateStatus meta w).rc.Status.Holds meta.Status ConditionTrue "Scaling up"
          meta.Message) ∧
      (meta.Status = ClusterConditionScalingDown →
        (rsh.updateStatus meta w).rc.Status.Holds ClusterConditionScaling ConditionTrue
          "Scaling down" meta.Message ∧
        (rsh.updateStatus meta w).rc.Status.countOf ClusterConditionScalingDown =
          meta.Obj.Status.countOf ClusterConditionScalingDown) ∧
      (meta.Status = ClusterConditionUpgrading →
        (rsh.updateStatus meta w).rc.Status.Holds meta.Status ConditionTrue
          "Cluster upgrading" meta.Message) ∧
      (meta.Status ≠ ClusterConditionCreating → meta.Status ≠ ClusterConditionScaling →
        meta.Status ≠ ClusterConditionScalingDown → meta.Status ≠ ClusterConditionUpgrading →
        (rsh.updateStatus meta w).rc.Status.Holds ClusterConditionUpdating ConditionTrue
          "Cluster updating" meta.Message)) := by
  refine ⟨fun hstate => ?_, fun hstate => ⟨fun h => ?_, fun h => ?_,
    fun h => updateStatus_of_scale_down rsh meta w hstate h, fun h => ?_,
    fun h1 h2 h3 h4 => ?_⟩⟩
  · simp [ControllerHandler.updateStatus, hstate]
  · rw [updateStatus_status, if_neg hstate, if_pos h, h]
    exact setClusterCondition_holds _ _ _
  · rw [updateStatus_status, if_neg hstate, h]
    exact setClusterCondition_holds _ _ _
  · rw [updateStatus_status, if_neg hstate, h]
    exact setClusterCondition_holds _ _ _
  · rw [updateStatus_status, if_neg hstate, if_neg h1, if_neg h2, if_neg h3, if_neg h4]
    exact setClusterCondition_holds _ _ _

/-- Witness for the amended C24: the scale-down of the example sets a `Scaling` condition
with reason "Scaling down", and in the `Check` phase the example object is left alone. -/
theorem updateStatus_reflects_phase_witness :
    ((demoController healthyHandler .ScaleDown).updateStatus scaleDownMeta 0).rc.Status.Holds
      ClusterConditionScaling ConditionTrue "Scaling down" "scale down to 3" ∧
    ((demoController healthyHandler .Check).updateStatus (demoMeta .Check) 0).rc
      = demoCluster emptyStatus :=
  ⟨((updateStatus_reflects_phase (demoController healthyHandler .ScaleDown) scaleDownMeta
      0).2 (by decide)).2.2.1 rfl |>.1,
    ((updateStatus_reflects_phase (demoController healthyHandler .Check) (demoMeta .Check)
      0).1 rfl).1⟩

/-! ## `Validate` -/

section Maps

theorem GoMap.get?_cons (k0 v0 : String) (rest : GoMap) (k : String) :
    GoMap.get? ((k0, v0) :: rest) k = if k = k0 then some v0 else GoMap.get? rest k := by
  by_cases h : k = k0
  · simp [GoMap.get?, List.lookup, h]
  · have h2 : (k == k0) = false := by simpa using h
    simp [GoMap.get?, List.lookup, h, h2]

theorem GoMap.get?_set_self (m : GoMap) (k v : String) : (m.set k v).get? k = some v := by
  induction m with
  | nil => simp [GoMap.set, GoMap.get?, List.lookup]
  | cons a rest ih =>
    obtain ⟨k0, v0⟩ := a
    by_cases h : k0 = k
    · simp [GoMap.set, GoMap.get?, List.lookup, h]
    · have h2 : (k == k0) = false := by simpa using fun h3 => h h3.symm
      simp only [GoMap.get?] at ih
      simp [GoMap.set, GoMap.get?, List.lookup, h, h2, ih]

theorem GoMap.get?_set_other (m : GoMap) (k v k1 : String) (h : k1 ≠ k) :
    (m.set k v).get? k1 = m.get? k1 := by
  induction m with
  | nil =>
    have h2 : (k1 == k) = false := by simpa using h
    simp [GoMap.set, GoMap.get?, List.lookup, h2]
  | cons a rest ih =>
    obtain ⟨k0, v0⟩ := a
    simp only [GoMap.get?] at ih
    by_cases h0 : k0 = k
    · subst h0
      have h2 : (k1 == k0) = false := by simpa using h
      simp [GoMap.set, GoMap.get?, List.lookup, h2]
    · by_cases h1 : k1 = k0
      · simp [GoMap.set, GoMap.get?, List.lookup, h0, h1]
      · have h2 : (k1 == k0) = false := by simpa using h1
        simp [GoMap.set, GoMap.get?, List.lookup, h0, h2, ih]

/-- Assigning to a key the value it has leaves the map as it is. -/
theorem GoMap.set_of_get? (m : GoMap) (k v : String) (h : m.get? k = some v) :
    m.set k v = m := by
  induction m with
  | nil => simp [GoMap.get?] at h
  | cons a rest ih =>
    obtain ⟨k0, v0⟩ := a
    by_cases h0 : k0 = k
    · subst h0
      simp [GoMap.get?, List.lookup] at h
      simp [GoMap.set, h]
    · have h2 : (k == k0) = false := by simpa using fun h3 => h0 h3.symm
      simp only [GoMap.get?, List.lookup, h2] at h
      simp [GoMap.set, h0, ih h]

/-- The lookup after `setConfigMapIfNotExist`: what was there, and the new value only for
the key itself when nothing was there. -/
theorem get?_setConfigMapIfNotExist (key value : String) (config : GoMap) (k : String) :
    (setConfigMapIfNotExist key value config).get? k =
      match config.get? k with
      | some x => some x
      | none => if k = key then some value else none := by
  unfold setConfigMapIfNotExist
  cases hkey : config.get? key with
  | some x =>
    cases hk : config.get? k with
    | some y => rfl
    | none =>
      have hne : k ≠ key := fun h => by rw [h, hkey] at hk; cases hk
      simp [hk, hne]
  | none =>
    by_cases h : k = key
    · subst h
      simp [GoMap.get?_set_self, hkey]
    · rw [GoMap.get?_set_other _ _ _ _ h]
      cases hk : config.get? k <;> simp [h]

theorem setConfigMapIfNotExist_of_some (key value : String) (config : GoMap) (x : String)
    (h : config.get? key = some x) : setConfigMapIfNotExist key value config = config := by
  simp [setConfigMapIfNotExist, h]

/-- The lookup after `enablePersistence`: what was there, and the default only for a key
that was absent. -/
theorem get?_enablePersistence (config : GoMap) (k : String) :
    (enablePersistence config).get? k =
      match config.get? k with
      | some x => some x
      | none => persistenceDefaults.get? k := by
  unfold enablePersistence
  simp only [get?_setConfigMapIfNotExist]
  cases config.get? k with
  | some x => rfl
  | none =>
    simp only [persistenceDefaults, GoMap.get?_cons]
    split_ifs <;> simp_all [GoMap.get?]

theorem get?_disablePersistence (config : GoMap) (k : String) :
    (disablePersistence config).get? k =
      if k = "save" then some "" else if k = "appendonly" then some "no"
      else config.get? k := by
  unfold disablePersistence
  by_cases h1 : k = "save"
  · subst h1; simp [GoMap.get?_set_self]
  · rw [GoMap.get?_set_other _ _ _ _ h1]
    by_cases h2 : k = "appendonly"
    · subst h2; simp [GoMap.get?_set_self]
    · rw [GoMap.get?_set_other _ _ _ _ h2]; simp [h1, h2]

end Maps

section Maps

theorem enablePersistence_idem (config : GoMap) :
    enablePersistence (enablePersistence config) = enablePersistence config := by
  have key : ∀ k d, persistenceDefaults.get? k = some d →
      ∃ x, (enablePersistence config).get? k = some x := by
    intro k d hd
    rw [get?_enablePersistence]
    cases config.get? k with
    | some x => exact ⟨x, rfl⟩
    | none => exact ⟨d, hd⟩
  obtain ⟨x1, h1⟩ := key "appendonly" "yes" rfl
  obtain ⟨x2, h2⟩ := key "auto-aof-rewrite-min-size" "536870912" rfl
  obtain ⟨x3, h3⟩ := key "auto-aof-rewrite-percentage" "100" rfl
  obtain ⟨x4, h4⟩ := key "repl-backlog-size" "62914560" rfl
  obtain ⟨x5, h5⟩ := key "repl-diskless-sync" "yes" rfl
  obtain ⟨x6, h6⟩ := key "aof-load-truncated" "yes" rfl
  obtain ⟨x7, h7⟩ := key "stop-writes-on-bgsave-error" "no" rfl
  obtain ⟨x8, h8⟩ := key "save" "900 1 300 10" rfl
  generalize enablePersistence config = c at *
  unfold enablePersistence
  rw [setConfigMapIfNotExist_of_some _ _ _ _ h1, setConfigMapIfNotExist_of_some _ _ _ _ h2,
    setConfigMapIfNotExist_of_some _ _ _ _ h3, setConfigMapIfNotExist_of_some _ _ _ _ h4,
    setConfigMapIfNotExist_of_some _ _ _ _ h5, setConfigMapIfNotExist_of_some _ _ _ _ h6,
    setConfigMapIfNotExist_of_some _ _ _ _ h7, setConfigMapIfNotExist_of_some _ _ _ _ h8]

theorem get?_validatedConfig (config : GoMap) (disable : Bool) (k : String) :
    (validatedConfig config disable).get? k =
      if disable = false then
        if k = "slave-priority" then some "1"
        else match config.get? k with
          | some x => some x
          | none => persistenceDefaults.get? k
      else
        if k = "save" then some "" else if k = "appendonly" then some "no"
        else if k = "slave-priority" then some "1" else config.get? k := by
  unfold validatedConfig
  cases disable with
  | false =>
    simp only [if_true, get?_enablePersistence]
    by_cases h : k = "slave-priority"
    · subst h; simp [GoMap.get?_set_self, defaultSlavePriority]
    · simp [GoMap.get?_set_other _ _ _ _ h, h]
  | true =>
    simp only [Bool.true_eq_false, if_false, get?_disablePersistence]
    by_cases h : k = "slave-priority"
    · subst h; simp [GoMap.get?_set_self, defaultSlavePriority]
    · simp [GoMap.get?_set_other _ _ _ _ h, h]

theorem validatedConfig_idem (config : GoMap) (disable : Bool) :
    validatedConfig (validatedConfig config disable) disable =
      validatedConfig config disable := by
  have hsp : (validatedConfig config disable).get? "slave-priority" = some "1" := by
    rw [get?_validatedConfig]; cases disable <;> simp
  have hset : (validatedConfig config disable).set "slave-priority" defaultSlavePriority =
      validatedConfig config disable := GoMap.set_of_get? _ _ _ hsp
  cases disable with
  | false =>
    have hfix : enablePersistence (validatedConfig config false) =
        validatedConfig config false := by
      simp only [validatedConfig, if_true]
      exact enablePersistence_idem _
    generalize validatedConfig config false = c at *
    simp only [validatedConfig, if_true, hset, hfix]
  | true =>
    have h1 : (validatedConfig config true).get? "appendonly" = some "no" := by
      rw [get?_validatedConfig]; simp
    have h2 : (validatedConfig config true).get? "save" = some "" := by
      rw [get?_validatedConfig]; simp
    generalize validatedConfig config true = c at *
    simp only [validatedConfig, Bool.true_eq_false, if_false, hset, disablePersistence,
      GoMap.set_of_get? _ _ _ h1, GoMap.set_of_get? _ _ _ h2]

end Maps

section Validation

/-- When `Validate` returns an error. -/
theorem Validate_err_iff (rc : RedisSentinel) :
    rc.Validate.1 ≠ none ↔
      (rc.Name.utf8ByteSize > maxNameLength ∨
        (rc.Spec.Size ≠ 0 ∧ rc.Spec.Size < defaultRedisNumber) ∨
        (rc.Spec.Sentinel.Replicas ≠ 0 ∧ rc.Spec.Sentinel.Replicas < defaultSentinelNumber)) := by
  unfold RedisSentinel.Validate
  by_cases h1 : rc.Name.utf8ByteSize > maxNameLength
  · simp [h1]
  · by_cases h2 : rc.Spec.Size ≠ 0 ∧ rc.Spec.Size < defaultRedisNumber
    · simp [h1, h2]
    · by_cases h3 : rc.Spec.Sentinel.Replicas ≠ 0 ∧
          rc.Spec.Sentinel.Replicas < defaultSentinelNumber
      · simp only [h1, h2, if_false, h3, if_true]
        simp [h3]
      · simp only [h1, h2, if_false, h3]
        simp

/-- The object that `Validate` leaves when it returns nil. -/
theorem Validate_of_ok (rc : RedisSentinel) (h : rc.Validate.1 = none) :
    rc.Validate.2 =
      { rc with
        Spec :=
          { Size := if rc.Spec.Size = 0 then defaultRedisNumber else rc.Spec.Size
            Image := if rc.Spec.Image = "" then defaultRedisImage else rc.Spec.Image
            Config := validatedConfig rc.Spec.Config rc.Spec.DisablePersistence
            DisablePersistence := rc.Spec.DisablePersistence
            Sentinel :=
              { Image :=
                  if rc.Spec.Sentinel.Image = "" then defaultRedisImage
                  else rc.Spec.Sentinel.Image
                Replicas :=
                  if rc.Spec.Sentinel.Replicas = 0 then defaultSentinelNumber
                  else rc.Spec.Sentinel.Replicas
                Resources :=
                  if rc.Spec.Sentinel.Resources.Size = 0 then defaultSentinelResource
                  else rc.Spec.Sentinel.Resources } } } := by
  have hno := (not_congr (Validate_err_iff rc)).mp (by simp [h])
  simp only [not_or] at hno
  obtain ⟨h1, h2, h3⟩ := hno
  unfold RedisSentinel.Validate
  simp only [h1, h2, h3, if_false, validatedConfig]

/-- An object that already has its defaults is left as it is. -/
theorem Validate_fixed (rc : RedisSentinel)
    (hname : ¬ rc.Name.utf8ByteSize > maxNameLength)
    (hsize : defaultRedisNumber ≤ rc.Spec.Size)
    (hreplicas : defaultSentinelNumber ≤ rc.Spec.Sentinel.Replicas)
    (himage : rc.Spec.Image ≠ "") (hsentinel : rc.Spec.Sentinel.Image ≠ "")
    (hresources : rc.Spec.Sentinel.Resources.Size ≠ 0)
    (hconfig : validatedConfig rc.Spec.Config rc.Spec.DisablePersistence = rc.Spec.Config) :
    rc.Validate = (none, rc) := by
  have h2 : ¬ (rc.Spec.Size ≠ 0 ∧ rc.Spec.Size < defaultRedisNumber) :=
    fun h => absurd hsize (not_le.mpr h.2)
  have h3 : ¬ (rc.Spec.Sentinel.Replicas ≠ 0 ∧
      rc.Spec.Sentinel.Replicas < defaultSentinelNumber) :=
    fun h => absurd hreplicas (not_le.mpr h.2)
  have hok : rc.Validate.1 = none := by
    by_contra hne
    rcases (Validate_err_iff rc).mp hne with h | h | h
    · exact hname h
    · exact h2 h
    · exact h3 h
  have hs0 : rc.Spec.Size ≠ 0 := by
    intro h0; rw [h0] at hsize; exact absurd hsize (by decide)
  have hr0 : rc.Spec.Sentinel.Replicas ≠ 0 := by
    intro h0; rw [h0] at hreplicas; exact absurd hreplicas (by decide)
  have hres := Validate_of_ok rc hok
  rw [Prod.ext_iff]
  refine ⟨hok, ?_⟩
  show rc.Validate.2 = rc
  rw [hres]
  simp only [hs0, hr0, himage, hsentinel, hresources, hconfig, if_false]

end Validation

section Names

theorem utf8Size_of_ascii (c : Char) (h : c.toNat < 128) : c.utf8Size = 1 := by
  have h1 : c.val ≤ 127 := by
    rw [UInt32.le_def]
    have : c.val.toNat < 128 := h
    show c.val.val ≤ (127 : UInt32).val
    rw [Fin.le_def]
    show c.val.toNat ≤ 127
    omega
  simp [Char.utf8Size, h1]

theorem utf8ByteSize_go_of_ascii (l : List Char) (h : ∀ c ∈ l, c.toNat < 128) :
    String.utf8ByteSize.go l = l.length := by
  induction l with
  | nil => rfl
  | cons a rest ih =>
    simp only [String.utf8ByteSize.go, List.length_cons,
      utf8Size_of_ascii a (h a (List.mem_cons_self _ _)),
      ih fun c hc => h c (List.mem_cons_of_mem _ hc)]

/-- For a text of ASCII characters the number of bytes is the number of characters. -/
theorem utf8ByteSize_of_ascii (s : String) (h : ∀ c ∈ s.data, c.toNat < 128) :
    s.utf8ByteSize = s.length := by
  cases s with
  | mk l => exact utf8ByteSize_go_of_ascii l h

end Names

/-- C25: `Validate` returns an error exactly when the name is longer than 48, or `Spec.Size`
is neither 0 nor at least 3, or `Spec.Sentinel.Replicas` is neither 0 nor at least 3.  When
it returns nil, `Spec.Size` and `Spec.Sentinel.Replicas` are 3 where the input was 0 and
the input value otherwise, so both are at least 3.  The length of the name is what `len`
gives, its number of bytes, which for a name of ASCII characters, as every Kubernetes
object name is, is its number of characters. -/
theorem Validate_error_iff_out_of_range (rc : RedisSentinel) :
    (rc.Validate.1 ≠ none ↔
      (rc.Name.utf8ByteSize > 48 ∨ (rc.Spec.Size ≠ 0 ∧ rc.Spec.Size < 3) ∨
        (rc.Spec.Sentinel.Replicas ≠ 0 ∧ rc.Spec.Sentinel.Replicas < 3))) ∧
    (rc.Validate.1 = none →
      rc.Validate.2.Spec.Size = (if rc.Spec.Size = 0 then 3 else rc.Spec.Size) ∧
      rc.Validate.2.Spec.Sentinel.Replicas =
        (if rc.Spec.Sentinel.Replicas = 0 then 3 else rc.Spec.Sentinel.Replicas) ∧
      3 ≤ rc.Validate.2.Spec.Size ∧ 3 ≤ rc.Validate.2.Spec.Sentinel.Replicas) ∧
    ((∀ c ∈ rc.Name.data, c.toNat < 128) → rc.Name.utf8ByteSize = rc.Name.length) := by
  refine ⟨Validate_err_iff rc, fun h => ?_, utf8ByteSize_of_ascii rc.Name⟩
  have hno := (not_congr (Validate_err_iff rc)).mp (by simp [h])
  simp only [not_or, not_and, defaultRedisNumber, defaultSentinelNumber] at hno
  obtain ⟨-, h2, h3⟩ := hno
  rw [Validate_of_ok rc h]
  refine ⟨rfl, rfl, ?_, ?_⟩
  · show 3 ≤ (if rc.Spec.Size = 0 then defaultRedisNumber else rc.Spec.Size)
    by_cases h0 : rc.Spec.Size = 0
    · simp [h0, defaultRedisNumber]
    · simpa [h0] using Int.not_lt.mp (h2 h0)
  · show 3 ≤ (if rc.Spec.Sentinel.Replicas = 0 then defaultSentinelNumber
      else rc.Spec.Sentinel.Replicas)
    by_cases h0 : rc.Spec.Sentinel.Replicas = 0
    · simp [h0, defaultSentinelNumber]
    · simpa [h0] using Int.not_lt.mp (h3 h0)

/-- Witness for C25: the object with sizes left out gets three of each, and the object
that asks for two Redis nodes is refused. -/
theorem Validate_error_iff_out_of_range_witness :
    (bareCluster false).Validate.1 = none ∧
    (bareCluster false).Validate.2.Spec.Size = 3 ∧
    (bareCluster false).Validate.2.Spec.Sentinel.Replicas = 3 ∧
    undersizedCluster.Validate.1 ≠ none :=
  have h := (Validate_error_iff_out_of_range (bareCluster false)).2.1 (by decide)
  ⟨by decide, h.1.trans (by decide), h.2.1.trans (by decide),
    (Validate_error_iff_out_of_range undersizedCluster).1.mpr (Or.inr (Or.inl (by decide)))⟩

/-- C26: when `Validate` returns nil, a second call on the object it left returns nil too
and leaves the whole object, so the whole `Spec` with its sizes, images, sentinel
resources and configuration, as it was after the first call. -/
theorem Validate_idempotent (rc : RedisSentinel) (h : rc.Validate.1 = none) :
    rc.Validate.2.Validate.1 = none ∧
    rc.Validate.2.Validate.2.Spec = rc.Validate.2.Spec ∧
    rc.Validate.2.Validate.2 = rc.Validate.2 := by
  have hno := (not_congr (Validate_err_iff rc)).mp (by simp [h])
  simp only [not_or, not_and] at hno
  obtain ⟨h1, h2, h3⟩ := hno
  have hfix : rc.Validate.2.Validate = (none, rc.Validate.2) := by
    apply Validate_fixed
    · rw [Validate_of_ok rc h]; exact h1
    · rw [Validate_of_ok rc h]
      by_cases h0 : rc.Spec.Size = 0
      · simp [h0]
      · simpa [h0] using Int.not_lt.mp (h2 h0)
    · rw [Validate_of_ok rc h]
      by_cases h0 : rc.Spec.Sentinel.Replicas = 0
      · simp [h0]
      · simpa [h0] using Int.not_lt.mp (h3 h0)
    · rw [Validate_of_ok rc h]
      by_cases h0 : rc.Spec.Image = ""
      · simp [h0, defaultRedisImage]
      · simp [h0]
    · rw [Validate_of_ok rc h]
      by_cases h0 : rc.Spec.Sentinel.Image = ""
      · simp [h0, defaultRedisImage]
      · simp [h0]
    · rw [Validate_of_ok rc h]
      show (if rc.Spec.Sentinel.Resources.Size = 0 then defaultSentinelResource
        else rc.Spec.Sentinel.Resources).Size ≠ 0
      by_cases h0 : rc.Spec.Sentinel.Resources.Size = 0
      · rw [if_pos h0]; decide
      · rw [if_neg h0]; exact h0
    · rw [Validate_of_ok rc h]
      exact validatedConfig_idem _ _
  rw [hfix]
  exact ⟨rfl, rfl, rfl⟩

/-- Witness for C26: the object with everything left out, validated twice. -/
theorem Validate_idempotent_witness :
    (bareCluster false).Validate.2.Validate.1 = none ∧
    (bareCluster false).Validate.2.Validate.2.Spec = (bareCluster false).Validate.2.Spec ∧
    (bareCluster false).Validate.2.Spec.Sentinel.Resources = defaultSentinelResource :=
  have h := Validate_idempotent (bareCluster false) (by decide)
  ⟨h.1, h.2.1, by decide⟩

/-- C27: when `Validate` returns nil, "slave-priority" is "1" in the configuration
afterwards.  With `DisablePersistence` false every other key that was in the input
configuration keeps its value, and a key that was not there gets the persistence default
if it has one and stays absent otherwise.  With `DisablePersistence` true "appendonly" is
"no" and "save" is "" afterwards whatever the input held, and every key other than these
and "slave-priority" is as in the input. -/
theorem Validate_config_frame (rc : RedisSentinel) (h : rc.Validate.1 = none) :
    rc.Validate.2.Spec.Config.get? "slave-priority" = some "1" ∧
    (rc.Spec.DisablePersistence = false →
      (∀ k v, k ≠ "slave-priority" → rc.Spec.Config.get? k = some v →
        rc.Validate.2.Spec.Config.get? k = some v) ∧
      (∀ k, k ≠ "slave-priority" → rc.Spec.Config.get? k = none →
        rc.Validate.2.Spec.Config.get? k = persistenceDefaults.get? k)) ∧
    (rc.Spec.DisablePersistence = true →
      rc.Validate.2.Spec.Config.get? "appendonly" = some "no" ∧
      rc.Validate.2.Spec.Config.get? "save" = some "" ∧
      ∀ k, k ≠ "slave-priority" → k ≠ "appendonly" → k ≠ "save" →
        rc.Validate.2.Spec.Config.get? k = rc.Spec.Config.get? k) ∧
    persistenceDefaults.get? "appendonly" = some "yes" ∧
    persistenceDefaults.get? "save" = some "900 1 300 10" := by
  rw [Validate_of_ok rc h]
  simp only [get?_validatedConfig]
  refine ⟨by cases rc.Spec.DisablePersistence <;> simp, fun hd => ⟨fun k v hk hv => ?_,
    fun k hk hv => ?_⟩, fun hd => ⟨by simp [hd], by simp [hd], fun k h1 h2 h3 => ?_⟩,
    rfl, rfl⟩
  · simp [hd, hk, hv]
  · simp [hd, hk, hv]
  · simp [hd, h1, h2, h3]

/-- Witness for C27: the example object keeps its own "save" and "maxmemory", gets the
default "appendonly", and with persistence disabled loses its "save". -/
theorem Validate_config_frame_witness :
    (bareCluster false).Validate.2.Spec.Config.get? "save" = some "60 1" ∧
    (bareCluster false).Validate.2.Spec.Config.get? "maxmemory" = some "100mb" ∧
    (bareCluster false).Validate.2.Spec.Config.get? "appendonly" = some "yes" ∧
    (bareCluster false).Validate.2.Spec.Config.get? "slave-priority" = some "1" ∧
    (bareCluster true).Validate.2.Spec.Config.get? "save" = some "" ∧
    (bareCluster true).Validate.2.Spec.Config.get? "appendonly" = some "no" :=
  have h := Validate_config_frame (bareCluster false) (by decide)
  have h2 := Validate_config_frame (bareCluster true) (by decide)
  ⟨(h.2.1 rfl).1 "save" "60 1" (by decide) (by decide),
    (h.2.1 rfl).1 "maxmemory" "100mb" (by decide) (by decide),
    ((h.2.1 rfl).2 "appendonly" (by decide) (by decide)).trans (by decide),
    h.1, (h2.2.2.1 rfl).2.1, (h2.2.2.1 rfl).1⟩

/-! ## The `Healthy` condition after a successful pass -/

section Invariant
variable {W : Type} (rsh : ControllerHandler W)

/-- `Validate` leaves the status as it is, whatever it returns. -/
theorem Validate_status (rc : RedisSentinel) : rc.Validate.2.Status = rc.Status := by
  unfold RedisSentinel.Validate
  dsimp only
  split_ifs <;> rfl

/-- The status update of `Do` keeps the condition types distinct. -/
theorem updateStatus_nodup (meta : Meta) (w : W) (h : meta.Obj.Status.types.Nodup) :
    (rsh.updateStatus meta w).rc.Status.types.Nodup := by
  rw [updateStatus_status]
  split_ifs
  · exact h
  all_goals exact setClusterCondition_nodup _ _ _ h

/-- When the first part of `Do` goes on to `CheckAndHeal`, `Validate` has returned nil and
the object is the one `updateStatus` left. -/
theorem ensure_ok_obj (rc : RedisSentinel) (w : W) (p : Ensured W)
    (hensure : rsh.ensure rc w = .ok p) :
    rc.Validate.1 = none ∧
    p.meta.Obj = (rsh.updateStatus (rsh.cache rc.Validate.2) w).rc := by
  cases hvalid : rc.Validate.1 with
  | some e =>
    have hv : rc.Validate = (some e, rc.Validate.2) := by rw [← hvalid]
    unfold ControllerHandler.ensure at hensure
    rw [hv] at hensure
    cases hensure
  | none =>
    refine ⟨rfl, ?_⟩
    cases hens : (rsh.Ensure (rsh.updateStatus (rsh.cache rc.Validate.2) w).rc
        (rsh.updateStatus (rsh.cache rc.Validate.2) w).world).1 with
    | some e =>
      have hv : rc.Validate = (none, rc.Validate.2) := by rw [← hvalid]
      unfold ControllerHandler.ensure at hensure
      rw [hv] at hensure
      simp only [ControllerHandler.cache] at hens
      simp only [hens] at hensure
      cases hensure
    | none =>
      rw [ensure_of_ensure_ok rsh rc w hvalid hens] at hensure
      cases hensure
      rfl

/-- Distinct condition types leave at most one condition of each type. -/
theorem countOf_le_one_of_nodup (rss : RedisSentinelStatus) (t : ConditionType)
    (h : rss.types.Nodup) : rss.countOf t ≤ 1 := by
  have hcount : rss.countOf t = rss.types.count t := by
    unfold RedisSentinelStatus.countOf RedisSentinelStatus.types
    rw [List.count, List.countP_map]
    congr 1
  rw [hcount]
  exact List.nodup_iff_count_le_one.mp h t

end Invariant

/-- C22: for an object whose status keeps the invariant of the condition list, at most one
condition of each type, when `Validate`, `Ensure` and `CheckAndHeal` all succeed `Do`
returns nil and the status afterwards holds exactly one condition of type `Healthy`, with
status `True`, reason "Cluster available" and message "Cluster ok"; the status still keeps
the invariant, and `Do` ends with the `HealthCluster` event, the store of the object and
the `SetClusterOK` metric. -/
theorem Do_success_sets_one_healthy {W : Type} (rsh : ControllerHandler W)
    (rc : RedisSentinel) (w : W) (p : Ensured W)
    (hinv : rc.Status.types.Nodup)
    (hensure : rsh.ensure rc w = .ok p)
    (hcheck : (CheckAndHeal rsh.handler p.meta p.world).err = none) :
    (rsh.Do rc w).err = none ∧
    (∃ c, (rsh.Do rc w).rc.Status.Conditions.filter
        (fun x => x.type = ClusterConditionHealthy) = [c] ∧
      c.Status = ConditionTrue ∧ c.Reason = "Cluster available" ∧ c.Message = "Cluster ok") ∧
    (rsh.Do rc w).rc.Status.countOf ClusterConditionHealthy = 1 ∧
    (rsh.Do rc w).rc.Status.Holds ClusterConditionHealthy ConditionTrue "Cluster available"
      "Cluster ok" ∧
    (rsh.Do rc w).rc.Status.types.Nodup ∧
    (rsh.Do rc w).trace =
      p.trace ++ [⟨.CheckCluster, none⟩] ++ (CheckAndHeal rsh.handler p.meta p.world).trace ++
        [⟨.HealthCluster, none⟩, ⟨.K8sUpdateCluster, none⟩, ⟨.SetClusterOK, none⟩] := by
  obtain ⟨-, hobj⟩ := ensure_ok_obj rsh rc w p hensure
  have hinvp : p.meta.Obj.Status.types.Nodup := by
    rw [hobj]
    exact updateStatus_nodup rsh _ w (by
      show rc.Validate.2.Status.types.Nodup
      rw [Validate_status]; exact hinv)
  obtain ⟨herr, hholds, ⟨c, hc, htype, hfields⟩, -, hone, htrace⟩ :=
    Do_success_status rsh rc w p hensure hcheck
  have hcount := hone (countOf_le_one_of_nodup _ _ hinvp)
  have hnodup : (rsh.Do rc w).rc.Status.types.Nodup := by
    rw [Do_of_ensure rsh hensure, checkAndHeal_of_ok rsh p hcheck]
    exact setClusterCondition_nodup _ _ _ hinvp
  refine ⟨herr, ⟨c, ?_, hfields⟩, hcount, hholds, hnodup, htrace⟩
  have hlen : ((rsh.Do rc w).rc.Status.Conditions.filter
      (fun x => x.type = ClusterConditionHealthy)).length = 1 := by
    rw [← List.countP_eq_length_filter]; exact hcount
  obtain ⟨d, hd⟩ := List.length_eq_one.mp hlen
  have hmem : c ∈ (rsh.Do rc w).rc.Status.Conditions.filter
      (fun x => x.type = ClusterConditionHealthy) :=
    List.mem_filter.mpr ⟨hc, by simpa using htype⟩
  rw [hd] at hmem ⊢
  rw [List.mem_singleton.mp hmem]

/-- Witness for C22: the example object with a failure on record, in the cluster in which
nothing needs healing. -/
theorem Do_success_sets_one_healthy_witness :
    ((demoController healthyHandler .Check).Do (demoCluster failedStatus) 0).err = none ∧
    ((demoController healthyHandler .Check).Do (demoCluster failedStatus) 0).rc.Status.countOf
      ClusterConditionHealthy = 1 ∧
    ((demoController healthyHandler .Check).Do (demoCluster failedStatus) 0).rc.Status.types
      = ["Failed", "Healthy"] :=
  have h := Do_success_sets_one_healthy (demoController healthyHandler .Check)
    (demoCluster failedStatus) 0 (demoEnsured failedStatus) (by decide) rfl rfl
  ⟨h.1, h.2.2.1, by decide⟩

end RedisOperator
